import Mathlib

/-!
# PIXISAdaptor: acquisition engine and property bridge

A shallow embedding of `PIXISAdaptorClass.cpp`, `PIXISPropSetListener.cpp` and
`PIXISPropGetListener.cpp`.

The C++ code is a sequence of calls into two external libraries: the vendor
camera SDK (picam) and the host image-acquisition framework (imaqkit), plus a
few Win32 calls.  The embedding passes an explicit `World` through every
function.  A `World` holds

* the adaptor object (its own members and the base-class flags it reads),
* the camera as the SDK presents it (a pending parameter model and the values
  held by the hardware),
* the ordered log of every external call issued so far.

Properties about "which calls, in which order" are statements about the log;
properties about values are statements about the adaptor and camera states.
-/

namespace PIXIS

/-! ## Machine numbers -/

/-- Value of a 64-bit or wider integer after conversion to a 32-bit signed
`int`: the representative of `x` modulo `2^32` in `[-2^31, 2^31)`. -/
def toInt32 (x : Int) : Int :=
  (x + 2147483648) % 4294967296 - 2147483648

/-- The C++ cast `(piint)x` of a `piflt`.  A `piflt` is carried as a rational
number; the code never does arithmetic on one.  The cast truncates toward
zero; when the truncated value is no signed 32-bit integer the conversion
instruction of the target stores `INT_MIN`. -/
def toPiint (x : Rat) : Int :=
  let t := Int.tdiv x.num x.den
  if -2147483648 ≤ t ∧ t ≤ 2147483647 then t else -2147483648

/-- The C++ expression `a / b` on two `int` values: the quotient truncated
toward zero.  It has no value when `b` is 0 and when `a` is `INT_MIN` and `b`
is -1, whose quotient is no `int`: the division instruction traps, and the
code guards against neither. -/
def intDiv (a b : Int) : Option Int :=
  if b = 0 then none
  else if a = -2147483648 ∧ b = -1 then none
  else some (Int.tdiv a b)

/-! ## picam.h: types and constants

The vendor header is not part of the repository.  Its enumerations are
rendered as inductive types, and the numeric constants the code names are
gathered in `PicamHeader` and taken as a parameter.
-/

/-- The enumeration `PicamValueType`.  `unlisted` stands for any value of the C
enum that is none of the eight enumerators (the `default:` label of a
`switch`). -/
inductive PicamValueType
  | Integer
  | Boolean
  | Enumeration
  | LargeInteger
  | FloatingPoint
  | Rois
  | Pulse
  | Modulations
  | unlisted (raw : Int)
  deriving DecidableEq, Repr

/-- The named constants of `picam.h` that the code refers to. -/
structure PicamHeader where
  PicamParameter_Rois : Int
  PicamParameter_ReadoutControlMode : Int
  PicamParameter_TriggerResponse : Int
  PicamParameter_ExposureTime : Int
  PicamParameter_KineticsWindowHeight : Int
  PicamParameter_FramesPerReadout : Int
  PicamReadoutControlMode_Kinetics : Int
  deriving DecidableEq, Repr

/-- The struct `PicamRoi`, fields in header order. -/
structure PicamRoi where
  x : Int
  width : Int
  x_binning : Int
  y : Int
  height : Int
  y_binning : Int
  deriving DecidableEq, Repr

/-- The struct `PicamRois`: `roi_array[0]` followed by the remaining regions,
so `roi_count = 1 + roi_rest.length`.  The SDK never reports an empty region
list, and the code only ever addresses `roi_array[0]`. -/
structure PicamRois where
  roi_array0 : PicamRoi
  roi_rest : List PicamRoi
  deriving DecidableEq, Repr

/-- The field `roi_count` of `PicamRois`. -/
def PicamRois.roi_count (r : PicamRois) : Nat :=
  1 + r.roi_rest.length

/-- The struct `PicamRangeConstraint`, reduced to the field the code reads. -/
structure PicamRangeConstraint where
  maximum : Rat
  deriving DecidableEq, Repr

/-- The struct `PicamRoisConstraint`, reduced to the fields the code reads. -/
structure PicamRoisConstraint where
  width_constraint : PicamRangeConstraint
  height_constraint : PicamRangeConstraint
  deriving DecidableEq, Repr

/-- The struct `PicamCollectionConstraint`: `values_array` (of `piflt`), with
`values_count` its length. -/
structure PicamCollectionConstraint where
  values_array : List Rat
  deriving DecidableEq, Repr

/-- A `PicamHandle` as the listeners hold it: `ofAdaptor` is the adaptor's
`_camera` (returned by `getCameraHandle`), `ofModel` is the handle that
`PicamAdvanced_GetCameraModel` wrote. -/
inductive PicamHandle
  | ofAdaptor
  | ofModel
  deriving DecidableEq, Repr

/-! ## The camera behind the SDK -/

/-- One set of parameter values, addressed by `PicamParameter`. -/
structure PicamParameters where
  integerValue : Int → Int
  largeIntegerValue : Int → Int
  floatingPointValue : Int → Rat
  roisValue : PicamRois

/-- The camera as seen through the SDK.  `model` holds the values that
`Picam_SetParameter*Value` writes and `Picam_GetParameter*Value` reads;
`device` holds what the hardware runs with.  `Picam_CommitParameters` moves
`model` to `device` when validation passes, and
`PicamAdvanced_RefreshParametersFromCameraDevice` moves `device` to `model`.
`valueType`, the constraints and `validate` are the SDK's own answers and are
left arbitrary. -/
structure PicamCamera where
  valueType : Int → PicamValueType
  model : PicamParameters
  device : PicamParameters
  roisConstraint : PicamParameters → PicamRoisConstraint
  collectionConstraint : PicamParameters → Int → PicamCollectionConstraint
  validate : PicamParameters → List Int

/-! ## External calls and the world -/

/-- The two `imaqkit::ICriticalSection` objects the adaptor creates. -/
inductive CriticalSection
  | acquisitionActiveGuard
  | grabSection
  deriving DecidableEq, Repr

/-- The texts handed to `imaqkit::adaptorWarn`. -/
inductive Warning
  | kineticsUpdate
  | failedToCommit
  | floater
  | enumerationString (value : Int)
  | notSendingFrame
  deriving DecidableEq, Repr

/-- The enumeration `PicamEnumeratedType`, as far as the code names it. -/
inductive PicamEnumeratedType
  | Parameter
  | TriggerResponse
  deriving DecidableEq, Repr

/-- The enumeration `PicamConstraintCategory`, as far as the code names it. -/
inductive PicamConstraintCategory
  | Capable
  | Required
  deriving DecidableEq, Repr

/-- One call that leaves the repository's code: into the host framework, into
Win32 or into the SDK.  Arguments are the ones the C++ passes; an entry of a
call that reports something back (a value read, the number of parameters that
failed to commit, a time-out) carries that as its last argument. -/
inductive Call
  | stop
  | restart
  | adaptorWarn (message : Warning)
  | enter (guard : CriticalSection)
  | leave (guard : CriticalSection)
  | makeFrame (imWidth imHeight : Int)
  | setImage (imWidth imHeight xOffset yOffset : Int)
  | setTime
  | receiveFrame
  | CreateThread
  | PostThreadMessage (idThread : Nat) (msg : Nat)
  | Sleep (ms : Nat)
  | WaitForSingleObject (handle : Nat) (ms : Nat)
  | CloseHandle (handle : Nat)
  | Picam_Acquire (readout_count : Int) (readout_time_out : Int) (timedOut : Bool)
  | Picam_GetParameterValueType (cam : PicamHandle) (parameter : Int) (type : PicamValueType)
  | Picam_GetEnumerationString (type : PicamEnumeratedType) (value : Int)
  | Picam_DestroyString
  | Picam_GetParameterIntegerValue (cam : PicamHandle) (parameter : Int) (value : Int)
  | Picam_GetParameterLargeIntegerValue (cam : PicamHandle) (parameter : Int) (value : Int)
  | Picam_GetParameterFloatingPointValue (cam : PicamHandle) (parameter : Int) (value : Rat)
  | Picam_GetParameterRoisValue (cam : PicamHandle) (parameter : Int) (value : PicamRois)
  | Picam_DestroyRois
  | Picam_SetParameterIntegerValue (cam : PicamHandle) (parameter : Int) (value : Int)
  | Picam_SetParameterFloatingPointValue (cam : PicamHandle) (parameter : Int) (value : Rat)
  | Picam_SetParameterRoisValue (cam : PicamHandle) (parameter : Int) (value : PicamRois)
  | Picam_GetParameterRoisConstraint (cam : PicamHandle) (parameter : Int)
      (category : PicamConstraintCategory) (constraint : PicamRoisConstraint)
  | Picam_DestroyRoisConstraints
  | Picam_GetParameterCollectionConstraint (cam : PicamHandle) (parameter : Int)
      (category : PicamConstraintCategory) (constraint : PicamCollectionConstraint)
  | Picam_DestroyCollectionConstraints
  | Picam_CommitParameters (cam : PicamHandle) (failed_parameter_count : Nat)
  | Picam_DestroyParameters
  | PicamAdvanced_GetCameraModel (cam : PicamHandle)
  | PicamAdvanced_RefreshParametersFromCameraDevice (cam : PicamHandle)
  deriving DecidableEq, Repr

/-- Whether a call writes a parameter value to the camera. -/
def Call.isWrite : Call → Bool
  | .Picam_SetParameterIntegerValue _ _ _ => true
  | .Picam_SetParameterFloatingPointValue _ _ _ => true
  | .Picam_SetParameterRoisValue _ _ _ => true
  | _ => false

/-- Whether a call is a commit. -/
def Call.isCommit : Call → Bool
  | .Picam_CommitParameters _ _ => true
  | _ => false

/-- Whether a call is the framework's `stop()` or `restart()`. -/
def Call.isStopOrRestart : Call → Bool
  | .stop => true
  | .restart => true
  | _ => false

/-- The engine property values that the adaptor reads by name through
`getAdaptorPropContainer()->getPropValue(...)`. -/
structure PropContainer where
  Readout_Control_Mode : Int
  Frames_per_Readout : Int
  ROIWidth : Int
  ROIHeight : Int
  ROIXOffset : Int
  ROIYOffset : Int
  ROIXBinning : Int
  ROIYBinning : Int
  Frames_Stride : Int
  deriving DecidableEq, Repr

/-- A `PIXISAdaptorClass` object.  The first five fields are state of the base
class `imaqkit::IAdaptor`, which the adaptor only reaches through `isOpen()`,
`isAcquiring()`, `getFrameCount()`, `incrementFrameCount()`,
`getTotalFramesPerTrigger()` and the property container; the others are the
members declared in `PIXISAdaptorClass.h`.  A `HANDLE` is `none` for `NULL`. -/
structure PIXISAdaptorClass where
  isOpen : Bool
  isAcquiring : Bool
  frameCount : Nat
  totalFramesPerTrigger : Nat
  propContainer : PropContainer
  _acquireThread : Option Nat
  _acquireThreadID : Nat
  _acquisitionActive : Bool
  deriving DecidableEq, Repr

/-- Everything a call can read or change. -/
structure World where
  adaptor : PIXISAdaptorClass
  camera : PicamCamera
  log : List Call

/-- Record one external call. -/
def World.call (w : World) (c : Call) : World :=
  { w with log := w.log ++ [c] }

/-- The calls of `after` that were issued since `before`. -/
def callsSince (before after : World) : List Call :=
  after.log.drop before.log.length

/-! ## Win32 constants (WinUser.h) -/

/-- The message number `WM_USER`. -/
def WM_USER : Nat := 1024

/-- The message number `WM_QUIT`. -/
def WM_QUIT : Nat := 18

/-! ## The SDK calls

Each function records the call and applies its effect on the camera.  Both
handles address the same camera: `_camera` is the handle `Picam_OpenCamera`
gave out, and `PicamAdvanced_GetCameraModel` hands back the model behind it.
-/

/-- The call `Picam_GetParameterValueType(cam, parameter, &type)`. -/
def Picam_GetParameterValueType (cam : PicamHandle) (parameter : Int) (w : World) :
    PicamValueType × World :=
  (w.camera.valueType parameter,
    w.call (.Picam_GetParameterValueType cam parameter (w.camera.valueType parameter)))

/-- The call `Picam_GetEnumerationString(type, value, &string)`; the string is
only ever logged. -/
def Picam_GetEnumerationString (type : PicamEnumeratedType) (value : Int) (w : World) : World :=
  w.call (.Picam_GetEnumerationString type value)

/-- The call `Picam_GetParameterIntegerValue(cam, parameter, &value)`. -/
def Picam_GetParameterIntegerValue (cam : PicamHandle) (parameter : Int) (w : World) :
    Int × World :=
  (w.camera.model.integerValue parameter,
    w.call (.Picam_GetParameterIntegerValue cam parameter (w.camera.model.integerValue parameter)))

/-- The call `Picam_GetParameterLargeIntegerValue(cam, parameter, &value)`. -/
def Picam_GetParameterLargeIntegerValue (cam : PicamHandle) (parameter : Int) (w : World) :
    Int × World :=
  (w.camera.model.largeIntegerValue parameter,
    w.call (.Picam_GetParameterLargeIntegerValue cam parameter
      (w.camera.model.largeIntegerValue parameter)))

/-- The call `Picam_GetParameterFloatingPointValue(cam, parameter, &value)`. -/
def Picam_GetParameterFloatingPointValue (cam : PicamHandle) (parameter : Int) (w : World) :
    Rat × World :=
  (w.camera.model.floatingPointValue parameter,
    w.call (.Picam_GetParameterFloatingPointValue cam parameter
      (w.camera.model.floatingPointValue parameter)))

/-- The call `Picam_GetParameterRoisValue(cam, parameter, &region)`: a fresh
copy of the regions, which the caller owns. -/
def Picam_GetParameterRoisValue (cam : PicamHandle) (parameter : Int) (w : World) :
    PicamRois × World :=
  (w.camera.model.roisValue,
    w.call (.Picam_GetParameterRoisValue cam parameter w.camera.model.roisValue))

/-- The call `Picam_SetParameterIntegerValue(cam, parameter, value)`. -/
def Picam_SetParameterIntegerValue (cam : PicamHandle) (parameter value : Int) (w : World) :
    World :=
  { w with
    camera := { w.camera with
      model := { w.camera.model with
        integerValue := Function.update w.camera.model.integerValue parameter value } }
    log := w.log ++ [.Picam_SetParameterIntegerValue cam parameter value] }

/-- The call `Picam_SetParameterFloatingPointValue(cam, parameter, value)`. -/
def Picam_SetParameterFloatingPointValue (cam : PicamHandle) (parameter : Int) (value : Rat)
    (w : World) : World :=
  { w with
    camera := { w.camera with
      model := { w.camera.model with
        floatingPointValue :=
          Function.update w.camera.model.floatingPointValue parameter value } }
    log := w.log ++ [.Picam_SetParameterFloatingPointValue cam parameter value] }

/-- The call `Picam_SetParameterRoisValue(cam, parameter, &value)`. -/
def Picam_SetParameterRoisValue (cam : PicamHandle) (parameter : Int) (value : PicamRois)
    (w : World) : World :=
  { w with
    camera := { w.camera with model := { w.camera.model with roisValue := value } }
    log := w.log ++ [.Picam_SetParameterRoisValue cam parameter value] }

/-- The call `Picam_GetParameterRoisConstraint(cam, parameter, category, &ptr)`. -/
def Picam_GetParameterRoisConstraint (cam : PicamHandle) (parameter : Int)
    (category : PicamConstraintCategory) (w : World) : PicamRoisConstraint × World :=
  (w.camera.roisConstraint w.camera.model,
    w.call (.Picam_GetParameterRoisConstraint cam parameter category
      (w.camera.roisConstraint w.camera.model)))

/-- The call `Picam_GetParameterCollectionConstraint(cam, parameter, category, &ptr)`. -/
def Picam_GetParameterCollectionConstraint (cam : PicamHandle) (parameter : Int)
    (category : PicamConstraintCategory) (w : World) : PicamCollectionConstraint × World :=
  (w.camera.collectionConstraint w.camera.model parameter,
    w.call (.Picam_GetParameterCollectionConstraint cam parameter category
      (w.camera.collectionConstraint w.camera.model parameter)))

/-- The call `Picam_CommitParameters(cam, &failed_parameter_array,
&failed_parameter_count)`: the model is validated; when no parameter fails it
becomes the device's configuration.  Returns `failed_parameter_count`. -/
def Picam_CommitParameters (cam : PicamHandle) (w : World) : Nat × World :=
  let failed := w.camera.validate w.camera.model
  (failed.length,
    { w with
      camera :=
        if failed.length = 0 then { w.camera with device := w.camera.model } else w.camera
      log := w.log ++ [.Picam_CommitParameters cam failed.length] })

/-- The call `PicamAdvanced_GetCameraModel(cam, &model)`. -/
def PicamAdvanced_GetCameraModel (cam : PicamHandle) (w : World) : PicamHandle × World :=
  (PicamHandle.ofModel, w.call (.PicamAdvanced_GetCameraModel cam))

/-- The call `PicamAdvanced_RefreshParametersFromCameraDevice(cam)`. -/
def PicamAdvanced_RefreshParametersFromCameraDevice (cam : PicamHandle) (w : World) : World :=
  { w with
    camera := { w.camera with model := w.camera.device }
    log := w.log ++ [.PicamAdvanced_RefreshParametersFromCameraDevice cam] }

/-- The call `imaqkit::adaptorWarn(id, message)`. -/
def adaptorWarn (message : Warning) (w : World) : World :=
  w.call (.adaptorWarn message)

/-! ## PIXISAdaptorClass.cpp -/

/-- The Win32 call `PostThreadMessage(idThread, msg, 0, 0)`. -/
def PostThreadMessage (idThread msg : Nat) (w : World) : World :=
  w.call (.PostThreadMessage idThread msg)

/-- The method `PIXISAdaptorClass::isAcquisitionActive`. -/
def isAcquisitionActive (w : World) : Bool :=
  w.adaptor._acquisitionActive

/-- The method `PIXISAdaptorClass::setAcquisitionActive`. -/
def setAcquisitionActive (state : Bool) (w : World) : World :=
  { w with adaptor := { w.adaptor with _acquisitionActive := state } }

/-- The method `PIXISAdaptorClass::isKineticsMode`. -/
def isKineticsMode (K : PicamHeader) (w : World) : Bool :=
  if w.adaptor.propContainer.Readout_Control_Mode = K.PicamReadoutControlMode_Kinetics then true
  else false

/-- The method `PIXISAdaptorClass::getFramesPerReadout`. -/
def getFramesPerReadout (w : World) : Int :=
  w.adaptor.propContainer.Frames_per_Readout

/-- The method `PIXISAdaptorClass::getMaxWidth`: `*width / *xBinning` on
`int`; `none` when the division has no value. -/
def getMaxWidth (w : World) : Option Int :=
  let width := w.adaptor.propContainer.ROIWidth
  let xBinning := w.adaptor.propContainer.ROIXBinning
  intDiv width xBinning

/-- The method `PIXISAdaptorClass::getMaxHeight`:
`*height * numFrames / *yBinning` on `int`, the product taken first; `none`
when the division has no value. -/
def getMaxHeight (w : World) : Option Int :=
  let height := w.adaptor.propContainer.ROIHeight
  let yBinning := w.adaptor.propContainer.ROIYBinning
  let numFrames := getFramesPerReadout w
  intDiv (toInt32 (height * numFrames)) yBinning

/-- The method `PIXISAdaptorClass::getXOffset`. -/
def getXOffset (w : World) : Int :=
  w.adaptor.propContainer.ROIXOffset

/-- The method `PIXISAdaptorClass::getYOffset`. -/
def getYOffset (w : World) : Int :=
  w.adaptor.propContainer.ROIYOffset

/-- The method `PIXISAdaptorClass::getFrameStride`. -/
def getFrameStride (w : World) : Int :=
  w.adaptor.propContainer.Frames_Stride

/-- The method `PIXISAdaptorClass::getNumberOfBands`. -/
def getNumberOfBands : Int := 1

/-- Modelled from the spec: `imaqkit::IAdaptor::isAcquisitionNotComplete` is
host-framework code.  The spec words the loop condition as "frame-budget not
exhausted" over `framesAcquired` and `framesRequestedPerTrigger`. -/
def isAcquisitionNotComplete (w : World) : Bool :=
  decide (w.adaptor.frameCount < w.adaptor.totalFramesPerTrigger)

/-- The framework method `imaqkit::IAdaptor::incrementFrameCount`. -/
def incrementFrameCount (w : World) : World :=
  { w with adaptor := { w.adaptor with frameCount := w.adaptor.frameCount + 1 } }

/-- What the surroundings answer during one handling of `WM_USER`, by pass of
the loop (counted from 0): whether `Picam_Acquire` runs into its time-out, and
what the framework's `isSendFrame()` says. -/
structure WorkerEnv where
  acquireTimesOut : Nat → Bool
  isSendFrame : Nat → Bool

/-- The part of one pass of the worker's loop after
`acquisitionActiveGuard->enter()`: from `Picam_Acquire` to `leave()`.  A pass
that sends its frame takes the frame size from `getMaxWidth()` and
`getMaxHeight()`, in this order; the result is `none` when one of the two
divisions has no value, and the pass ends there. -/
def passFromAcquire (env : WorkerEnv) (i : Nat) (w : World) : Option World :=
  let timedOut := env.acquireTimesOut i
  let w := w.call (.Picam_Acquire 1 3000 timedOut)
  let r : Option World :=
    if !timedOut then
      let r : Option World :=
        if env.isSendFrame i then
          (getMaxWidth w).bind fun imWidth =>
            (getMaxHeight w).bind fun imHeight =>
              let w := w.call (.makeFrame imWidth imHeight)
              let w := w.call (.setImage imWidth imHeight 0 0)
              let w := w.call .setTime
              some (w.call .receiveFrame)
        else
          some (adaptorWarn .notSendingFrame w)
      r.map incrementFrameCount
    else some w
  r.map fun w =>
    let w :=
      if w.adaptor.frameCount ≥ w.adaptor.totalFramesPerTrigger then setAcquisitionActive false w
      else w
    w.call (.leave .acquisitionActiveGuard)

/-- One pass of the body of the `while` loop in `acquireThread`, the pass
number being `i`: `acquisitionActiveGuard->enter()` and then the rest of the
body. -/
def acquirePass (env : WorkerEnv) (i : Nat) (w : World) : Option World :=
  passFromAcquire env i (w.call (.enter .acquisitionActiveGuard))

/-- The `while (isAcquisitionNotComplete() && isAcquisitionActive())` loop of
`acquireThread`, from pass `i` on.  `fuel` bounds the number of passes; the
result is `none` when the loop is still running after `fuel` passes, and when
a pass has no result. -/
def acquireLoop (env : WorkerEnv) : Nat → Nat → World → Option World
  | 0, _, w =>
    if isAcquisitionNotComplete w && isAcquisitionActive w then none else some w
  | fuel + 1, i, w =>
    if isAcquisitionNotComplete w && isAcquisitionActive w then
      match acquirePass env i w with
      | some w2 => acquireLoop env fuel (i + 1) w2
      | none => none
    else some w

/-- The `case WM_USER:` of `acquireThread`: the guard object is created
entered, the loop runs, and the guard object is released at the `break`. -/
def onBegin (env : WorkerEnv) (fuel : Nat) (w : World) : Option World :=
  let w := w.call (.enter .acquisitionActiveGuard)
  (acquireLoop env fuel 0 w).map fun w => w.call (.leave .acquisitionActiveGuard)

/-- The function `PIXISAdaptorClass::acquireThread`, run on the messages that
reach the thread, each with the surroundings of its handling.  `GetMessage`
ends the loop on `WM_QUIT`; any message other than `WM_USER` is skipped. -/
def acquireThread (fuel : Nat) : List (Nat × WorkerEnv) → World → Option World
  | [], w => some w
  | (msg, env) :: rest, w =>
    if msg = WM_QUIT then some w
    else if msg = WM_USER then
      match onBegin env fuel w with
      | some w => acquireThread fuel rest w
      | none => none
    else acquireThread fuel rest w

/-- The method `PIXISAdaptorClass::closeDevice`. -/
def closeDevice (w : World) : Bool × World :=
  if !w.adaptor.isOpen then (true, w)
  else
    let w :=
      match w.adaptor._acquireThread with
      | some h =>
        let w := PostThreadMessage w.adaptor._acquireThreadID WM_QUIT w
        let w := w.call (.WaitForSingleObject h 10000)
        let w := w.call (.CloseHandle h)
        { w with adaptor := { w.adaptor with _acquireThread := none } }
      | none => w
    (true, w)

/-- What Win32 answers during one `openDevice`: the outcome of `CreateThread`
(`none` for a `NULL` handle, else the handle and the thread identifier), and
how many times `PostThreadMessage` returns 0 before the new thread has its
message queue. -/
structure SpawnEnv where
  createThread : Option (Nat × Nat)
  postFailures : Nat

/-- The Win32 call `CreateThread(NULL, 0, acquireThread, this, 0,
&_acquireThreadID)`, its result assigned to `_acquireThread`. -/
def CreateThread (env : SpawnEnv) (w : World) : World :=
  let w := w.call .CreateThread
  match env.createThread with
  | some (h, id) =>
    { w with adaptor := { w.adaptor with _acquireThread := some h, _acquireThreadID := id } }
  | none => { w with adaptor := { w.adaptor with _acquireThread := none } }

/-- The loop `while (PostThreadMessage(id, WM_USER + 1, 0, 0) == 0) Sleep(1);`
of `openDevice`, with `failures` failing posts ahead of the one that goes
through. -/
def postUntilAccepted : Nat → World → World
  | 0, w => PostThreadMessage w.adaptor._acquireThreadID (WM_USER + 1) w
  | failures + 1, w =>
    let w := PostThreadMessage w.adaptor._acquireThreadID (WM_USER + 1) w
    let w := w.call (.Sleep 1)
    postUntilAccepted failures w

/-- The method `PIXISAdaptorClass::openDevice`. -/
def openDevice (env : SpawnEnv) (w : World) : Bool × World :=
  if w.adaptor.isOpen then (true, w)
  else
    let w := CreateThread env w
    if w.adaptor._acquireThread = none then
      let w := (closeDevice w).2
      (false, w)
    else
      let w := postUntilAccepted env.postFailures w
      (true, w)

/-- The method `PIXISAdaptorClass::startCapture`. -/
def startCapture (w : World) : Bool × World :=
  if w.adaptor.isAcquiring then (false, w)
  else
    let w := PostThreadMessage w.adaptor._acquireThreadID WM_USER w
    let w := setAcquisitionActive true w
    (true, w)

/-- The method `PIXISAdaptorClass::stopCapture`. -/
def stopCapture (w : World) : Bool × World :=
  if !w.adaptor.isOpen then (true, w)
  else
    let w := w.call (.enter .grabSection)
    let w := setAcquisitionActive false w
    let w := w.call (.leave .grabSection)
    (true, w)

/-! ## The host framework around the adaptor

`imaqkit::IAdaptor` drives the four virtual methods above through its own
`open()`, `close()`, `stop()` and `restart()` and keeps the flags behind
`isOpen()` and `isAcquiring()`.  That code is not in the repository.
-/

/-- Modelled from the spec: `imaqkit::IAdaptor::open` is host-framework code.
It runs `openDevice()`; the device counts as open once that has succeeded
("`open()`: idempotent — if already open, returns success immediately"). -/
def IAdaptor.open (env : SpawnEnv) (w : World) : Bool × World :=
  let r := openDevice env w
  (r.1, if r.1 then { r.2 with adaptor := { r.2.adaptor with isOpen := true } } else r.2)

/-- Modelled from the spec: `imaqkit::IAdaptor::close` is host-framework code.
It runs `closeDevice()`; the device counts as not open once that has
succeeded ("`close()`: idempotent — if not open, returns success"). -/
def IAdaptor.close (w : World) : Bool × World :=
  let r := closeDevice w
  (r.1, if r.1 then { r.2 with adaptor := { r.2.adaptor with isOpen := false } } else r.2)

/-- Modelled from the spec: `imaqkit::IAdaptor::stop` is host-framework code.
It runs `stopCapture()` and, as the comment in `applyValue` says, changes the
acquiring flag to false. -/
def IAdaptor.stop (w : World) : World :=
  let w := w.call .stop
  let w := (stopCapture w).2
  { w with adaptor := { w.adaptor with isAcquiring := false } }

/-- Modelled from the spec: `imaqkit::IAdaptor::restart` is host-framework
code.  As the comment in `applyValue` says it invokes `startCapture()`; the
device counts as acquiring once that has succeeded. -/
def IAdaptor.restart (w : World) : World :=
  let w := w.call .restart
  let r := startCapture w
  if r.1 then { r.2 with adaptor := { r.2.adaptor with isAcquiring := true } } else r.2

/-! ## The property listeners -/

/-- The enumeration `imaqkit::propertytypes`, as `notify` switches on it;
`other` is any value without a `case`. -/
inductive StorageType
  | DOUBLE
  | INT
  | STRING
  | other
  deriving DecidableEq, Repr

/-- What a listener asks of an `imaqkit::IPropInfo`. -/
structure IPropInfo where
  propertyIdentifier : Int
  propertyStorageType : StorageType
  deriving DecidableEq, Repr

/-- The memory behind a non-null `void* newValue`, by the type it is read
as. -/
structure NewValue where
  asDouble : Rat
  asInt : Int
  asString : String
  deriving DecidableEq, Repr

/-- The data members of a `PIXISPropSetListener` (`_parent` is the adaptor of
the world). -/
structure PIXISPropSetListener where
  _propInfo : IPropInfo
  _lastIntValue : Int
  _lastDoubleValue : Rat
  _lastStrValue : String
  deriving DecidableEq, Repr

/-- The test both listeners make on the identifier: `PicamParameter_Rois ==
propertyID || PicamParameter_Rois == propertyID - 1 || ... ||
PicamParameter_Rois == propertyID - 6`. -/
def isRoisIdentifier (K : PicamHeader) (propertyID : Int) : Bool :=
  K.PicamParameter_Rois == propertyID ||
  K.PicamParameter_Rois == propertyID - 1 ||
  K.PicamParameter_Rois == propertyID - 2 ||
  K.PicamParameter_Rois == propertyID - 3 ||
  K.PicamParameter_Rois == propertyID - 4 ||
  K.PicamParameter_Rois == propertyID - 5 ||
  K.PicamParameter_Rois == propertyID - 6

/-- The `if`/`else` that sets `type` in both listeners, for the handle `cam`
the listener uses there. -/
def valueTypeOf (K : PicamHeader) (cam : PicamHandle) (propertyID : Int) (w : World) :
    PicamValueType × World :=
  if isRoisIdentifier K propertyID then (PicamValueType.Rois, w)
  else
    let r := Picam_GetParameterValueType cam propertyID w
    (r.1, Picam_GetEnumerationString .Parameter propertyID r.2)

/-- The statements `Picam_CommitParameters(camera, &failedParameterArray,
&failedParameterCount); if (failedParameterCount) adaptorWarn(...)`, which
follow every write in `applyValue`. -/
def commitAndWarn (cam : PicamHandle) (w : World) : World :=
  let r := Picam_CommitParameters cam w
  if r.1 ≠ 0 then adaptorWarn .failedToCommit r.2 else r.2

/-- The writes of the kinetics branch of `applyValue`, up to and including
`Picam_SetParameterRoisValue`. -/
def kineticsUpdate (K : PicamHeader) (self : PIXISPropSetListener) (cam : PicamHandle)
    (parameter : Int) (w : World) : World :=
  let w := adaptorWarn .kineticsUpdate w
  let w := Picam_SetParameterIntegerValue cam K.PicamParameter_TriggerResponse 5 w
  let w := Picam_SetParameterIntegerValue cam parameter self._lastIntValue w
  let w := Picam_SetParameterFloatingPointValue cam K.PicamParameter_ExposureTime 10 w
  let w := Picam_SetParameterIntegerValue cam K.PicamParameter_KineticsWindowHeight 128 w
  let r := Picam_GetParameterRoisConstraint cam K.PicamParameter_Rois .Required w
  let ptrConstraint := r.1
  let w := r.2
  let readoutWidth := toPiint ptrConstraint.width_constraint.maximum
  let singleFrameHeight := toPiint ptrConstraint.height_constraint.maximum
  let w := w.call .Picam_DestroyRoisConstraints
  let r := Picam_GetParameterIntegerValue cam K.PicamParameter_FramesPerReadout w
  let framesPerReadout := r.1
  let w := r.2
  let _readoutHeight := toInt32 (singleFrameHeight * framesPerReadout)
  let theKineticsROI : PicamRoi :=
    { height := singleFrameHeight
      width := readoutWidth
      x := 0
      y := 0
      x_binning := 1
      y_binning := 1 }
  let roiSetup : PicamRois := { roi_array0 := theKineticsROI, roi_rest := [] }
  Picam_SetParameterRoisValue cam K.PicamParameter_Rois roiSetup w

/-- The loop `for (piint j = 0; j < capable->values_count; ++j)` of
`applyValue`, over `capable->values_array`. -/
def warnTriggerResponses : List Rat → World → World
  | [], w => w
  | v :: rest, w =>
    let w := Picam_GetEnumerationString .TriggerResponse (toPiint v) w
    let w := adaptorWarn (.enumerationString (toPiint v)) w
    warnTriggerResponses rest w

/-- The block of `applyValue` after the commit of a kinetics update: the
trigger responses the camera now allows are looked up and logged. -/
def logTriggerResponses (K : PicamHeader) (cam : PicamHandle) (w : World) : World :=
  let w := (Picam_GetParameterCollectionConstraint cam K.PicamParameter_TriggerResponse
    .Capable w).2
  let r := PicamAdvanced_GetCameraModel cam w
  let newCamera := r.1
  let w := r.2
  let w := PicamAdvanced_RefreshParametersFromCameraDevice newCamera w
  let r := Picam_GetParameterCollectionConstraint newCamera K.PicamParameter_TriggerResponse
    .Capable w
  let capable := r.1
  let w := r.2
  let w := warnTriggerResponses capable.values_array w
  let w := w.call .Picam_DestroyString
  w.call .Picam_DestroyCollectionConstraints

/-- The inner `switch (subID)` of `applyValue`: the assignment to one field of
`region->roi_array[0]`. -/
def assignRoiField (subID : Int) (value : Int) (region : PicamRois) : PicamRois :=
  if subID = 1 then { region with roi_array0 := { region.roi_array0 with height := value } }
  else if subID = 2 then { region with roi_array0 := { region.roi_array0 with width := value } }
  else if subID = 3 then { region with roi_array0 := { region.roi_array0 with x := value } }
  else if subID = 4 then { region with roi_array0 := { region.roi_array0 with y := value } }
  else if subID = 5 then
    { region with roi_array0 := { region.roi_array0 with x_binning := value } }
  else if subID = 6 then
    { region with roi_array0 := { region.roi_array0 with y_binning := value } }
  else region

/-- The `switch (type)` of `PIXISPropSetListener::applyValue`. -/
def applySwitch (K : PicamHeader) (self : PIXISPropSetListener) (cam : PicamHandle)
    (type : PicamValueType) (w : World) : World :=
  let propertyID := self._propInfo.propertyIdentifier
  let parameter := propertyID
  match type with
  | .Integer =>
    let w := Picam_SetParameterIntegerValue cam parameter self._lastIntValue w
    commitAndWarn cam w
  | .Boolean =>
    let w := Picam_SetParameterIntegerValue cam parameter self._lastIntValue w
    commitAndWarn cam w
  | .Enumeration =>
    let w :=
      if self._lastIntValue = K.PicamReadoutControlMode_Kinetics ∧
          parameter = K.PicamParameter_ReadoutControlMode then
        kineticsUpdate K self cam parameter w
      else
        Picam_SetParameterIntegerValue cam parameter self._lastIntValue w
    let w := commitAndWarn cam w
    if self._lastIntValue = K.PicamReadoutControlMode_Kinetics ∧
        parameter = K.PicamParameter_ReadoutControlMode then
      logTriggerResponses K cam w
    else w
  | .LargeInteger =>
    let w := Picam_SetParameterIntegerValue cam parameter self._lastIntValue w
    commitAndWarn cam w
  | .FloatingPoint =>
    let w := adaptorWarn .floater w
    let w := Picam_SetParameterFloatingPointValue cam parameter self._lastDoubleValue w
    commitAndWarn cam w
  | .Rois =>
    let r := PicamAdvanced_GetCameraModel cam w
    let modelCamera := r.1
    let w := r.2
    let w := PicamAdvanced_RefreshParametersFromCameraDevice modelCamera w
    let r := Picam_GetParameterRoisValue cam K.PicamParameter_Rois w
    let region := r.1
    let w := r.2
    let subID := propertyID - K.PicamParameter_Rois
    let region := assignRoiField subID self._lastIntValue region
    let w := Picam_SetParameterRoisValue cam K.PicamParameter_Rois region w
    let w := w.call .Picam_DestroyRois
    commitAndWarn cam w
  | .Pulse => w
  | .Modulations => w
  | .unlisted _ => w

/-- The method `PIXISPropSetListener::applyValue`. -/
def PIXISPropSetListener.applyValue (K : PicamHeader) (self : PIXISPropSetListener)
    (w : World) : World :=
  let wasAcquiring := w.adaptor.isAcquiring
  let w := if wasAcquiring then IAdaptor.stop w else w
  let propertyID := self._propInfo.propertyIdentifier
  let camera := PicamHandle.ofAdaptor
  let r := valueTypeOf K camera propertyID w
  let type := r.1
  let w := r.2
  let w := applySwitch K self camera type w
  let w := if wasAcquiring then IAdaptor.restart w else w
  w.call .Picam_DestroyParameters

/-- The method `PIXISPropSetListener::notify`; `newValue` is `none` for a null
pointer. -/
def PIXISPropSetListener.notify (K : PicamHeader) (self : PIXISPropSetListener)
    (propertyInfo : IPropInfo) (newValue : Option NewValue) (w : World) :
    PIXISPropSetListener × World :=
  match newValue with
  | none => (self, w)
  | some newValue =>
    let self := { self with _propInfo := propertyInfo }
    let self :=
      match self._propInfo.propertyStorageType with
      | .DOUBLE => { self with _lastDoubleValue := newValue.asDouble }
      | .INT => { self with _lastIntValue := newValue.asInt }
      | .STRING => { self with _lastStrValue := newValue.asString }
      | .other => self
    let w := if w.adaptor.isOpen then self.applyValue K w else w
    let w := self.applyValue K w
    (self, w)

/-- What `getValue` stored through `void* value`: an `int` or a `double`. -/
inductive SlotValue
  | asInt (v : Int)
  | asDouble (v : Rat)
  deriving DecidableEq, Repr

/-- The inner `switch (subID)` of `getValue`: the field of
`region->roi_array[0]` that is stored, if any. -/
def readRoiField (subID : Int) (region : PicamRois) : Option SlotValue :=
  if subID = 1 then some (.asInt region.roi_array0.height)
  else if subID = 2 then some (.asInt region.roi_array0.width)
  else if subID = 3 then some (.asInt region.roi_array0.x)
  else if subID = 4 then some (.asInt region.roi_array0.y)
  else if subID = 5 then some (.asInt region.roi_array0.x_binning)
  else if subID = 6 then some (.asInt region.roi_array0.y_binning)
  else none

/-- The method `PIXISPropGetListener::getValue`.  The first component is what
was stored through `value`; `none` means the slot was left untouched. -/
def getValue (K : PicamHeader) (propertyInfo : IPropInfo) (w : World) :
    Option SlotValue × World :=
  let propertyID := propertyInfo.propertyIdentifier
  let parameter := propertyID
  let inputCamera := PicamHandle.ofAdaptor
  let r := PicamAdvanced_GetCameraModel inputCamera w
  let camera := r.1
  let w := r.2
  let w := PicamAdvanced_RefreshParametersFromCameraDevice camera w
  let r := valueTypeOf K camera propertyID w
  let type := r.1
  let w := r.2
  match type with
  | .Integer =>
    let r := Picam_GetParameterIntegerValue camera parameter w
    (some (.asInt r.1), r.2)
  | .Boolean =>
    let r := Picam_GetParameterIntegerValue camera parameter w
    (some (.asInt r.1), r.2)
  | .Enumeration =>
    let r := Picam_GetParameterIntegerValue camera parameter w
    (some (.asInt r.1), r.2)
  | .LargeInteger =>
    let r := Picam_GetParameterLargeIntegerValue camera parameter w
    (some (.asInt (toInt32 r.1)), r.2)
  | .FloatingPoint =>
    let r := Picam_GetParameterFloatingPointValue camera parameter w
    (some (.asDouble r.1), r.2)
  | .Rois =>
    let subID := propertyID - K.PicamParameter_Rois
    let r := Picam_GetParameterRoisValue camera K.PicamParameter_Rois w
    let region := r.1
    let w := r.2
    (readRoiField subID region, w.call .Picam_DestroyRois)
  | .Pulse => (none, w)
  | .Modulations => (none, w)
  | .unlisted _ => (some (.asInt 22), w)

/-! ## Vocabulary of the statements -/

/-- The value of `type` that `applyValue` reaches its `switch` with: `Rois`
for the seven identifiers from `PicamParameter_Rois` on, else what the SDK
reports for the identifier. -/
def applyKind (K : PicamHeader) (self : PIXISPropSetListener) (w : World) : PicamValueType :=
  if isRoisIdentifier K self._propInfo.propertyIdentifier then .Rois
  else w.camera.valueType self._propInfo.propertyIdentifier

/-- The condition of the kinetics branch: the new value is
`PicamReadoutControlMode_Kinetics` and the parameter is
`PicamParameter_ReadoutControlMode`. -/
def isKineticsUpdate (K : PicamHeader) (self : PIXISPropSetListener) : Prop :=
  self._lastIntValue = K.PicamReadoutControlMode_Kinetics ∧
    self._propInfo.propertyIdentifier = K.PicamParameter_ReadoutControlMode

instance (K : PicamHeader) (self : PIXISPropSetListener) : Decidable (isKineticsUpdate K self) :=
  inferInstanceAs (Decidable (_ ∧ _))

/-- The world in which `applyValue` enters its `switch (type)`: after the
`stop()` of an acquiring device and after `type` has been set. -/
def worldAtSwitch (K : PicamHeader) (self : PIXISPropSetListener) (w : World) : World :=
  (valueTypeOf K .ofAdaptor self._propInfo.propertyIdentifier
    (if w.adaptor.isAcquiring then IAdaptor.stop w else w)).2

/-- The world in which `applyValue` leaves its `switch (type)`. -/
def worldAfterSwitch (K : PicamHeader) (self : PIXISPropSetListener) (w : World) : World :=
  applySwitch K self .ofAdaptor (applyKind K self w) (worldAtSwitch K self w)

/-- Whether a call is a device write or a commit. -/
def Call.isDevice (c : Call) : Bool :=
  c.isWrite || c.isCommit

/-- Whether a call is a device write, a commit, `stop()` or `restart()`. -/
def Call.isDeviceOrStopRestart (c : Call) : Bool :=
  c.isWrite || c.isCommit || c.isStopOrRestart

/-- The calls of the kinetics branch of `applyValue` ahead of its commit, for
the constraint and the frames-per-readout value the SDK reported. -/
def kineticsCalls (K : PicamHeader) (constraint : PicamRoisConstraint)
    (framesPerReadout : Int) : List Call :=
  [ Call.adaptorWarn .kineticsUpdate,
    Call.Picam_SetParameterIntegerValue .ofAdaptor K.PicamParameter_TriggerResponse 5,
    Call.Picam_SetParameterIntegerValue .ofAdaptor K.PicamParameter_ReadoutControlMode
      K.PicamReadoutControlMode_Kinetics,
    Call.Picam_SetParameterFloatingPointValue .ofAdaptor K.PicamParameter_ExposureTime 10,
    Call.Picam_SetParameterIntegerValue .ofAdaptor K.PicamParameter_KineticsWindowHeight 128,
    Call.Picam_GetParameterRoisConstraint .ofAdaptor K.PicamParameter_Rois .Required constraint,
    Call.Picam_DestroyRoisConstraints,
    Call.Picam_GetParameterIntegerValue .ofAdaptor K.PicamParameter_FramesPerReadout
      framesPerReadout,
    Call.Picam_SetParameterRoisValue .ofAdaptor K.PicamParameter_Rois
      { roi_array0 :=
          { x := 0
            width := toPiint constraint.width_constraint.maximum
            x_binning := 1
            y := 0
            height := toPiint constraint.height_constraint.maximum
            y_binning := 1 }
        roi_rest := [] } ]

/-- A run of calls with no device write, no commit, no `stop()` and no
`restart()` among them. -/
def Quiet (xs : List Call) : Prop :=
  ∀ c ∈ xs, c.isDeviceOrStopRestart = false

/-- From `w` to `w2` only quiet calls were issued and the adaptor object was
not touched. -/
def QuietStep (w w2 : World) : Prop :=
  ∃ xs, w2.log = w.log ++ xs ∧ Quiet xs ∧ w2.adaptor = w.adaptor

/-! ## A concrete camera and adaptor

Used to evaluate the definitions on explicit inputs.  The identifiers follow
the packing `(constraint type << 24) + (value type << 16) + index` of the
vendor header; the sensor is 1340 x 100 pixels.
-/

/-- Concrete values for the named constants. -/
def sampleHeader : PicamHeader :=
  { PicamParameter_Rois := 67436581
    PicamParameter_ReadoutControlMode := 50593818
    PicamParameter_TriggerResponse := 50593822
    PicamParameter_ExposureTime := 33685527
    PicamParameter_KineticsWindowHeight := 33620024
    PicamParameter_FramesPerReadout := 16842806
    PicamReadoutControlMode_Kinetics := 3 }

/-- The value type packed into bits 16 to 23 of an identifier. -/
def sampleValueType (parameter : Int) : PicamValueType :=
  let code := (parameter / 65536) % 256
  if code = 1 then .Integer
  else if code = 2 then .FloatingPoint
  else if code = 3 then .Boolean
  else if code = 4 then .Enumeration
  else if code = 5 then .Rois
  else if code = 6 then .LargeInteger
  else if code = 7 then .Pulse
  else if code = 8 then .Modulations
  else .unlisted code

/-- Parameter values with two frames per readout and a full-sensor region. -/
def sampleParameters : PicamParameters :=
  { integerValue := fun p => if p = sampleHeader.PicamParameter_FramesPerReadout then 2 else 1
    largeIntegerValue := fun _ => 5000000000
    floatingPointValue := fun _ => 25
    roisValue :=
      { roi_array0 := { x := 0, width := 1340, x_binning := 1, y := 0, height := 100,
                        y_binning := 1 }
        roi_rest := [] } }

/-- A camera that accepts every commit. -/
def sampleCamera : PicamCamera :=
  { valueType := sampleValueType
    model := sampleParameters
    device := sampleParameters
    roisConstraint := fun _ =>
      { width_constraint := { maximum := 1340 }, height_constraint := { maximum := 100 } }
    collectionConstraint := fun _ _ => { values_array := [1, 2, 3] }
    validate := fun _ => [] }

/-- An adaptor that is open and idle, asked for three frames per trigger. -/
def sampleAdaptor : PIXISAdaptorClass :=
  { isOpen := true
    isAcquiring := false
    frameCount := 0
    totalFramesPerTrigger := 3
    propContainer :=
      { Readout_Control_Mode := 1
        Frames_per_Readout := 2
        ROIWidth := 1340
        ROIHeight := 100
        ROIXOffset := 0
        ROIYOffset := 0
        ROIXBinning := 1
        ROIYBinning := 1
        Frames_Stride := 0 }
    _acquireThread := some 1
    _acquireThreadID := 7
    _acquisitionActive := false }

/-- The sample adaptor and camera with an empty log. -/
def sampleWorld : World :=
  { adaptor := sampleAdaptor, camera := sampleCamera, log := [] }

/-- The sample world while the device is acquiring. -/
def acquiringWorld : World :=
  { sampleWorld with
    adaptor := { sampleAdaptor with isAcquiring := true, _acquisitionActive := true } }

/-- A set listener holding the integer `v` for the property `propertyID`. -/
def sampleListener (propertyID v : Int) : PIXISPropSetListener :=
  { _propInfo := { propertyIdentifier := propertyID, propertyStorageType := .INT }
    _lastIntValue := v
    _lastDoubleValue := 0
    _lastStrValue := "" }

/-- The number of frames handed to the framework among `xs`. -/
def framesDelivered (xs : List Call) : Nat :=
  xs.count Call.receiveFrame

/-- The number of `Picam_Acquire` calls among `xs`. -/
def acquireCalls (xs : List Call) : Nat :=
  xs.countP fun c =>
    match c with
    | .Picam_Acquire _ _ _ => true
    | _ => false

/-- Surroundings in which no acquire times out and every frame is to be sent. -/
def sampleEnv : WorkerEnv :=
  { acquireTimesOut := fun _ => false, isSendFrame := fun _ => true }

/-- The sample world just after `startCapture`, with a frame budget of `N`. -/
def startedWorld (N : Nat) : World :=
  { sampleWorld with
    adaptor :=
      { sampleAdaptor with
        isAcquiring := true
        totalFramesPerTrigger := N
        _acquisitionActive := true } }

/-- The sample world before the device has been opened. -/
def closedWorld : World :=
  { sampleWorld with
    adaptor := { sampleAdaptor with isOpen := false, _acquireThread := none } }

/-- Win32 answers for an `openDevice` whose thread is created (handle 1, identifier 7) and
whose message queue accepts the third post. -/
def sampleSpawn : SpawnEnv :=
  { createThread := some (1, 7), postFailures := 2 }

/-- The value of `type` that `getValue` reaches its `switch` with. -/
def getKind (K : PicamHeader) (propertyInfo : IPropInfo) (w : World) : PicamValueType :=
  if isRoisIdentifier K propertyInfo.propertyIdentifier then .Rois
  else w.camera.valueType propertyInfo.propertyIdentifier

/-- Whether a call is `PicamAdvanced_RefreshParametersFromCameraDevice`. -/
def Call.isRefresh : Call → Bool
  | .PicamAdvanced_RefreshParametersFromCameraDevice _ => true
  | _ => false

/-- The handle of a call that reads a parameter's value or its value type;
`none` for every other call. -/
def Call.readHandle : Call → Option PicamHandle
  | .Picam_GetParameterValueType cam _ _ => some cam
  | .Picam_GetParameterIntegerValue cam _ _ => some cam
  | .Picam_GetParameterLargeIntegerValue cam _ _ => some cam
  | .Picam_GetParameterFloatingPointValue cam _ _ => some cam
  | .Picam_GetParameterRoisValue cam _ _ => some cam
  | _ => none

/-- A parameter of the pulse kind on the sample camera. -/
def samplePulseInfo : IPropInfo :=
  { propertyIdentifier := 84344926, propertyStorageType := .INT }

/-- The calls `getValue` issues after its refresh, given the device values the
refresh brought in. -/
def getValueTail (K : PicamHeader) (propertyInfo : IPropInfo) (w : World) : List Call :=
  let parameter := propertyInfo.propertyIdentifier
  if isRoisIdentifier K parameter then
    [ .Picam_GetParameterRoisValue .ofModel K.PicamParameter_Rois w.camera.device.roisValue,
      .Picam_DestroyRois ]
  else
    [ .Picam_GetParameterValueType .ofModel parameter (w.camera.valueType parameter),
      .Picam_GetEnumerationString .Parameter parameter ] ++
    match w.camera.valueType parameter with
    | .Integer | .Boolean | .Enumeration =>
      [ .Picam_GetParameterIntegerValue .ofModel parameter
          (w.camera.device.integerValue parameter) ]
    | .LargeInteger =>
      [ .Picam_GetParameterLargeIntegerValue .ofModel parameter
          (w.camera.device.largeIntegerValue parameter) ]
    | .FloatingPoint =>
      [ .Picam_GetParameterFloatingPointValue .ofModel parameter
          (w.camera.device.floatingPointValue parameter) ]
    | .Rois =>
      [ .Picam_GetParameterRoisValue .ofModel K.PicamParameter_Rois w.camera.device.roisValue,
        .Picam_DestroyRois ]
    | _ => []

/-- The six fields of a region in the order of their sub-identifiers 1..6:
height, width, x, y, x_binning, y_binning. -/
def roiFields (roi : PicamRoi) : List Int :=
  [roi.height, roi.width, roi.x, roi.y, roi.x_binning, roi.y_binning]

/-- A property as `getDeviceAttributes` hands it to the `imaqkit::IPropFactory`:
the name and value given to `createIntProperty` and the number given to
`setIdentifier`. -/
structure DeclaredProperty where
  name : String
  value : Int
  identifier : Int
  deriving DecidableEq, Repr

/-- The `case PicamValueType_Rois:` of `getDeviceAttributes` for the parameter
`sorted[i]`, whose regions `Picam_GetParameterRoisValue` returned as `region`:
the six properties in the order they are added. -/
def declareRoisProperties (parameter : Int) (region : PicamRois) : List DeclaredProperty :=
  let height := region.roi_array0.height
  let width := region.roi_array0.width
  let x_offset := region.roi_array0.x
  let y_offset := region.roi_array0.y
  let x_binning := region.roi_array0.x_binning
  let y_binning := region.roi_array0.y_binning
  [ { name := "ROIHeight", value := height, identifier := parameter + 1 },
    { name := "ROIWidth", value := width, identifier := parameter + 2 },
    { name := "ROIXOffset", value := x_offset, identifier := parameter + 3 },
    { name := "ROIYOffset", value := y_offset, identifier := parameter + 4 },
    { name := "ROIXBinning", value := x_binning, identifier := parameter + 5 },
    { name := "ROIYBinning", value := y_binning, identifier := parameter + 6 } ]

/-- The calls of one run of `applyValue` started in `w`. -/
def applyCalls (K : PicamHeader) (self : PIXISPropSetListener) (w : World) : List Call :=
  callsSince w (self.applyValue K w)

/-- Whether the `switch` of `applyValue` has a commit for this value type. -/
def hasCommit : PicamValueType → Bool
  | .Integer | .Boolean | .Enumeration | .LargeInteger | .FloatingPoint | .Rois => true
  | _ => false

/-- The world in which a `case` of the `switch` of `applyValue` reaches its
`Picam_CommitParameters`: everything the case does ahead of the commit. -/
def beforeCommit (K : PicamHeader) (self : PIXISPropSetListener) (cam : PicamHandle)
    (type : PicamValueType) (w : World) : World :=
  let propertyID := self._propInfo.propertyIdentifier
  match type with
  | .Integer | .Boolean | .LargeInteger =>
    Picam_SetParameterIntegerValue cam propertyID self._lastIntValue w
  | .Enumeration =>
    if self._lastIntValue = K.PicamReadoutControlMode_Kinetics ∧
        propertyID = K.PicamParameter_ReadoutControlMode then
      kineticsUpdate K self cam propertyID w
    else Picam_SetParameterIntegerValue cam propertyID self._lastIntValue w
  | .FloatingPoint =>
    Picam_SetParameterFloatingPointValue cam propertyID self._lastDoubleValue
      (adaptorWarn .floater w)
  | .Rois =>
    let w := (PicamAdvanced_GetCameraModel cam w).2
    let w := PicamAdvanced_RefreshParametersFromCameraDevice .ofModel w
    let r := Picam_GetParameterRoisValue cam K.PicamParameter_Rois w
    let region := assignRoiField (propertyID - K.PicamParameter_Rois) self._lastIntValue r.1
    (Picam_SetParameterRoisValue cam K.PicamParameter_Rois region r.2).call .Picam_DestroyRois
  | _ => w

/-- What a `case` of the `switch` of `applyValue` does after its commit and the
warning that may follow it. -/
def afterCommit (K : PicamHeader) (self : PIXISPropSetListener) (cam : PicamHandle)
    (type : PicamValueType) (w : World) : World :=
  match type with
  | .Enumeration =>
    if self._lastIntValue = K.PicamReadoutControlMode_Kinetics ∧
        self._propInfo.propertyIdentifier = K.PicamParameter_ReadoutControlMode then
      logTriggerResponses K cam w
    else w
  | _ => w

/-- The calls a `case` of `applyValue` may issue ahead of its commit: the two
progress warnings, the three kinds of write, and the reads that prepare a ROI
write. -/
def Call.isPreparation : Call → Bool
  | .adaptorWarn .kineticsUpdate => true
  | .adaptorWarn .floater => true
  | .Picam_SetParameterIntegerValue _ _ _ => true
  | .Picam_SetParameterFloatingPointValue _ _ _ => true
  | .Picam_SetParameterRoisValue _ _ _ => true
  | .Picam_GetParameterRoisConstraint _ _ _ _ => true
  | .Picam_DestroyRoisConstraints => true
  | .Picam_GetParameterIntegerValue _ _ _ => true
  | .PicamAdvanced_GetCameraModel _ => true
  | .PicamAdvanced_RefreshParametersFromCameraDevice _ => true
  | .Picam_GetParameterRoisValue _ _ _ => true
  | .Picam_DestroyRois => true
  | _ => false

/-- The calls of the block that looks up and logs the trigger responses. -/
def Call.isInformational : Call → Bool
  | .adaptorWarn (.enumerationString _) => true
  | .Picam_GetParameterCollectionConstraint _ _ _ _ => true
  | .PicamAdvanced_GetCameraModel _ => true
  | .PicamAdvanced_RefreshParametersFromCameraDevice _ => true
  | .Picam_GetEnumerationString _ _ => true
  | .Picam_DestroyString => true
  | .Picam_DestroyCollectionConstraints => true
  | _ => false

/-- Whether a call is the warning that follows a commit with failed
parameters. -/
def Call.isFailedCommitWarning : Call → Bool
  | .adaptorWarn .failedToCommit => true
  | _ => false

/-- Whether a call enters or leaves a critical section. -/
def Call.isGuard : Call → Bool
  | .enter _ => true
  | .leave _ => true
  | _ => false

/-- From `w` to `w2` only calls that satisfy `p` were issued. -/
def Emits (p : Call → Bool) (w w2 : World) : Prop :=
  ∃ xs, w2.log = w.log ++ xs ∧ ∀ c ∈ xs, p c = true

/-- The calls of `applyValue` around its `stop()`. -/
def stopCalls (w : World) : List Call :=
  if w.adaptor.isAcquiring then
    Call.stop ::
      (if w.adaptor.isOpen then [Call.enter .grabSection, Call.leave .grabSection] else [])
  else []

/-- The calls with which `applyValue` sets `type`. -/
def typeCalls (K : PicamHeader) (self : PIXISPropSetListener) (w : World) : List Call :=
  if isRoisIdentifier K self._propInfo.propertyIdentifier then []
  else
    [ Call.Picam_GetParameterValueType .ofAdaptor self._propInfo.propertyIdentifier
        (w.camera.valueType self._propInfo.propertyIdentifier),
      Call.Picam_GetEnumerationString .Parameter self._propInfo.propertyIdentifier ]

/-- The calls of `applyValue` around its `restart()`. -/
def restartCalls (w : World) : List Call :=
  if w.adaptor.isAcquiring then
    [Call.restart, Call.PostThreadMessage w.adaptor._acquireThreadID WM_USER]
  else []

/-- The world in which `applyValue` reaches its commit. -/
def worldBeforeCommit (K : PicamHeader) (self : PIXISPropSetListener) (w : World) : World :=
  beforeCommit K self .ofAdaptor (applyKind K self w) (worldAtSwitch K self w)

/-- The number of failed parameters the commit of `applyValue` reports. -/
def failedCount (K : PicamHeader) (self : PIXISPropSetListener) (w : World) : Nat :=
  ((worldBeforeCommit K self w).camera.validate (worldBeforeCommit K self w).camera.model).length

/-- The number of completed `applyValue` runs among `xs`: every run ends with
its one `Picam_DestroyParameters`, and nothing else issues that call. -/
def applyRuns (xs : List Call) : Nat :=
  xs.count Call.Picam_DestroyParameters

/-! ## Two threads on one device

The worker thread runs `acquireThread`; a caller thread runs a listener.  A
schedule is the order in which their calls are issued.
-/

/-- The two threads of control of one device instance. -/
inductive Thread
  | worker
  | caller
  deriving DecidableEq, Repr

/-- The other thread. -/
def Thread.other : Thread → Thread
  | .worker => .caller
  | .caller => .worker

/-- How deep thread `t` is inside the critical section `s` after the events
`es`: its entries minus its exits. -/
def holds (t : Thread) (s : CriticalSection) (es : List (Thread × Call)) : Nat :=
  es.count (t, Call.enter s) - es.count (t, Call.leave s)

/-- The calls of thread `t` in a schedule, in order. -/
def callsOf (t : Thread) (es : List (Thread × Call)) : List Call :=
  (es.filter fun e => e.1 = t).map fun e => e.2

/-- A schedule respects the critical sections when no thread enters a section
while the other thread is inside it. -/
def respectsGuards (es : List (Thread × Call)) : Bool :=
  (List.range es.length).all fun i =>
    match es[i]? with
    | some (t, .enter s) => holds t.other s (es.take i) == 0
    | _ => true

/-- Some device write or commit of the caller is issued while the worker is
inside the acquisition-active section. -/
def deviceCallInsideAcquisitionGuard (es : List (Thread × Call)) : Bool :=
  (List.range es.length).any fun i =>
    match es[i]? with
    | some (.caller, c) =>
      c.isDevice && decide (0 < holds .worker .acquisitionActiveGuard (es.take i))
    | _ => false

/-- Whether pass `i` of the worker's loop on `w` gets past its frame size:
it does when the acquire times out, when the frame is not sent, and when
both `getMaxWidth()` and `getMaxHeight()` have a value. -/
def passCompletes (env : WorkerEnv) (i : Nat) (w : World) : Bool :=
  env.acquireTimesOut i || !env.isSendFrame i ||
    ((getMaxWidth w).isSome && (getMaxHeight w).isSome)

/-- The events `xs` as events of thread `t`. -/
def tag (t : Thread) (xs : List Call) : List (Thread × Call) :=
  xs.map fun c => (t, c)

/-- The started sample world with a budget of one frame, once the worker has
taken the 'begin' message (the guard object is created entered) and entered
the guard for its first pass. -/
def raceAtAcquire : World :=
  ((startedWorld 1).call (.enter .acquisitionActiveGuard)).call (.enter .acquisitionActiveGuard)

/-- The world after a caller has then run a whole `applyValue` for the ROI
height. -/
def raceAfterApply : World :=
  (sampleListener 67436582 50).applyValue sampleHeader raceAtAcquire

/-- The world after the worker has then gone on with its pass, from
`Picam_Acquire` to `leave()`. -/
def raceAfterPass : Option World :=
  passFromAcquire sampleEnv 0 raceAfterApply

/-- The calls of the three stages above and of the worker's release of the
guard object, each with the thread that issues it. -/
def raceSchedule : List (Thread × Call) :=
  match raceAfterPass with
  | some w =>
    tag .worker (callsSince (startedWorld 1) raceAtAcquire) ++
      tag .caller (callsSince raceAtAcquire raceAfterApply) ++
      tag .worker (callsSince raceAfterApply (w.call (.leave .acquisitionActiveGuard)))
  | none => []

/-! ## Sample engine properties -/

/-- The sample world with a camera that reports 3000000000, which is no
signed 32-bit value, as the maximum of the ROI width constraint. -/
def wideWorld : World :=
  { sampleWorld with
    camera :=
      { sampleCamera with
        roisConstraint := fun _ =>
          { width_constraint := { maximum := 3000000000 }
            height_constraint := { maximum := 100 } } } }

/-- The started sample world with a budget of three frames and the engine
property ROIXBinning at 0. -/
def unbinnedWorld : World :=
  { startedWorld 3 with
    adaptor :=
      { (startedWorld 3).adaptor with
        propContainer := { sampleAdaptor.propContainer with ROIXBinning := 0 } } }

/-- The sample world with the engine properties ROIHeight `h`,
Frames_per_Readout `f` and ROIYBinning `b`. -/
def heightWorld (h f b : Int) : World :=
  { sampleWorld with
    adaptor :=
      { sampleAdaptor with
        propContainer :=
          { sampleAdaptor.propContainer with
            ROIHeight := h, Frames_per_Readout := f, ROIYBinning := b } } }

/-- A large-integer parameter of the sample camera; the device holds
5000000000 for it. -/
def sampleLargeInfo : IPropInfo :=
  { propertyIdentifier := 393217, propertyStorageType := .INT }

/-! # Theorems -/

/-! ## Lemmas on call sequences -/

theorem callsSince_of_log {w w2 : World} {xs : List Call} (h : w2.log = w.log ++ xs) :
    callsSince w w2 = xs := by
  simp [callsSince, h]

theorem Quiet.nil : Quiet [] := by
  intro c hc
  simp at hc

theorem Quiet.append {xs ys : List Call} (hx : Quiet xs) (hy : Quiet ys) : Quiet (xs ++ ys) := by
  intro c hc
  rcases List.mem_append.mp hc with h | h
  · exact hx c h
  · exact hy c h

theorem Quiet.filter_stopRestart {xs : List Call} (h : Quiet xs) :
    xs.filter Call.isDeviceOrStopRestart = [] := by
  rw [List.filter_eq_nil_iff]
  intro c hc
  simp [h c hc]

theorem Quiet.filter_device {xs : List Call} (h : Quiet xs) :
    xs.filter Call.isDevice = [] := by
  rw [List.filter_eq_nil_iff]
  intro c hc
  have := h c hc
  simp only [Call.isDeviceOrStopRestart, Bool.or_eq_false_iff] at this
  simp [Call.isDevice, this.1.1, this.1.2]

theorem Quiet.filter_write {xs : List Call} (h : Quiet xs) :
    xs.filter Call.isWrite = [] := by
  rw [List.filter_eq_nil_iff]
  intro c hc
  have := h c hc
  simp only [Call.isDeviceOrStopRestart, Bool.or_eq_false_iff] at this
  simp [this.1.1]

theorem Quiet.filter_commit {xs : List Call} (h : Quiet xs) :
    xs.filter Call.isCommit = [] := by
  rw [List.filter_eq_nil_iff]
  intro c hc
  have := h c hc
  simp only [Call.isDeviceOrStopRestart, Bool.or_eq_false_iff] at this
  simp [this.1.2]

/-! ## The framework wrappers -/

theorem stop_log (w : World) :
    (IAdaptor.stop w).log =
      w.log ++ Call.stop ::
        (if w.adaptor.isOpen then [Call.enter .grabSection, Call.leave .grabSection] else []) := by
  cases h : w.adaptor.isOpen <;>
    simp [IAdaptor.stop, stopCapture, World.call, h, setAcquisitionActive]

theorem stop_camera (w : World) : (IAdaptor.stop w).camera = w.camera := by
  cases h : w.adaptor.isOpen <;>
    simp [IAdaptor.stop, stopCapture, World.call, h, setAcquisitionActive]

theorem stop_adaptor (w : World) :
    (IAdaptor.stop w).adaptor =
      { w.adaptor with
        isAcquiring := false
        _acquisitionActive := if w.adaptor.isOpen then false else w.adaptor._acquisitionActive } := by
  cases h : w.adaptor.isOpen <;>
    simp [IAdaptor.stop, stopCapture, World.call, h, setAcquisitionActive]

theorem restart_log (w : World) (h : w.adaptor.isAcquiring = false) :
    (IAdaptor.restart w).log =
      w.log ++ [Call.restart, Call.PostThreadMessage w.adaptor._acquireThreadID WM_USER] := by
  simp [IAdaptor.restart, startCapture, World.call, h, setAcquisitionActive, PostThreadMessage]

theorem restart_camera (w : World) : (IAdaptor.restart w).camera = w.camera := by
  cases h : w.adaptor.isAcquiring <;>
    simp [IAdaptor.restart, startCapture, World.call, h, setAcquisitionActive, PostThreadMessage]

theorem restart_adaptor (w : World) (h : w.adaptor.isAcquiring = false) :
    (IAdaptor.restart w).adaptor =
      { w.adaptor with isAcquiring := true, _acquisitionActive := true } := by
  simp [IAdaptor.restart, startCapture, World.call, h, setAcquisitionActive, PostThreadMessage]

/-! ## The pieces of `applyValue` -/

theorem valueTypeOf_fst (K : PicamHeader) (self : PIXISPropSetListener) (cam : PicamHandle)
    (w : World) :
    (valueTypeOf K cam self._propInfo.propertyIdentifier w).1 = applyKind K self w := by
  unfold valueTypeOf applyKind
  split <;> simp [Picam_GetParameterValueType]

theorem valueTypeOf_snd (K : PicamHeader) (cam : PicamHandle) (propertyID : Int) (w : World) :
    ∃ xs, (valueTypeOf K cam propertyID w).2.log = w.log ++ xs ∧ Quiet xs ∧
      (valueTypeOf K cam propertyID w).2.adaptor = w.adaptor ∧
      (valueTypeOf K cam propertyID w).2.camera = w.camera := by
  unfold valueTypeOf
  split
  · exact ⟨[], by simp, Quiet.nil, rfl, rfl⟩
  · refine ⟨[.Picam_GetParameterValueType cam propertyID (w.camera.valueType propertyID),
      .Picam_GetEnumerationString .Parameter propertyID], ?_, ?_, rfl, rfl⟩
    · simp [Picam_GetParameterValueType, Picam_GetEnumerationString, World.call]
    · intro c hc
      simp at hc
      rcases hc with rfl | rfl <;> rfl

theorem commitAndWarn_log (cam : PicamHandle) (w : World) :
    ∃ xs, (commitAndWarn cam w).log =
        w.log ++ Call.Picam_CommitParameters cam (w.camera.validate w.camera.model).length :: xs ∧
      Quiet xs ∧ (commitAndWarn cam w).adaptor = w.adaptor := by
  unfold commitAndWarn
  by_cases h : (w.camera.validate w.camera.model).length = 0
  · refine ⟨[], ?_, Quiet.nil, ?_⟩ <;> simp [Picam_CommitParameters, h]
  · refine ⟨[.adaptorWarn .failedToCommit], ?_, ?_, ?_⟩
    · simp [Picam_CommitParameters, h, adaptorWarn, World.call]
    · intro c hc
      simp at hc
      subst hc
      rfl
    · simp [Picam_CommitParameters, h, adaptorWarn, World.call]

theorem commitAndWarn_camera (cam : PicamHandle) (w : World)
    (h : (w.camera.validate w.camera.model).length = 0) :
    (commitAndWarn cam w).camera = { w.camera with device := w.camera.model } := by
  simp [commitAndWarn, Picam_CommitParameters, h]

theorem QuietStep.refl (w : World) : QuietStep w w :=
  ⟨[], by simp, Quiet.nil, rfl⟩

theorem QuietStep.trans {a b c : World} (h1 : QuietStep a b) (h2 : QuietStep b c) :
    QuietStep a c := by
  obtain ⟨xs, hx, qx, ax⟩ := h1
  obtain ⟨ys, hy, qy, ay⟩ := h2
  exact ⟨xs ++ ys, by rw [hy, hx, List.append_assoc], qx.append qy, by rw [ay, ax]⟩

theorem QuietStep.call (w : World) (c : Call) (h : c.isDeviceOrStopRestart = false) :
    QuietStep w (w.call c) := by
  refine ⟨[c], rfl, ?_, rfl⟩
  intro d hd
  simp at hd
  subst hd
  exact h

theorem QuietStep.refresh (cam : PicamHandle) (w : World) :
    QuietStep w (PicamAdvanced_RefreshParametersFromCameraDevice cam w) := by
  refine ⟨[.PicamAdvanced_RefreshParametersFromCameraDevice cam], rfl, ?_, rfl⟩
  intro d hd
  simp at hd
  subst hd
  rfl

theorem QuietStep.warnTriggerResponses (vs : List Rat) (w : World) :
    QuietStep w (warnTriggerResponses vs w) := by
  induction vs generalizing w with
  | nil => exact QuietStep.refl w
  | cons v vs ih =>
    simp only [PIXIS.warnTriggerResponses]
    refine QuietStep.trans ?_ (ih _)
    exact (QuietStep.call _ _ (by rfl)).trans (QuietStep.call _ _ (by rfl))

theorem QuietStep.logTriggerResponses (K : PicamHeader) (cam : PicamHandle) (w : World) :
    QuietStep w (logTriggerResponses K cam w) := by
  unfold PIXIS.logTriggerResponses
  simp only
  refine QuietStep.trans ?_ (QuietStep.call _ _ (by rfl))
  refine QuietStep.trans ?_ (QuietStep.call _ _ (by rfl))
  refine QuietStep.trans ?_ (QuietStep.warnTriggerResponses _ _)
  refine QuietStep.trans ?_ (QuietStep.call _ _ (by rfl))
  refine QuietStep.trans ?_ (QuietStep.refresh _ _)
  refine QuietStep.trans ?_ (QuietStep.call _ _ (by rfl))
  exact QuietStep.call _ _ (by rfl)

theorem applyKind_stop (K : PicamHeader) (self : PIXISPropSetListener) (w : World) :
    applyKind K self (IAdaptor.stop w) = applyKind K self w := by
  simp [applyKind, stop_camera]

theorem applyValue_eq (K : PicamHeader) (self : PIXISPropSetListener) (w : World) :
    self.applyValue K w =
      (if w.adaptor.isAcquiring then IAdaptor.restart (worldAfterSwitch K self w)
        else worldAfterSwitch K self w).call .Picam_DestroyParameters := by
  unfold PIXISPropSetListener.applyValue worldAfterSwitch worldAtSwitch
  simp only [valueTypeOf_fst]
  cases h : w.adaptor.isAcquiring <;> simp [applyKind_stop]

theorem worldAtSwitch_log (K : PicamHeader) (self : PIXISPropSetListener) (w : World) :
    ∃ xs, Quiet xs ∧
      (worldAtSwitch K self w).log =
        w.log ++ (if w.adaptor.isAcquiring then
          Call.stop :: (if w.adaptor.isOpen then
            [Call.enter .grabSection, Call.leave .grabSection] else [])
          else []) ++ xs ∧
      (worldAtSwitch K self w).camera = w.camera ∧
      (worldAtSwitch K self w).adaptor =
        (if w.adaptor.isAcquiring then (IAdaptor.stop w).adaptor else w.adaptor) := by
  unfold worldAtSwitch
  obtain ⟨xs, h1, h2, h3, h4⟩ := valueTypeOf_snd K .ofAdaptor self._propInfo.propertyIdentifier
    (if w.adaptor.isAcquiring then IAdaptor.stop w else w)
  refine ⟨xs, h2, ?_, ?_, ?_⟩
  · rw [h1]
    cases h : w.adaptor.isAcquiring <;> simp [stop_log]
  · rw [h4]
    cases h : w.adaptor.isAcquiring <;> simp [stop_camera]
  · rw [h3]
    cases h : w.adaptor.isAcquiring <;> simp

theorem applySwitch_adaptor (K : PicamHeader) (self : PIXISPropSetListener) (cam : PicamHandle)
    (type : PicamValueType) (w : World) :
    (applySwitch K self cam type w).adaptor = w.adaptor := by
  cases type <;> simp only [applySwitch]
  case Integer => rw [(commitAndWarn_log _ _).choose_spec.2.2]; rfl
  case Boolean => rw [(commitAndWarn_log _ _).choose_spec.2.2]; rfl
  case LargeInteger => rw [(commitAndWarn_log _ _).choose_spec.2.2]; rfl
  case FloatingPoint => rw [(commitAndWarn_log _ _).choose_spec.2.2]; rfl
  case Rois => rw [(commitAndWarn_log _ _).choose_spec.2.2]; rfl
  case Enumeration =>
    split
    · rw [(QuietStep.logTriggerResponses _ _ _).choose_spec.2.2,
        (commitAndWarn_log _ _).choose_spec.2.2]
      rfl
    · rw [(commitAndWarn_log _ _).choose_spec.2.2]; rfl

theorem commitAndWarn_after (cam : PicamHandle) (w0 w : World) (pre : List Call)
    (h : w.log = w0.log ++ pre) :
    ∃ n xs, Quiet xs ∧
      (commitAndWarn cam w).log = w0.log ++ (pre ++ Call.Picam_CommitParameters cam n :: xs) := by
  obtain ⟨xs, h1, h2, _⟩ := commitAndWarn_log cam w
  exact ⟨_, xs, h2, by rw [h1, h, List.append_assoc]⟩

theorem applySwitch_integral (K : PicamHeader) (self : PIXISPropSetListener) (cam : PicamHandle)
    (type : PicamValueType) (w : World)
    (ht : type = .Integer ∨ type = .Boolean ∨ type = .LargeInteger ∨
      (type = .Enumeration ∧ ¬ isKineticsUpdate K self)) :
    ∃ n xs, Quiet xs ∧
      (applySwitch K self cam type w).log =
        w.log ++ ([Call.Picam_SetParameterIntegerValue cam self._propInfo.propertyIdentifier
          self._lastIntValue, Call.Picam_CommitParameters cam n] ++ xs) := by
  have base : ∃ n xs, Quiet xs ∧
      (commitAndWarn cam (Picam_SetParameterIntegerValue cam self._propInfo.propertyIdentifier
        self._lastIntValue w)).log =
        w.log ++ ([Call.Picam_SetParameterIntegerValue cam self._propInfo.propertyIdentifier
          self._lastIntValue, Call.Picam_CommitParameters cam n] ++ xs) := by
    obtain ⟨n, xs, h2, h1⟩ := commitAndWarn_after cam w
      (Picam_SetParameterIntegerValue cam self._propInfo.propertyIdentifier
        self._lastIntValue w) _ rfl
    exact ⟨n, xs, h2, by simpa using h1⟩
  rcases ht with rfl | rfl | rfl | ⟨rfl, hk⟩
  · simpa only [applySwitch] using base
  · simpa only [applySwitch] using base
  · simpa only [applySwitch] using base
  · simp only [applySwitch]
    unfold isKineticsUpdate at hk
    rw [if_neg hk, if_neg hk]
    exact base

theorem applySwitch_floatingPoint (K : PicamHeader) (self : PIXISPropSetListener)
    (cam : PicamHandle) (w : World) :
    ∃ n xs, Quiet xs ∧
      (applySwitch K self cam .FloatingPoint w).log =
        w.log ++ ([Call.adaptorWarn .floater,
          Call.Picam_SetParameterFloatingPointValue cam self._propInfo.propertyIdentifier
            self._lastDoubleValue, Call.Picam_CommitParameters cam n] ++ xs) := by
  simp only [applySwitch]
  obtain ⟨n, xs, h2, h1⟩ := commitAndWarn_after cam w
    (Picam_SetParameterFloatingPointValue cam self._propInfo.propertyIdentifier
      self._lastDoubleValue (adaptorWarn .floater w))
    [Call.adaptorWarn .floater,
      Call.Picam_SetParameterFloatingPointValue cam self._propInfo.propertyIdentifier
        self._lastDoubleValue]
    (by simp [Picam_SetParameterFloatingPointValue, adaptorWarn, World.call])
  exact ⟨n, xs, h2, by simpa using h1⟩

theorem applySwitch_rois (K : PicamHeader) (self : PIXISPropSetListener)
    (cam : PicamHandle) (w : World) :
    ∃ n xs, Quiet xs ∧
      (applySwitch K self cam .Rois w).log =
        w.log ++ ([Call.PicamAdvanced_GetCameraModel cam,
          Call.PicamAdvanced_RefreshParametersFromCameraDevice .ofModel,
          Call.Picam_GetParameterRoisValue cam K.PicamParameter_Rois w.camera.device.roisValue,
          Call.Picam_SetParameterRoisValue cam K.PicamParameter_Rois
            (assignRoiField (self._propInfo.propertyIdentifier - K.PicamParameter_Rois)
              self._lastIntValue w.camera.device.roisValue),
          Call.Picam_DestroyRois,
          Call.Picam_CommitParameters cam n] ++ xs) := by
  simp only [applySwitch]
  obtain ⟨n, xs, h2, h1⟩ := commitAndWarn_after cam w
    ((Picam_SetParameterRoisValue cam K.PicamParameter_Rois
          (assignRoiField (self._propInfo.propertyIdentifier - K.PicamParameter_Rois)
            self._lastIntValue
            (Picam_GetParameterRoisValue cam K.PicamParameter_Rois
                (PicamAdvanced_RefreshParametersFromCameraDevice
                  (PicamAdvanced_GetCameraModel cam w).1
                  (PicamAdvanced_GetCameraModel cam w).2)).1)
          (Picam_GetParameterRoisValue cam K.PicamParameter_Rois
              (PicamAdvanced_RefreshParametersFromCameraDevice
                (PicamAdvanced_GetCameraModel cam w).1
                (PicamAdvanced_GetCameraModel cam w).2)).2).call
      Call.Picam_DestroyRois)
    [Call.PicamAdvanced_GetCameraModel cam,
          Call.PicamAdvanced_RefreshParametersFromCameraDevice .ofModel,
          Call.Picam_GetParameterRoisValue cam K.PicamParameter_Rois w.camera.device.roisValue,
          Call.Picam_SetParameterRoisValue cam K.PicamParameter_Rois
            (assignRoiField (self._propInfo.propertyIdentifier - K.PicamParameter_Rois)
              self._lastIntValue w.camera.device.roisValue),
          Call.Picam_DestroyRois]
    (by simp [Picam_SetParameterRoisValue, Picam_GetParameterRoisValue,
      PicamAdvanced_RefreshParametersFromCameraDevice, PicamAdvanced_GetCameraModel, World.call])
  exact ⟨n, xs, h2, by simpa using h1⟩

theorem kineticsUpdate_log (K : PicamHeader) (self : PIXISPropSetListener) (cam : PicamHandle)
    (parameter : Int) (w : World) :
    ∃ constraint framesPerReadout,
      (kineticsUpdate K self cam parameter w).log =
        w.log ++ [Call.adaptorWarn .kineticsUpdate,
          Call.Picam_SetParameterIntegerValue cam K.PicamParameter_TriggerResponse 5,
          Call.Picam_SetParameterIntegerValue cam parameter self._lastIntValue,
          Call.Picam_SetParameterFloatingPointValue cam K.PicamParameter_ExposureTime 10,
          Call.Picam_SetParameterIntegerValue cam K.PicamParameter_KineticsWindowHeight 128,
          Call.Picam_GetParameterRoisConstraint cam K.PicamParameter_Rois .Required constraint,
          Call.Picam_DestroyRoisConstraints,
          Call.Picam_GetParameterIntegerValue cam K.PicamParameter_FramesPerReadout
            framesPerReadout,
          Call.Picam_SetParameterRoisValue cam K.PicamParameter_Rois
            { roi_array0 :=
                { x := 0
                  width := toPiint constraint.width_constraint.maximum
                  x_binning := 1
                  y := 0
                  height := toPiint constraint.height_constraint.maximum
                  y_binning := 1 }
              roi_rest := [] }] := by
  refine Exists.intro ?c (Exists.intro ?f ?h)
  case h =>
    simp only [kineticsUpdate, Picam_SetParameterRoisValue, Picam_GetParameterIntegerValue,
      World.call, Picam_GetParameterRoisConstraint, Picam_SetParameterIntegerValue,
      Picam_SetParameterFloatingPointValue, adaptorWarn, List.append_assoc, List.cons_append,
      List.nil_append]
    exact rfl

theorem applySwitch_kinetics (K : PicamHeader) (self : PIXISPropSetListener) (cam : PicamHandle)
    (w : World) (hk : isKineticsUpdate K self) :
    ∃ constraint framesPerReadout n xs, Quiet xs ∧
      (applySwitch K self cam .Enumeration w).log =
        w.log ++ ([Call.adaptorWarn .kineticsUpdate,
          Call.Picam_SetParameterIntegerValue cam K.PicamParameter_TriggerResponse 5,
          Call.Picam_SetParameterIntegerValue cam K.PicamParameter_ReadoutControlMode
            K.PicamReadoutControlMode_Kinetics,
          Call.Picam_SetParameterFloatingPointValue cam K.PicamParameter_ExposureTime 10,
          Call.Picam_SetParameterIntegerValue cam K.PicamParameter_KineticsWindowHeight 128,
          Call.Picam_GetParameterRoisConstraint cam K.PicamParameter_Rois .Required constraint,
          Call.Picam_DestroyRoisConstraints,
          Call.Picam_GetParameterIntegerValue cam K.PicamParameter_FramesPerReadout
            framesPerReadout,
          Call.Picam_SetParameterRoisValue cam K.PicamParameter_Rois
            { roi_array0 :=
                { x := 0
                  width := toPiint constraint.width_constraint.maximum
                  x_binning := 1
                  y := 0
                  height := toPiint constraint.height_constraint.maximum
                  y_binning := 1 }
              roi_rest := [] },
          Call.Picam_CommitParameters cam n] ++ xs) := by
  simp only [applySwitch]
  have hk2 := hk
  unfold isKineticsUpdate at hk2
  rw [if_pos hk2, if_pos hk2]
  obtain ⟨c, f, hlog⟩ := kineticsUpdate_log K self cam self._propInfo.propertyIdentifier w
  obtain ⟨n, xs, h2, h1⟩ := commitAndWarn_after cam _ _ _ hlog
  obtain ⟨ys, g1, g2, _⟩ := QuietStep.logTriggerResponses K cam
    (commitAndWarn cam (kineticsUpdate K self cam self._propInfo.propertyIdentifier w))
  refine ⟨c, f, n, xs ++ ys, h2.append g2, ?_⟩
  rw [g1, h1, hk2.1, hk2.2]
  simp

theorem applySwitch_silent (K : PicamHeader) (self : PIXISPropSetListener) (cam : PicamHandle)
    (type : PicamValueType) (w : World)
    (ht : type = .Pulse ∨ type = .Modulations ∨ ∃ raw, type = .unlisted raw) :
    applySwitch K self cam type w = w := by
  rcases ht with rfl | rfl | ⟨raw, rfl⟩ <;> rfl

theorem applyValue_calls (K : PicamHeader) (self : PIXISPropSetListener) (w : World)
    (S : List Call)
    (hS : (worldAfterSwitch K self w).log = (worldAtSwitch K self w).log ++ S) :
    ∃ T, Quiet T ∧
      callsSince w (self.applyValue K w) =
        (if w.adaptor.isAcquiring then
          Call.stop :: (if w.adaptor.isOpen then
            [Call.enter .grabSection, Call.leave .grabSection] else [])
          else []) ++ T ++ S ++
        (if w.adaptor.isAcquiring then
          [Call.restart, Call.PostThreadMessage w.adaptor._acquireThreadID WM_USER]
          else []) ++ [Call.Picam_DestroyParameters] := by
  obtain ⟨T, hT, hlog, _, hadp⟩ := worldAtSwitch_log K self w
  refine ⟨T, hT, ?_⟩
  apply callsSince_of_log
  rw [applyValue_eq]
  have hadp2 : (worldAfterSwitch K self w).adaptor = (worldAtSwitch K self w).adaptor :=
    applySwitch_adaptor _ _ _ _ _
  cases ha : w.adaptor.isAcquiring
  · simp [World.call, hS, hlog, ha]
  · have hacq : (worldAfterSwitch K self w).adaptor.isAcquiring = false := by
      rw [hadp2, hadp, ha]
      simp [stop_adaptor]
    have hid : (worldAfterSwitch K self w).adaptor._acquireThreadID =
        w.adaptor._acquireThreadID := by
      rw [hadp2, hadp, ha]
      simp [stop_adaptor]
    simp [World.call, restart_log _ hacq, hid, hS, hlog, ha]

theorem filter_device_applyValue (K : PicamHeader) (self : PIXISPropSetListener) (w : World)
    (S : List Call)
    (hS : (worldAfterSwitch K self w).log = (worldAtSwitch K self w).log ++ S) :
    (callsSince w (self.applyValue K w)).filter Call.isDevice = S.filter Call.isDevice := by
  obtain ⟨T, hT, h⟩ := applyValue_calls K self w S hS
  rw [h]
  simp only [List.filter_append, hT.filter_device]
  cases w.adaptor.isAcquiring <;> cases w.adaptor.isOpen <;>
    simp [Call.isDevice, Call.isWrite, Call.isCommit]

theorem filter_write_of_device (l : List Call) :
    l.filter Call.isWrite = (l.filter Call.isDevice).filter Call.isWrite := by
  rw [List.filter_filter]
  congr 1
  funext c
  cases h : c.isWrite <;> simp [Call.isDevice, h]

theorem filter_commit_of_device (l : List Call) :
    l.filter Call.isCommit = (l.filter Call.isDevice).filter Call.isCommit := by
  rw [List.filter_filter]
  congr 1
  funext c
  cases h : c.isCommit <;> simp [Call.isDevice, h]

theorem worldAfterSwitch_log {K : PicamHeader} {self : PIXISPropSetListener} {w : World}
    {t : PicamValueType} {S : List Call} (ht : applyKind K self w = t)
    (hlog : (applySwitch K self .ofAdaptor t (worldAtSwitch K self w)).log =
      (worldAtSwitch K self w).log ++ S) :
    (worldAfterSwitch K self w).log = (worldAtSwitch K self w).log ++ S := by
  unfold worldAfterSwitch
  rw [ht]
  exact hlog

theorem isDevice_false_of_filter {xs : List Call} {c0 : Call} {b : Bool}
    (h : xs.filter Call.isDeviceOrStopRestart = if b then [c0] else [])
    (h0 : c0.isDevice = false) : ∀ c ∈ xs, c.isDevice = false := by
  intro c hc
  by_contra hd
  have hd2 : c.isDevice = true := by simpa using hd
  have hmem : c ∈ xs.filter Call.isDeviceOrStopRestart := by
    rw [List.mem_filter]
    refine ⟨hc, ?_⟩
    simp only [Call.isDevice, Bool.or_eq_true] at hd2
    simp only [Call.isDeviceOrStopRestart, Bool.or_eq_true]
    exact Or.inl hd2
  rw [h] at hmem
  cases b
  · simp at hmem
  · simp at hmem
    subst hmem
    rw [h0] at hd2
    cases hd2

theorem applyValue_frame (K : PicamHeader) (self : PIXISPropSetListener) (w : World)
    (S : List Call)
    (hS : (worldAfterSwitch K self w).log = (worldAtSwitch K self w).log ++ S) :
    ∃ A R, callsSince w (self.applyValue K w) = A ++ S ++ R ∧
      A.filter Call.isDeviceOrStopRestart = (if w.adaptor.isAcquiring then [Call.stop] else []) ∧
      R.filter Call.isDeviceOrStopRestart =
        (if w.adaptor.isAcquiring then [Call.restart] else []) ∧
      (∀ c ∈ A, c.isDevice = false) ∧ (∀ c ∈ R, c.isDevice = false) := by
  obtain ⟨T, hT, h⟩ := applyValue_calls K self w S hS
  have hA : ((if w.adaptor.isAcquiring then
          Call.stop :: (if w.adaptor.isOpen then
            [Call.enter .grabSection, Call.leave .grabSection] else [])
          else []) ++ T).filter Call.isDeviceOrStopRestart =
      (if w.adaptor.isAcquiring then [Call.stop] else []) := by
    rw [List.filter_append, hT.filter_stopRestart]
    cases w.adaptor.isAcquiring <;> cases w.adaptor.isOpen <;>
      simp [Call.isDeviceOrStopRestart, Call.isWrite, Call.isCommit, Call.isStopOrRestart]
  have hR : ((if w.adaptor.isAcquiring then
          [Call.restart, Call.PostThreadMessage w.adaptor._acquireThreadID WM_USER]
          else []) ++ [Call.Picam_DestroyParameters]).filter Call.isDeviceOrStopRestart =
      (if w.adaptor.isAcquiring then [Call.restart] else []) := by
    cases w.adaptor.isAcquiring <;>
      simp [Call.isDeviceOrStopRestart, Call.isWrite, Call.isCommit, Call.isStopOrRestart]
  refine ⟨_, _, ?_, hA, hR, isDevice_false_of_filter hA rfl, isDevice_false_of_filter hR rfl⟩
  rw [h]
  simp only [List.append_assoc]

theorem applyValue_kinetics_calls (K : PicamHeader) (self : PIXISPropSetListener) (w : World)
    (hkind : applyKind K self w = .Enumeration) (hk : isKineticsUpdate K self) :
    ∃ constraint framesPerReadout n A B,
      (∀ c ∈ A, c.isDevice = false) ∧ (∀ c ∈ B, c.isDevice = false) ∧
      callsSince w (self.applyValue K w) =
        A ++ kineticsCalls K constraint framesPerReadout ++
          Call.Picam_CommitParameters .ofAdaptor n :: B := by
  obtain ⟨c, f, n, xs, hq, hlog⟩ := applySwitch_kinetics K self .ofAdaptor
    (worldAtSwitch K self w) hk
  obtain ⟨A, R, h, _, _, hA, hR⟩ := applyValue_frame K self w _ (worldAfterSwitch_log hkind hlog)
  refine ⟨c, f, n, A, xs ++ R, hA, ?_, ?_⟩
  · intro d hd
    rcases List.mem_append.mp hd with hd | hd
    · have := hq d hd
      simp only [Call.isDeviceOrStopRestart, Bool.or_eq_false_iff] at this
      simp [Call.isDevice, this.1.1, this.1.2]
    · exact hR d hd
  · rw [h]
    simp only [kineticsCalls, List.append_assoc, List.cons_append, List.nil_append]

theorem sample_kinetics_calls :
    callsSince sampleWorld
      ((sampleListener 50593818 3).applyValue sampleHeader sampleWorld) =
    [ Call.Picam_GetParameterValueType .ofAdaptor 50593818 .Enumeration,
      Call.Picam_GetEnumerationString .Parameter 50593818,
      Call.adaptorWarn .kineticsUpdate,
      Call.Picam_SetParameterIntegerValue .ofAdaptor 50593822 5,
      Call.Picam_SetParameterIntegerValue .ofAdaptor 50593818 3,
      Call.Picam_SetParameterFloatingPointValue .ofAdaptor 33685527 10,
      Call.Picam_SetParameterIntegerValue .ofAdaptor 33620024 128,
      Call.Picam_GetParameterRoisConstraint .ofAdaptor 67436581 .Required
        { width_constraint := { maximum := 1340 }, height_constraint := { maximum := 100 } },
      Call.Picam_DestroyRoisConstraints,
      Call.Picam_GetParameterIntegerValue .ofAdaptor 16842806 2,
      Call.Picam_SetParameterRoisValue .ofAdaptor 67436581
        { roi_array0 := { x := 0, width := 1340, x_binning := 1, y := 0, height := 100,
                          y_binning := 1 }
          roi_rest := [] },
      Call.Picam_CommitParameters .ofAdaptor 0,
      Call.Picam_GetParameterCollectionConstraint .ofAdaptor 50593822 .Capable
        { values_array := [1, 2, 3] },
      Call.PicamAdvanced_GetCameraModel .ofAdaptor,
      Call.PicamAdvanced_RefreshParametersFromCameraDevice .ofModel,
      Call.Picam_GetParameterCollectionConstraint .ofModel 50593822 .Capable
        { values_array := [1, 2, 3] },
      Call.Picam_GetEnumerationString .TriggerResponse 1,
      Call.adaptorWarn (.enumerationString 1),
      Call.Picam_GetEnumerationString .TriggerResponse 2,
      Call.adaptorWarn (.enumerationString 2),
      Call.Picam_GetEnumerationString .TriggerResponse 3,
      Call.adaptorWarn (.enumerationString 3),
      Call.Picam_DestroyString,
      Call.Picam_DestroyCollectionConstraints,
      Call.Picam_DestroyParameters ] := by
  decide

theorem kineticsCalls_filter_write (K : PicamHeader) (constraint : PicamRoisConstraint)
    (framesPerReadout : Int) :
    (kineticsCalls K constraint framesPerReadout).filter Call.isWrite =
      [ Call.Picam_SetParameterIntegerValue .ofAdaptor K.PicamParameter_TriggerResponse 5,
        Call.Picam_SetParameterIntegerValue .ofAdaptor K.PicamParameter_ReadoutControlMode
          K.PicamReadoutControlMode_Kinetics,
        Call.Picam_SetParameterFloatingPointValue .ofAdaptor K.PicamParameter_ExposureTime 10,
        Call.Picam_SetParameterIntegerValue .ofAdaptor K.PicamParameter_KineticsWindowHeight 128,
        Call.Picam_SetParameterRoisValue .ofAdaptor K.PicamParameter_Rois
          { roi_array0 :=
              { x := 0
                width := toPiint constraint.width_constraint.maximum
                x_binning := 1
                y := 0
                height := toPiint constraint.height_constraint.maximum
                y_binning := 1 }
            roi_rest := [] } ] := by
  simp [kineticsCalls, Call.isWrite]

theorem kineticsCalls_no_commit (K : PicamHeader) (constraint : PicamRoisConstraint)
    (framesPerReadout : Int) :
    ∀ c ∈ kineticsCalls K constraint framesPerReadout, c.isCommit = false := by
  intro c hc
  simp only [kineticsCalls, List.mem_cons, List.mem_singleton, List.not_mem_nil, or_false] at hc
  rcases hc with rfl | rfl | rfl | rfl | rfl | rfl | rfl | rfl | rfl <;> rfl

theorem filter_write_nil_of_not_device {xs : List Call} (h : ∀ c ∈ xs, c.isDevice = false) :
    xs.filter Call.isWrite = [] := by
  rw [List.filter_eq_nil_iff]
  intro c hc
  have := h c hc
  simp only [Call.isDevice, Bool.or_eq_false_iff] at this
  simp [this.1]

theorem filter_commit_nil_of_not_device {xs : List Call} (h : ∀ c ∈ xs, c.isDevice = false) :
    xs.filter Call.isCommit = [] := by
  rw [List.filter_eq_nil_iff]
  intro c hc
  have := h c hc
  simp only [Call.isDevice, Bool.or_eq_false_iff] at this
  simp [this.2]

theorem Quiet.not_stopRestart {xs : List Call} (h : Quiet xs) :
    ∀ c ∈ xs, c.isStopOrRestart = false := by
  intro c hc
  have := h c hc
  simp only [Call.isDeviceOrStopRestart, Bool.or_eq_false_iff] at this
  exact this.2

theorem applySwitch_no_stop (K : PicamHeader) (self : PIXISPropSetListener) (cam : PicamHandle)
    (type : PicamValueType) (w : World) :
    ∃ S, (applySwitch K self cam type w).log = w.log ++ S ∧
      ∀ c ∈ S, c.isStopOrRestart = false := by
  have integral : (type = .Integer ∨ type = .Boolean ∨ type = .LargeInteger ∨
      (type = .Enumeration ∧ ¬ isKineticsUpdate K self)) →
      ∃ S, (applySwitch K self cam type w).log = w.log ++ S ∧
        ∀ c ∈ S, c.isStopOrRestart = false := by
    intro ht
    obtain ⟨n, xs, hq, h⟩ := applySwitch_integral K self cam type w ht
    refine ⟨_, h, ?_⟩
    intro c hc
    rcases List.mem_append.mp hc with hc | hc
    · simp only [List.mem_cons, List.mem_singleton, List.not_mem_nil, or_false] at hc
      rcases hc with rfl | rfl <;> rfl
    · exact hq.not_stopRestart c hc
  cases type with
  | Integer => exact integral (Or.inl rfl)
  | Boolean => exact integral (Or.inr (Or.inl rfl))
  | LargeInteger => exact integral (Or.inr (Or.inr (Or.inl rfl)))
  | Enumeration =>
    by_cases hk : isKineticsUpdate K self
    · obtain ⟨c0, f, n, xs, hq, h⟩ := applySwitch_kinetics K self cam w hk
      refine ⟨_, h, ?_⟩
      intro c hc
      rcases List.mem_append.mp hc with hc | hc
      · simp only [List.mem_cons, List.mem_singleton, List.not_mem_nil, or_false] at hc
        rcases hc with rfl | rfl | rfl | rfl | rfl | rfl | rfl | rfl | rfl | rfl <;> rfl
      · exact hq.not_stopRestart c hc
    · exact integral (Or.inr (Or.inr (Or.inr ⟨rfl, hk⟩)))
  | FloatingPoint =>
    obtain ⟨n, xs, hq, h⟩ := applySwitch_floatingPoint K self cam w
    refine ⟨_, h, ?_⟩
    intro c hc
    rcases List.mem_append.mp hc with hc | hc
    · simp only [List.mem_cons, List.mem_singleton, List.not_mem_nil, or_false] at hc
      rcases hc with rfl | rfl | rfl <;> rfl
    · exact hq.not_stopRestart c hc
  | Rois =>
    obtain ⟨n, xs, hq, h⟩ := applySwitch_rois K self cam w
    refine ⟨_, h, ?_⟩
    intro c hc
    rcases List.mem_append.mp hc with hc | hc
    · simp only [List.mem_cons, List.mem_singleton, List.not_mem_nil, or_false] at hc
      rcases hc with rfl | rfl | rfl | rfl | rfl | rfl <;> rfl
    · exact hq.not_stopRestart c hc
  | Pulse => exact ⟨[], by simp [applySwitch], by simp⟩
  | Modulations => exact ⟨[], by simp [applySwitch], by simp⟩
  | unlisted raw => exact ⟨[], by simp [applySwitch], by simp⟩

theorem applyValue_adaptor (K : PicamHeader) (self : PIXISPropSetListener) (w : World) :
    (self.applyValue K w).adaptor =
      if w.adaptor.isAcquiring then
        { w.adaptor with
          isAcquiring := true
          _acquisitionActive := true }
      else w.adaptor := by
  obtain ⟨T, _, _, _, hadp⟩ := worldAtSwitch_log K self w
  have hadp2 : (worldAfterSwitch K self w).adaptor = (worldAtSwitch K self w).adaptor :=
    applySwitch_adaptor _ _ _ _ _
  rw [applyValue_eq]
  cases ha : w.adaptor.isAcquiring
  · simp [World.call, hadp2, hadp, ha]
  · have hacq : (worldAfterSwitch K self w).adaptor.isAcquiring = false := by
      rw [hadp2, hadp, ha]
      simp [stop_adaptor]
    simp only [World.call, if_true, restart_adaptor _ hacq, hadp2, hadp, ha, stop_adaptor]

theorem isRoisIdentifier_add (K : PicamHeader) (k : Int) (h1 : 1 ≤ k) (h6 : k ≤ 6) :
    isRoisIdentifier K (K.PicamParameter_Rois + k) = true := by
  have : k = 1 ∨ k = 2 ∨ k = 3 ∨ k = 4 ∨ k = 5 ∨ k = 6 := by omega
  rcases this with rfl | rfl | rfl | rfl | rfl | rfl <;> simp [isRoisIdentifier]

theorem readRoiField_assignRoiField (k v : Int) (region : PicamRois) (h1 : 1 ≤ k) (h6 : k ≤ 6) :
    readRoiField k (assignRoiField k v region) = some (.asInt v) := by
  have : k = 1 ∨ k = 2 ∨ k = 3 ∨ k = 4 ∨ k = 5 ∨ k = 6 := by omega
  rcases this with rfl | rfl | rfl | rfl | rfl | rfl <;> simp [readRoiField, assignRoiField]

theorem getValue_rois (K : PicamHeader) (info : IPropInfo) (w : World)
    (h : isRoisIdentifier K info.propertyIdentifier = true) :
    (getValue K info w).1 =
      readRoiField (info.propertyIdentifier - K.PicamParameter_Rois)
        w.camera.device.roisValue := by
  simp [getValue, valueTypeOf, h, Picam_GetParameterRoisValue,
    PicamAdvanced_RefreshParametersFromCameraDevice, PicamAdvanced_GetCameraModel, World.call]

theorem applySwitch_rois_commit (K : PicamHeader) (self : PIXISPropSetListener)
    (cam : PicamHandle) (w : World) :
    ∃ n, Call.Picam_CommitParameters cam n ∈
        callsSince w (applySwitch K self cam .Rois w) ∧
      (n = 0 →
        (applySwitch K self cam .Rois w).camera.device.roisValue =
          assignRoiField (self._propInfo.propertyIdentifier - K.PicamParameter_Rois)
            self._lastIntValue w.camera.device.roisValue) := by
  refine ⟨(w.camera.validate
    { w.camera.device with
      roisValue := assignRoiField (self._propInfo.propertyIdentifier - K.PicamParameter_Rois)
        self._lastIntValue w.camera.device.roisValue }).length, ?_, ?_⟩
  · by_cases h : (w.camera.validate
        { w.camera.device with
          roisValue := assignRoiField
            (self._propInfo.propertyIdentifier - K.PicamParameter_Rois)
            self._lastIntValue w.camera.device.roisValue }).length = 0 <;>
      simp [applySwitch, commitAndWarn, Picam_CommitParameters, Picam_SetParameterRoisValue,
        Picam_GetParameterRoisValue, PicamAdvanced_RefreshParametersFromCameraDevice,
        PicamAdvanced_GetCameraModel, World.call, callsSince, adaptorWarn, h]
  · intro h
    simp [applySwitch, commitAndWarn, Picam_CommitParameters, Picam_SetParameterRoisValue,
      Picam_GetParameterRoisValue, PicamAdvanced_RefreshParametersFromCameraDevice,
      PicamAdvanced_GetCameraModel, World.call, adaptorWarn, h]

theorem applyValue_camera (K : PicamHeader) (self : PIXISPropSetListener) (w : World) :
    (self.applyValue K w).camera = (worldAfterSwitch K self w).camera := by
  rw [applyValue_eq]
  cases w.adaptor.isAcquiring <;> simp [World.call, restart_camera]

theorem switch_calls_subset (K : PicamHeader) (self : PIXISPropSetListener) (w : World) :
    ∀ c ∈ callsSince (worldAtSwitch K self w) (worldAfterSwitch K self w),
      c ∈ callsSince w (self.applyValue K w) := by
  obtain ⟨S, hS, _⟩ := applySwitch_no_stop K self .ofAdaptor (applyKind K self w)
    (worldAtSwitch K self w)
  obtain ⟨A, R, hcalls, _⟩ := applyValue_frame K self w S hS
  intro c hc
  have : callsSince (worldAtSwitch K self w) (worldAfterSwitch K self w) = S :=
    callsSince_of_log hS
  rw [this] at hc
  rw [hcalls]
  exact List.mem_append_left _ (List.mem_append_right _ hc)

theorem acquirePass_sent (env : WorkerEnv) (i : Nat) (w : World) (a b : Int)
    (ht : env.acquireTimesOut i = false) (hs : env.isSendFrame i = true)
    (hw : getMaxWidth w = some a) (hh : getMaxHeight w = some b) :
    acquirePass env i w =
      some
        { adaptor :=
            { w.adaptor with
              frameCount := w.adaptor.frameCount + 1
              _acquisitionActive :=
                if w.adaptor.frameCount + 1 ≥ w.adaptor.totalFramesPerTrigger then false
                else w.adaptor._acquisitionActive }
          camera := w.camera
          log := w.log ++
            [ .enter .acquisitionActiveGuard, .Picam_Acquire 1 3000 false, .makeFrame a b,
              .setImage a b 0 0, .setTime, .receiveFrame, .leave .acquisitionActiveGuard ] } := by
  simp only [getMaxWidth, getMaxHeight, getFramesPerReadout] at hw hh
  by_cases hc : w.adaptor.totalFramesPerTrigger ≤ w.adaptor.frameCount + 1 <;>
    simp [acquirePass, passFromAcquire, ht, hs, hc, hw, hh, World.call, incrementFrameCount,
      setAcquisitionActive, getMaxWidth, getMaxHeight, getFramesPerReadout]

theorem acquirePass_unsent (env : WorkerEnv) (i : Nat) (w : World)
    (ht : env.acquireTimesOut i = false) (hs : env.isSendFrame i = false) :
    acquirePass env i w =
      some
        { adaptor :=
            { w.adaptor with
              frameCount := w.adaptor.frameCount + 1
              _acquisitionActive :=
                if w.adaptor.frameCount + 1 ≥ w.adaptor.totalFramesPerTrigger then false
                else w.adaptor._acquisitionActive }
          camera := w.camera
          log := w.log ++
            [ .enter .acquisitionActiveGuard, .Picam_Acquire 1 3000 false,
              .adaptorWarn .notSendingFrame, .leave .acquisitionActiveGuard ] } := by
  by_cases hc : w.adaptor.totalFramesPerTrigger ≤ w.adaptor.frameCount + 1 <;>
    simp [acquirePass, passFromAcquire, ht, hs, hc, World.call, incrementFrameCount,
      setAcquisitionActive, adaptorWarn]

theorem acquirePass_timed_out (env : WorkerEnv) (i : Nat) (w : World)
    (ht : env.acquireTimesOut i = true) :
    acquirePass env i w =
      some
        { adaptor :=
            { w.adaptor with
              _acquisitionActive :=
                if w.adaptor.frameCount ≥ w.adaptor.totalFramesPerTrigger then false
                else w.adaptor._acquisitionActive }
          camera := w.camera
          log := w.log ++
            [ .enter .acquisitionActiveGuard, .Picam_Acquire 1 3000 true,
              .leave .acquisitionActiveGuard ] } := by
  by_cases hc : w.adaptor.totalFramesPerTrigger ≤ w.adaptor.frameCount <;>
    simp [acquirePass, passFromAcquire, ht, hc, World.call, setAcquisitionActive]

theorem acquirePass_trapped (env : WorkerEnv) (i : Nat) (w : World)
    (ht : env.acquireTimesOut i = false) (hs : env.isSendFrame i = true)
    (hnone : getMaxWidth w = none ∨ getMaxHeight w = none) :
    acquirePass env i w = none := by
  simp only [getMaxWidth, getMaxHeight, getFramesPerReadout] at hnone
  rcases hnone with h | h
  · simp [acquirePass, passFromAcquire, ht, hs, h, World.call, getMaxWidth, getMaxHeight,
      getFramesPerReadout]
  · cases hw : intDiv w.adaptor.propContainer.ROIWidth w.adaptor.propContainer.ROIXBinning <;>
      simp [acquirePass, passFromAcquire, ht, hs, h, hw, World.call, getMaxWidth, getMaxHeight,
        getFramesPerReadout]

theorem passCompletes_of_propContainer (env : WorkerEnv) (i : Nat) (w w2 : World)
    (h : w2.adaptor.propContainer = w.adaptor.propContainer) :
    passCompletes env i w2 = passCompletes env i w := by
  simp [passCompletes, getMaxWidth, getMaxHeight, getFramesPerReadout, h]

theorem acquirePass_isSome (env : WorkerEnv) (i : Nat) (w : World) :
    (acquirePass env i w).isSome = passCompletes env i w := by
  cases ht : env.acquireTimesOut i
  · cases hs : env.isSendFrame i
    · rw [acquirePass_unsent env i w ht hs]
      simp [passCompletes, ht, hs]
    · cases hw : getMaxWidth w with
      | none =>
        rw [acquirePass_trapped env i w ht hs (Or.inl hw)]
        simp [passCompletes, ht, hs, hw]
      | some a =>
        cases hh : getMaxHeight w with
        | none =>
          rw [acquirePass_trapped env i w ht hs (Or.inr hh)]
          simp [passCompletes, ht, hs, hh]
        | some b =>
          rw [acquirePass_sent env i w a b ht hs hw hh]
          simp [passCompletes, ht, hs, hw, hh]
  · rw [acquirePass_timed_out env i w ht]
    simp [passCompletes, ht]

theorem acquirePass_no_timeout (env : WorkerEnv) (i : Nat) (w : World)
    (h : env.acquireTimesOut i = false) (hc : passCompletes env i w = true) :
    ∃ w2 xs, acquirePass env i w = some w2 ∧ w2.log = w.log ++ xs ∧ framesDelivered xs ≤ 1 ∧
      acquireCalls xs = 1 ∧ w2.camera = w.camera ∧
      w2.adaptor =
        { w.adaptor with
          frameCount := w.adaptor.frameCount + 1
          _acquisitionActive :=
            if w.adaptor.frameCount + 1 ≥ w.adaptor.totalFramesPerTrigger then false
            else w.adaptor._acquisitionActive } := by
  cases hs : env.isSendFrame i
  · exact ⟨_, _, acquirePass_unsent env i w h hs, rfl, by decide, by decide, rfl, rfl⟩
  · simp only [passCompletes, h, hs, Bool.false_or, Bool.not_true, Bool.and_eq_true,
      Option.isSome_iff_exists] at hc
    obtain ⟨⟨a, hw⟩, ⟨b, hh⟩⟩ := hc
    refine ⟨_, _, acquirePass_sent env i w a b h hs hw hh, rfl, ?_, ?_, rfl, rfl⟩
    · simp [framesDelivered, List.count_cons]
    · simp [acquireCalls, List.countP_cons]

theorem acquireLoop_done (env : WorkerEnv) (fuel i : Nat) (w : World)
    (h : (isAcquisitionNotComplete w && isAcquisitionActive w) = false) :
    acquireLoop env fuel i w = some w := by
  cases fuel <;> simp [acquireLoop, h]

theorem framesDelivered_append (xs ys : List Call) :
    framesDelivered (xs ++ ys) = framesDelivered xs + framesDelivered ys := by
  simp [framesDelivered]

theorem acquireCalls_append (xs ys : List Call) :
    acquireCalls (xs ++ ys) = acquireCalls xs + acquireCalls ys := by
  simp [acquireCalls]

theorem acquireLoop_run (env : WorkerEnv) (hno : ∀ i, env.acquireTimesOut i = false) :
    ∀ (d fuel i : Nat) (w : World),
      (∀ j, passCompletes env j w = true) →
      w.adaptor.frameCount + (d + 1) = w.adaptor.totalFramesPerTrigger →
      w.adaptor._acquisitionActive = true → d + 1 ≤ fuel →
      ∃ w2 xs, acquireLoop env fuel i w = some w2 ∧ w2.log = w.log ++ xs ∧
        framesDelivered xs ≤ d + 1 ∧ acquireCalls xs = d + 1 ∧
        w2.camera = w.camera ∧
        w2.adaptor =
          { w.adaptor with
            frameCount := w.adaptor.totalFramesPerTrigger
            _acquisitionActive := false } := by
  intro d
  induction d with
  | zero =>
    intro fuel i w hsize hc ha hf
    obtain ⟨f, rfl⟩ : ∃ f, fuel = f + 1 := ⟨fuel - 1, by omega⟩
    obtain ⟨w1, xs, hpass, hlog, hfd, hac, hcam, hadp⟩ :=
      acquirePass_no_timeout env i w (hno i) (hsize i)
    have hcond : (isAcquisitionNotComplete w && isAcquisitionActive w) = true := by
      simp [isAcquisitionNotComplete, isAcquisitionActive, ha]
      omega
    refine ⟨w1, xs, ?_, hlog, hfd, hac, hcam, ?_⟩
    · rw [acquireLoop, if_pos hcond, hpass]
      apply acquireLoop_done
      simp [isAcquisitionNotComplete, isAcquisitionActive, hadp]
      omega
    · rw [hadp]
      have : w.adaptor.frameCount + 1 = w.adaptor.totalFramesPerTrigger := by omega
      simp [this]
  | succ d ih =>
    intro fuel i w hsize hc ha hf
    obtain ⟨f, rfl⟩ : ∃ f, fuel = f + 1 := ⟨fuel - 1, by omega⟩
    obtain ⟨w1, xs, hpass, hlog, hfd, hac, hcam, hadp⟩ :=
      acquirePass_no_timeout env i w (hno i) (hsize i)
    have hcond : (isAcquisitionNotComplete w && isAcquisitionActive w) = true := by
      simp [isAcquisitionNotComplete, isAcquisitionActive, ha]
      omega
    have hlt : ¬ (w.adaptor.frameCount + 1 ≥ w.adaptor.totalFramesPerTrigger) := by omega
    have hadp2 : w1.adaptor = { w.adaptor with frameCount := w.adaptor.frameCount + 1 } := by
      rw [hadp, if_neg hlt]
    have hsize1 : ∀ j, passCompletes env j w1 = true := by
      intro j
      rw [passCompletes_of_propContainer env j w w1 (by rw [hadp2]), hsize j]
    obtain ⟨w2, ys, hrun, hlog2, hfd2, hac2, hcam2, hadpf⟩ :=
      ih f (i + 1) w1 hsize1
        (by rw [hadp2]; simp only; omega) (by rw [hadp2]; exact ha) (by omega)
    refine ⟨w2, xs ++ ys, ?_, ?_, ?_, ?_, ?_, ?_⟩
    · rw [acquireLoop, if_pos hcond, hpass]
      exact hrun
    · rw [hlog2, hlog, List.append_assoc]
    · rw [framesDelivered_append]
      omega
    · rw [acquireCalls_append]
      omega
    · rw [hcam2, hcam]
    · rw [hadpf, hadp2]

theorem postUntilAccepted_adaptor (n : Nat) (w : World) :
    (postUntilAccepted n w).adaptor = w.adaptor ∧
    (postUntilAccepted n w).camera = w.camera := by
  induction n generalizing w with
  | zero => simp [postUntilAccepted, PostThreadMessage, World.call]
  | succ n ih =>
    simp only [postUntilAccepted]
    have := ih ((PostThreadMessage w.adaptor._acquireThreadID (WM_USER + 1) w).call (.Sleep 1))
    simpa [PostThreadMessage, World.call] using this

theorem setOpen_eq (w : World) (h : w.adaptor.isOpen = true) :
    { w with adaptor := { w.adaptor with isOpen := true } } = w := by
  cases w with
  | mk a c l =>
    cases a
    simp at h
    simp [h]

theorem IAdaptor_open_of_isOpen (env : SpawnEnv) (w : World) (h : w.adaptor.isOpen = true) :
    IAdaptor.open env w = (true, w) := by
  simp [IAdaptor.open, openDevice, h, setOpen_eq]

/-! ## The pieces of `getValue` -/

theorem getValue_log (K : PicamHeader) (info : IPropInfo) (w : World) :
    (getValue K info w).2.log =
      w.log ++ Call.PicamAdvanced_GetCameraModel .ofAdaptor ::
        Call.PicamAdvanced_RefreshParametersFromCameraDevice .ofModel ::
          getValueTail K info w := by
  by_cases hr : isRoisIdentifier K info.propertyIdentifier = true
  · simp [getValue, getValueTail, valueTypeOf, hr, Picam_GetParameterRoisValue,
      PicamAdvanced_RefreshParametersFromCameraDevice, PicamAdvanced_GetCameraModel,
      World.call]
  · cases ht : w.camera.valueType info.propertyIdentifier <;>
      simp [getValue, getValueTail, valueTypeOf, hr, ht, Picam_GetParameterValueType,
        Picam_GetEnumerationString, Picam_GetParameterIntegerValue,
        Picam_GetParameterLargeIntegerValue, Picam_GetParameterFloatingPointValue,
        Picam_GetParameterRoisValue,
        PicamAdvanced_RefreshParametersFromCameraDevice, PicamAdvanced_GetCameraModel,
        World.call]

theorem getValue_camera (K : PicamHeader) (info : IPropInfo) (w : World) :
    (getValue K info w).2.camera = { w.camera with model := w.camera.device } := by
  by_cases hr : isRoisIdentifier K info.propertyIdentifier = true
  · simp [getValue, valueTypeOf, hr, Picam_GetParameterRoisValue,
      PicamAdvanced_RefreshParametersFromCameraDevice, PicamAdvanced_GetCameraModel,
      World.call]
  · cases ht : w.camera.valueType info.propertyIdentifier <;>
      simp [getValue, valueTypeOf, hr, ht, Picam_GetParameterValueType,
        Picam_GetEnumerationString, Picam_GetParameterIntegerValue,
        Picam_GetParameterLargeIntegerValue, Picam_GetParameterFloatingPointValue,
        Picam_GetParameterRoisValue,
        PicamAdvanced_RefreshParametersFromCameraDevice, PicamAdvanced_GetCameraModel,
        World.call]

theorem getValueTail_spec (K : PicamHeader) (info : IPropInfo) (w : World) :
    (∀ c ∈ getValueTail K info w, c.isRefresh = false) ∧
    (∀ c ∈ getValueTail K info w, ∀ cam, c.readHandle = some cam → cam = .ofModel) := by
  by_cases hr : isRoisIdentifier K info.propertyIdentifier = true
  · simp [getValueTail, hr, Call.isRefresh, Call.readHandle]
  · cases ht : w.camera.valueType info.propertyIdentifier <;>
      simp [getValueTail, hr, ht, Call.isRefresh, Call.readHandle]

theorem getValue_fst (K : PicamHeader) (info : IPropInfo) (w : World) :
    (getValue K info w).1 =
      match getKind K info w with
      | .Integer | .Boolean | .Enumeration =>
        some (.asInt (w.camera.device.integerValue info.propertyIdentifier))
      | .LargeInteger =>
        some (.asInt (toInt32 (w.camera.device.largeIntegerValue info.propertyIdentifier)))
      | .FloatingPoint =>
        some (.asDouble (w.camera.device.floatingPointValue info.propertyIdentifier))
      | .Rois =>
        readRoiField (info.propertyIdentifier - K.PicamParameter_Rois)
          w.camera.device.roisValue
      | .Pulse | .Modulations => none
      | .unlisted _ => some (.asInt 22) := by
  by_cases hr : isRoisIdentifier K info.propertyIdentifier = true
  · simp [getValue, getKind, valueTypeOf, hr, Picam_GetParameterRoisValue,
      PicamAdvanced_RefreshParametersFromCameraDevice, PicamAdvanced_GetCameraModel,
      World.call]
  · cases ht : w.camera.valueType info.propertyIdentifier <;>
      simp [getValue, getKind, valueTypeOf, hr, ht, Picam_GetParameterValueType,
        Picam_GetEnumerationString, Picam_GetParameterIntegerValue,
        Picam_GetParameterLargeIntegerValue, Picam_GetParameterFloatingPointValue,
        Picam_GetParameterRoisValue,
        PicamAdvanced_RefreshParametersFromCameraDevice, PicamAdvanced_GetCameraModel,
        World.call]

/-! ## The ROI case of `applyValue` -/

theorem applySwitch_rois_camera (K : PicamHeader) (self : PIXISPropSetListener)
    (cam : PicamHandle) (w : World) :
    (applySwitch K self cam .Rois w).camera.model.roisValue =
      assignRoiField (self._propInfo.propertyIdentifier - K.PicamParameter_Rois)
        self._lastIntValue w.camera.device.roisValue ∧
    ((applySwitch K self cam .Rois w).camera.device.roisValue = w.camera.device.roisValue ∨
      (applySwitch K self cam .Rois w).camera.device.roisValue =
        assignRoiField (self._propInfo.propertyIdentifier - K.PicamParameter_Rois)
          self._lastIntValue w.camera.device.roisValue) := by
  by_cases h : (w.camera.validate
      { w.camera.device with
        roisValue := assignRoiField
          (self._propInfo.propertyIdentifier - K.PicamParameter_Rois)
          self._lastIntValue w.camera.device.roisValue }).length = 0 <;>
    simp [applySwitch, commitAndWarn, Picam_CommitParameters, Picam_SetParameterRoisValue,
      Picam_GetParameterRoisValue, PicamAdvanced_RefreshParametersFromCameraDevice,
      PicamAdvanced_GetCameraModel, World.call, adaptorWarn, h]

theorem worldAtSwitch_camera (K : PicamHeader) (self : PIXISPropSetListener) (w : World) :
    (worldAtSwitch K self w).camera = w.camera :=
  (worldAtSwitch_log K self w).choose_spec.2.2.1

theorem applyValue_rois_calls (K : PicamHeader) (self : PIXISPropSetListener) (w : World)
    (hkind : applyKind K self w = .Rois) :
    Call.Picam_GetParameterRoisValue .ofAdaptor K.PicamParameter_Rois
        w.camera.device.roisValue ∈ callsSince w (self.applyValue K w) ∧
    (callsSince w (self.applyValue K w)).filter Call.isWrite =
      [ Call.Picam_SetParameterRoisValue .ofAdaptor K.PicamParameter_Rois
          (assignRoiField (self._propInfo.propertyIdentifier - K.PicamParameter_Rois)
            self._lastIntValue w.camera.device.roisValue) ] := by
  obtain ⟨n, xs, hq, hlog⟩ := applySwitch_rois K self .ofAdaptor (worldAtSwitch K self w)
  rw [worldAtSwitch_camera] at hlog
  obtain ⟨A, R, hcalls, _, _, hA, hR⟩ :=
    applyValue_frame K self w _ (worldAfterSwitch_log hkind hlog)
  refine ⟨?_, ?_⟩
  · rw [hcalls]
    apply List.mem_append_left
    apply List.mem_append_right
    simp
  · rw [hcalls, List.filter_append, List.filter_append, List.filter_append,
      filter_write_nil_of_not_device hA, filter_write_nil_of_not_device hR, hq.filter_write]
    simp [Call.isWrite]

theorem roiFields_assignRoiField (k v : Int) (region : PicamRois) (h1 : 1 ≤ k) (h6 : k ≤ 6) :
    roiFields (assignRoiField k v region).roi_array0 =
      (roiFields region.roi_array0).set (k - 1).toNat v ∧
    (assignRoiField k v region).roi_rest = region.roi_rest := by
  have : k = 1 ∨ k = 2 ∨ k = 3 ∨ k = 4 ∨ k = 5 ∨ k = 6 := by omega
  rcases this with rfl | rfl | rfl | rfl | rfl | rfl <;>
    simp [roiFields, assignRoiField, List.set]

theorem readRoiField_roiFields (k : Int) (region : PicamRois) (h1 : 1 ≤ k) (h6 : k ≤ 6) :
    readRoiField k region = ((roiFields region.roi_array0)[(k - 1).toNat]?).map SlotValue.asInt := by
  have : k = 1 ∨ k = 2 ∨ k = 3 ∨ k = 4 ∨ k = 5 ∨ k = 6 := by omega
  rcases this with rfl | rfl | rfl | rfl | rfl | rfl <;>
    simp [roiFields, readRoiField]

theorem assignRoiField_outside (k v : Int) (region : PicamRois) (h : ¬ (1 ≤ k ∧ k ≤ 6)) :
    assignRoiField k v region = region := by
  unfold assignRoiField
  have h1 : k ≠ 1 := by omega
  have h2 : k ≠ 2 := by omega
  have h3 : k ≠ 3 := by omega
  have h4 : k ≠ 4 := by omega
  have h5 : k ≠ 5 := by omega
  have h6 : k ≠ 6 := by omega
  simp [h1, h2, h3, h4, h5, h6]

theorem applyValue_rois_device (K : PicamHeader) (self : PIXISPropSetListener) (w : World)
    (hkind : applyKind K self w = .Rois)
    (hcommit : ∀ c ∈ callsSince w (self.applyValue K w),
      c.isCommit = true → c = Call.Picam_CommitParameters .ofAdaptor 0) :
    (self.applyValue K w).camera.device.roisValue =
      assignRoiField (self._propInfo.propertyIdentifier - K.PicamParameter_Rois)
        self._lastIntValue w.camera.device.roisValue := by
  obtain ⟨n, hmem, hdev⟩ := applySwitch_rois_commit K self .ofAdaptor (worldAtSwitch K self w)
  have hmem2 : Call.Picam_CommitParameters .ofAdaptor n ∈
      callsSince (worldAtSwitch K self w) (worldAfterSwitch K self w) := by
    unfold worldAfterSwitch
    rw [hkind]
    exact hmem
  have hn : n = 0 := by
    have := hcommit _ (switch_calls_subset K self w _ hmem2) rfl
    simpa using this
  rw [applyValue_camera]
  unfold worldAfterSwitch
  rw [hkind, hdev hn, worldAtSwitch_camera]

/-! ## The anatomy of one `applyValue` run -/

theorem Emits.same (p : Call → Bool) (w : World) : Emits p w w :=
  ⟨[], by simp, by simp⟩

theorem Emits.andThen {p : Call → Bool} {a b c : World} (h1 : Emits p a b) (h2 : Emits p b c) :
    Emits p a c := by
  obtain ⟨xs, hx, px⟩ := h1
  obtain ⟨ys, hy, py⟩ := h2
  refine ⟨xs ++ ys, by rw [hy, hx, List.append_assoc], ?_⟩
  intro d hd
  rcases List.mem_append.mp hd with hd | hd
  · exact px d hd
  · exact py d hd

theorem Emits.one {p : Call → Bool} {w w2 : World} (c : Call) (h : w2.log = w.log ++ [c])
    (hp : p c = true) : Emits p w w2 := by
  refine ⟨[c], h, ?_⟩
  intro d hd
  simp at hd
  subst hd
  exact hp

theorem applySwitch_eq (K : PicamHeader) (self : PIXISPropSetListener) (cam : PicamHandle)
    (type : PicamValueType) (w : World) :
    applySwitch K self cam type w =
      if hasCommit type then
        afterCommit K self cam type (commitAndWarn cam (beforeCommit K self cam type w))
      else w := by
  cases type <;> simp only [applySwitch, hasCommit, beforeCommit, afterCommit] <;> rfl

theorem Emits.ofWarnTriggerResponses (vs : List Rat) (w : World) :
    Emits Call.isInformational w (warnTriggerResponses vs w) := by
  induction vs generalizing w with
  | nil => exact Emits.same _ w
  | cons v vs ih =>
    simp only [PIXIS.warnTriggerResponses]
    refine Emits.andThen ?_ (ih _)
    exact (Emits.one _ rfl (by rfl)).andThen (Emits.one _ rfl (by rfl))

theorem Emits.ofLogTriggerResponses (K : PicamHeader) (cam : PicamHandle) (w : World) :
    Emits Call.isInformational w (logTriggerResponses K cam w) := by
  unfold PIXIS.logTriggerResponses
  simp only
  refine Emits.andThen ?_ (Emits.one _ rfl (by rfl))
  refine Emits.andThen ?_ (Emits.one _ rfl (by rfl))
  refine Emits.andThen ?_ (Emits.ofWarnTriggerResponses _ _)
  refine Emits.andThen ?_ (Emits.one _ rfl (by rfl))
  refine Emits.andThen ?_ (Emits.one _ rfl (by rfl))
  refine Emits.andThen ?_ (Emits.one _ rfl (by rfl))
  exact Emits.one _ rfl (by rfl)

theorem Emits.afterCommit (K : PicamHeader) (self : PIXISPropSetListener) (cam : PicamHandle)
    (type : PicamValueType) (w : World) :
    Emits Call.isInformational w (afterCommit K self cam type w) := by
  cases type <;> simp only [PIXIS.afterCommit] <;>
    first
    | exact Emits.same _ w
    | (split
       · exact Emits.ofLogTriggerResponses K cam w
       · exact Emits.same _ w)

theorem Emits.kineticsUpdate (K : PicamHeader) (self : PIXISPropSetListener)
    (cam : PicamHandle) (parameter : Int) (w : World) :
    Emits Call.isPreparation w (kineticsUpdate K self cam parameter w) := by
  unfold PIXIS.kineticsUpdate
  simp only
  refine Emits.andThen ?_ (Emits.one _ rfl (by rfl))
  refine Emits.andThen ?_ (Emits.one _ rfl (by rfl))
  refine Emits.andThen ?_ (Emits.one _ rfl (by rfl))
  refine Emits.andThen ?_ (Emits.one _ rfl (by rfl))
  refine Emits.andThen ?_ (Emits.one _ rfl (by rfl))
  refine Emits.andThen ?_ (Emits.one _ rfl (by rfl))
  refine Emits.andThen ?_ (Emits.one _ rfl (by rfl))
  refine Emits.andThen ?_ (Emits.one _ rfl (by rfl))
  exact Emits.one _ rfl (by rfl)

theorem Emits.beforeCommit (K : PicamHeader) (self : PIXISPropSetListener) (cam : PicamHandle)
    (type : PicamValueType) (w : World) :
    Emits Call.isPreparation w (beforeCommit K self cam type w) := by
  cases type <;> simp only [PIXIS.beforeCommit]
  case Integer => exact Emits.one _ rfl (by rfl)
  case Boolean => exact Emits.one _ rfl (by rfl)
  case LargeInteger => exact Emits.one _ rfl (by rfl)
  case Enumeration =>
    split
    · exact Emits.kineticsUpdate K self cam _ w
    · exact Emits.one _ rfl (by rfl)
  case FloatingPoint =>
    exact (Emits.one _ rfl (by rfl)).andThen (Emits.one _ rfl (by rfl))
  case Rois =>
    refine Emits.andThen ?_ (Emits.one _ rfl (by rfl))
    refine Emits.andThen ?_ (Emits.one _ rfl (by rfl))
    refine Emits.andThen ?_ (Emits.one _ rfl (by rfl))
    refine Emits.andThen ?_ (Emits.one _ rfl (by rfl))
    exact Emits.one _ rfl (by rfl)
  case Pulse => exact Emits.same _ w
  case Modulations => exact Emits.same _ w
  case unlisted raw => exact Emits.same _ w

theorem commitAndWarn_log_eq (cam : PicamHandle) (w : World) :
    (commitAndWarn cam w).log =
      w.log ++ Call.Picam_CommitParameters cam (w.camera.validate w.camera.model).length ::
        (if (w.camera.validate w.camera.model).length ≠ 0 then
          [Call.adaptorWarn .failedToCommit] else []) := by
  unfold commitAndWarn
  by_cases h : (w.camera.validate w.camera.model).length = 0
  · simp [Picam_CommitParameters, h]
  · simp [Picam_CommitParameters, h, adaptorWarn, World.call]

theorem worldAtSwitch_log_eq (K : PicamHeader) (self : PIXISPropSetListener) (w : World) :
    (worldAtSwitch K self w).log = w.log ++ (stopCalls w ++ typeCalls K self w) := by
  unfold worldAtSwitch valueTypeOf stopCalls typeCalls
  cases ha : w.adaptor.isAcquiring <;> cases ho : w.adaptor.isOpen <;>
    cases hr : isRoisIdentifier K self._propInfo.propertyIdentifier <;>
    simp [IAdaptor.stop, stopCapture, setAcquisitionActive, World.call,
      Picam_GetParameterValueType, Picam_GetEnumerationString, ho]

theorem applyCalls_split (K : PicamHeader) (self : PIXISPropSetListener) (w : World)
    (S : List Call)
    (hS : (worldAfterSwitch K self w).log = (worldAtSwitch K self w).log ++ S) :
    applyCalls K self w =
      stopCalls w ++ typeCalls K self w ++ S ++ restartCalls w ++
        [Call.Picam_DestroyParameters] := by
  obtain ⟨_, _, _, _, hadp⟩ := worldAtSwitch_log K self w
  have hlog := worldAtSwitch_log_eq K self w
  unfold applyCalls
  apply callsSince_of_log
  rw [applyValue_eq]
  have hadp2 : (worldAfterSwitch K self w).adaptor = (worldAtSwitch K self w).adaptor :=
    applySwitch_adaptor _ _ _ _ _
  cases ha : w.adaptor.isAcquiring
  · simp [World.call, hS, hlog, ha, restartCalls]
  · have hacq : (worldAfterSwitch K self w).adaptor.isAcquiring = false := by
      rw [hadp2, hadp, ha]
      simp [stop_adaptor]
    have hid : (worldAfterSwitch K self w).adaptor._acquireThreadID =
        w.adaptor._acquireThreadID := by
      rw [hadp2, hadp, ha]
      simp [stop_adaptor]
    simp [World.call, restart_log _ hacq, hid, hS, hlog, ha, restartCalls]

theorem applyCalls_anatomy (K : PicamHeader) (self : PIXISPropSetListener) (w : World) :
    ∃ P I,
      (worldBeforeCommit K self w).log = (worldAtSwitch K self w).log ++ P ∧
      (∀ c ∈ P, c.isPreparation = true) ∧ (∀ c ∈ I, c.isInformational = true) ∧
      applyCalls K self w =
        stopCalls w ++ typeCalls K self w ++
          (if hasCommit (applyKind K self w) then
            P ++ Call.Picam_CommitParameters .ofAdaptor (failedCount K self w) ::
              ((if failedCount K self w ≠ 0 then [Call.adaptorWarn .failedToCommit] else [])
                ++ I)
          else []) ++ restartCalls w ++ [Call.Picam_DestroyParameters] := by
  obtain ⟨P, hP, pP⟩ := Emits.beforeCommit K self .ofAdaptor (applyKind K self w)
    (worldAtSwitch K self w)
  obtain ⟨I, hI, pI⟩ := Emits.afterCommit K self .ofAdaptor (applyKind K self w)
    (commitAndWarn .ofAdaptor (worldBeforeCommit K self w))
  refine ⟨P, I, hP, pP, pI, ?_⟩
  apply applyCalls_split
  unfold worldAfterSwitch
  rw [applySwitch_eq]
  cases hc : hasCommit (applyKind K self w)
  · simp
  · simp only [if_true]
    change (afterCommit K self .ofAdaptor (applyKind K self w)
      (commitAndWarn .ofAdaptor (worldBeforeCommit K self w))).log = _
    rw [hI, commitAndWarn_log_eq]
    change _ = (worldAtSwitch K self w).log ++ _
    rw [show (worldBeforeCommit K self w).log = (worldAtSwitch K self w).log ++ P from hP]
    simp [failedCount]
theorem Call.isPreparation_spec {c : Call} (h : c.isPreparation = true) :
    c.isCommit = false ∧ c.isFailedCommitWarning = false ∧ c.isGuard = false ∧
      c.isStopOrRestart = false ∧ c ≠ Call.Picam_DestroyParameters := by
  cases c with
  | adaptorWarn m => cases m <;> simp_all [Call.isPreparation, Call.isCommit,
      Call.isFailedCommitWarning, Call.isGuard, Call.isStopOrRestart]
  | _ => simp_all [Call.isPreparation, Call.isCommit,
      Call.isFailedCommitWarning, Call.isGuard, Call.isStopOrRestart]

theorem Call.isInformational_spec {c : Call} (h : c.isInformational = true) :
    c.isWrite = false ∧ c.isCommit = false ∧ c.isFailedCommitWarning = false ∧
      c.isGuard = false ∧ c.isStopOrRestart = false ∧ c ≠ Call.Picam_DestroyParameters := by
  cases c with
  | adaptorWarn m => cases m <;> simp_all [Call.isInformational, Call.isWrite, Call.isCommit,
      Call.isFailedCommitWarning, Call.isGuard, Call.isStopOrRestart]
  | _ => simp_all [Call.isInformational, Call.isWrite, Call.isCommit,
      Call.isFailedCommitWarning, Call.isGuard, Call.isStopOrRestart]

theorem head_calls_spec (K : PicamHeader) (self : PIXISPropSetListener) (w : World) :
    ∀ c ∈ stopCalls w ++ typeCalls K self w,
      c.isWrite = false ∧ c.isCommit = false ∧ c.isFailedCommitWarning = false ∧
        c ≠ Call.Picam_DestroyParameters ∧
        (c.isGuard = true → c = Call.enter .grabSection ∨ c = Call.leave .grabSection) := by
  intro c hc
  unfold stopCalls typeCalls at hc
  cases ha : w.adaptor.isAcquiring <;> cases ho : w.adaptor.isOpen <;>
    cases hr : isRoisIdentifier K self._propInfo.propertyIdentifier <;>
    simp [ha, ho, hr] at hc <;>
    (try rcases hc with rfl | rfl | rfl | rfl | rfl)  <;>
    simp [Call.isWrite, Call.isCommit, Call.isFailedCommitWarning, Call.isGuard]

theorem tail_calls_spec (w : World) :
    ∀ c ∈ restartCalls w ++ [Call.Picam_DestroyParameters],
      c.isWrite = false ∧ c.isCommit = false ∧ c.isFailedCommitWarning = false ∧
        c.isGuard = false := by
  intro c hc
  unfold restartCalls at hc
  cases ha : w.adaptor.isAcquiring <;> simp [ha] at hc <;>
    (try rcases hc with rfl | rfl | rfl) <;>
    simp [Call.isWrite, Call.isCommit, Call.isFailedCommitWarning, Call.isGuard]

theorem applyCalls_commit_form (K : PicamHeader) (self : PIXISPropSetListener) (w : World)
    (hc : hasCommit (applyKind K self w) = true) :
    ∃ I, (∀ c ∈ I, c.isInformational = true) ∧
      (∀ c ∈ callsSince (worldAtSwitch K self w) (worldBeforeCommit K self w),
        c.isPreparation = true) ∧
      applyCalls K self w =
        (stopCalls w ++ typeCalls K self w ++
            callsSince (worldAtSwitch K self w) (worldBeforeCommit K self w)) ++
          Call.Picam_CommitParameters .ofAdaptor (failedCount K self w) ::
            ((if failedCount K self w ≠ 0 then [Call.adaptorWarn .failedToCommit] else []) ++
              (I ++ (restartCalls w ++ [Call.Picam_DestroyParameters]))) := by
  obtain ⟨P, I, hP, pP, pI, h⟩ := applyCalls_anatomy K self w
  have hPeq : callsSince (worldAtSwitch K self w) (worldBeforeCommit K self w) = P :=
    callsSince_of_log hP
  refine ⟨I, pI, by rw [hPeq]; exact pP, ?_⟩
  rw [h, hc, hPeq]
  simp

theorem applyCalls_no_commit_form (K : PicamHeader) (self : PIXISPropSetListener) (w : World)
    (hc : hasCommit (applyKind K self w) = false) :
    applyCalls K self w =
      (stopCalls w ++ typeCalls K self w) ++ (restartCalls w ++ [Call.Picam_DestroyParameters])
    := by
  obtain ⟨P, I, hP, pP, pI, h⟩ := applyCalls_anatomy K self w
  rw [h, hc]
  simp

theorem applyValue_log (K : PicamHeader) (self : PIXISPropSetListener) (w : World) :
    (self.applyValue K w).log = w.log ++ applyCalls K self w := by
  obtain ⟨S, hS, _⟩ := applySwitch_no_stop K self .ofAdaptor (applyKind K self w)
    (worldAtSwitch K self w)
  have hsplit := applyCalls_split K self w S hS
  obtain ⟨_, _, _, _, hadp⟩ := worldAtSwitch_log K self w
  have hlog := worldAtSwitch_log_eq K self w
  have hS2 : (worldAfterSwitch K self w).log = (worldAtSwitch K self w).log ++ S := hS
  rw [hsplit, applyValue_eq]
  have hadp2 : (worldAfterSwitch K self w).adaptor = (worldAtSwitch K self w).adaptor :=
    applySwitch_adaptor _ _ _ _ _
  cases ha : w.adaptor.isAcquiring
  · simp [World.call, hS2, hlog, ha, restartCalls]
  · have hacq : (worldAfterSwitch K self w).adaptor.isAcquiring = false := by
      rw [hadp2, hadp, ha]
      simp [stop_adaptor]
    have hid : (worldAfterSwitch K self w).adaptor._acquireThreadID =
        w.adaptor._acquireThreadID := by
      rw [hadp2, hadp, ha]
      simp [stop_adaptor]
    simp [World.call, restart_log _ hacq, hid, hS2, hlog, ha, restartCalls]

theorem applyCalls_guard (K : PicamHeader) (self : PIXISPropSetListener) (w : World) :
    ∀ c ∈ applyCalls K self w,
      c.isGuard = true → c = Call.enter .grabSection ∨ c = Call.leave .grabSection := by
  intro c hc hg
  cases hcm : hasCommit (applyKind K self w)
  · rw [applyCalls_no_commit_form K self w hcm] at hc
    rcases List.mem_append.mp hc with hc | hc
    · exact (head_calls_spec K self w c hc).2.2.2.2 hg
    · rw [(tail_calls_spec w c hc).2.2.2] at hg
      cases hg
  · obtain ⟨I, pI, pP, h⟩ := applyCalls_commit_form K self w hcm
    rw [h] at hc
    rcases List.mem_append.mp hc with hc | hc
    · rcases List.mem_append.mp hc with hc | hc
      · exact (head_calls_spec K self w c hc).2.2.2.2 hg
      · rw [(Call.isPreparation_spec (pP c hc)).2.2.1] at hg
        cases hg
    · rcases List.mem_cons.mp hc with rfl | hc
      · cases hg
      · rcases List.mem_append.mp hc with hc | hc
        · split at hc
          · simp at hc
            subst hc
            cases hg
          · simp at hc
        · rcases List.mem_append.mp hc with hc | hc
          · rw [(Call.isInformational_spec (pI c hc)).2.2.2.1] at hg
            cases hg
          · rw [(tail_calls_spec w c hc).2.2.2] at hg
            cases hg

theorem applyRuns_applyCalls (K : PicamHeader) (self : PIXISPropSetListener) (w : World) :
    applyRuns (applyCalls K self w) = 1 := by
  have hhead : (stopCalls w ++ typeCalls K self w).count Call.Picam_DestroyParameters = 0 :=
    List.count_eq_zero.mpr fun hm => (head_calls_spec K self w _ hm).2.2.2.1 rfl
  have hrestart : (restartCalls w).count Call.Picam_DestroyParameters = 0 := by
    unfold restartCalls
    split <;> simp
  unfold applyRuns
  cases hcm : hasCommit (applyKind K self w)
  · rw [applyCalls_no_commit_form K self w hcm]
    simp only [List.count_append, hhead, hrestart]
    simp
  · obtain ⟨I, pI, pP, h⟩ := applyCalls_commit_form K self w hcm
    have hI : I.count Call.Picam_DestroyParameters = 0 :=
      List.count_eq_zero.mpr fun hm => (Call.isInformational_spec (pI _ hm)).2.2.2.2.2 rfl
    have hP : (callsSince (worldAtSwitch K self w) (worldBeforeCommit K self w)).count
        Call.Picam_DestroyParameters = 0 :=
      List.count_eq_zero.mpr fun hm => (Call.isPreparation_spec (pP _ hm)).2.2.2.2 rfl
    rw [h]
    simp only [List.count_append, List.count_cons, hhead, hrestart, hI, hP]
    by_cases hn : failedCount K self w = 0 <;> simp [hn]

theorem acquirePass_calls (env : WorkerEnv) (i : Nat) (w : World)
    (hc : passCompletes env i w = true) :
    ∃ w2 mid, acquirePass env i w = some w2 ∧
      callsSince w w2 =
        Call.enter .acquisitionActiveGuard ::
          Call.Picam_Acquire 1 3000 (env.acquireTimesOut i) ::
            (mid ++ [Call.leave .acquisitionActiveGuard]) ∧
      ∀ c ∈ mid, c.isGuard = false := by
  cases ht : env.acquireTimesOut i
  · cases hs : env.isSendFrame i
    · exact ⟨_, [.adaptorWarn .notSendingFrame], acquirePass_unsent env i w ht hs,
        by simp [callsSince], by simp [Call.isGuard]⟩
    · simp only [passCompletes, ht, hs, Bool.false_or, Bool.not_true, Bool.and_eq_true,
        Option.isSome_iff_exists] at hc
      obtain ⟨⟨a, hw⟩, ⟨b, hh⟩⟩ := hc
      exact ⟨_, [.makeFrame a b, .setImage a b 0 0, .setTime, .receiveFrame],
        acquirePass_sent env i w a b ht hs hw hh, by simp [callsSince],
        by simp [Call.isGuard]⟩
  · exact ⟨_, [], acquirePass_timed_out env i w ht, by simp [callsSince], by simp⟩

theorem acquirePass_eq (env : WorkerEnv) (i : Nat) (w : World) :
    acquirePass env i w = passFromAcquire env i (w.call (.enter .acquisitionActiveGuard)) :=
  rfl

theorem onBegin_first_pass (env : WorkerEnv) (fuel : Nat) (w : World)
    (h : (isAcquisitionNotComplete (w.call (.enter .acquisitionActiveGuard)) &&
      isAcquisitionActive (w.call (.enter .acquisitionActiveGuard))) = true) :
    onBegin env (fuel + 1) w =
      ((passFromAcquire env 0
          ((w.call (.enter .acquisitionActiveGuard)).call
            (.enter .acquisitionActiveGuard))).bind (acquireLoop env fuel 1)).map
        fun w => w.call (.leave .acquisitionActiveGuard) := by
  simp only [onBegin, acquireLoop, h, if_true, acquirePass, Nat.zero_add]
  cases passFromAcquire env 0
    ((w.call (.enter .acquisitionActiveGuard)).call (.enter .acquisitionActiveGuard)) <;> rfl

theorem toPiint_range (x : Rat) : -2147483648 ≤ toPiint x ∧ toPiint x ≤ 2147483647 := by
  unfold toPiint
  simp only
  split
  · assumption
  · exact ⟨by decide, by decide⟩

theorem toPiint_intCast (m : Int) (hlo : -2147483648 ≤ m) (hhi : m ≤ 2147483647) :
    toPiint (m : Rat) = m := by
  simp [toPiint, Rat.intCast_num, Rat.intCast_den, Int.tdiv_one, hlo, hhi]

theorem toInt32_range (x : Int) : -2147483648 ≤ toInt32 x ∧ toInt32 x ≤ 2147483647 := by
  unfold toInt32
  omega

theorem toInt32_congr (x : Int) : (toInt32 x - x) % 4294967296 = 0 := by
  unfold toInt32
  omega

theorem toInt32_unique (x y : Int) (h1 : -2147483648 ≤ y) (h2 : y ≤ 2147483647)
    (h3 : (y - x) % 4294967296 = 0) : y = toInt32 x := by
  unfold toInt32
  omega

theorem toInt32_eq_iff (x : Int) :
    toInt32 x = x ↔ -2147483648 ≤ x ∧ x ≤ 2147483647 := by
  unfold toInt32
  omega

theorem makeFrame_mem_acquirePass (env : WorkerEnv) (i : Nat) (w : World) (a b : Int)
    (ht : env.acquireTimesOut i = false) (hs : env.isSendFrame i = true)
    (hw : getMaxWidth w = some a) (hh : getMaxHeight w = some b) :
    ∃ w2, acquirePass env i w = some w2 ∧ Call.makeFrame a b ∈ callsSince w w2 :=
  ⟨_, acquirePass_sent env i w a b ht hs hw hh, by simp [callsSince]⟩

theorem tdiv_range (a b : Int) (hlo : -2147483648 ≤ a) (hhi : a ≤ 2147483647) (hb : b ≠ 0)
    (hcorner : ¬ (a = -2147483648 ∧ b = -1)) :
    -2147483648 ≤ Int.tdiv a b ∧ Int.tdiv a b ≤ 2147483647 := by
  by_cases h1 : b = 1
  · subst h1
    rw [Int.tdiv_one]
    exact ⟨hlo, hhi⟩
  · by_cases h2 : b = -1
    · subst h2
      have hq : a.tdiv (-1) = -a := by rw [Int.tdiv_neg, Int.tdiv_one]
      rw [hq]
      omega
    · have hq : (a.tdiv b).natAbs = a.natAbs / b.natAbs := Int.natAbs_tdiv a b
      have hb2 : 2 ≤ b.natAbs := by omega
      have hle : a.natAbs / b.natAbs ≤ a.natAbs / 2 := Nat.div_le_div_left hb2 (by decide)
      omega

/-! # The properties -/

/-! ## ROI round trip
-/

/-- C1: for every `k` in 1..6 and every integer `v`, after `applyValue` has run for the
identifier `PicamParameter_Rois + k` with `_lastIntValue = v` and its commit reported no
failed parameter, `getValue` for that identifier stores `v`; nothing is assumed about the
other five fields or about the rest of the world. -/
theorem roi_set_then_get (K : PicamHeader) (self : PIXISPropSetListener) (info : IPropInfo)
    (w : World) (k v : Int) (h1 : 1 ≤ k) (h6 : k ≤ 6)
    (hself : self._propInfo.propertyIdentifier = K.PicamParameter_Rois + k)
    (hinfo : info.propertyIdentifier = K.PicamParameter_Rois + k)
    (hv : self._lastIntValue = v)
    (hcommit : ∀ c ∈ callsSince w (self.applyValue K w),
      c.isCommit = true → c = Call.Picam_CommitParameters .ofAdaptor 0) :
    (getValue K info (self.applyValue K w)).1 = some (.asInt v) := by
  have hr : isRoisIdentifier K (K.PicamParameter_Rois + k) = true :=
    isRoisIdentifier_add K k h1 h6
  have hkind : applyKind K self w = .Rois := by
    simp [applyKind, hself, hr]
  obtain ⟨n, hmem, hdev⟩ := applySwitch_rois_commit K self .ofAdaptor (worldAtSwitch K self w)
  have hmem2 : Call.Picam_CommitParameters .ofAdaptor n ∈
      callsSince (worldAtSwitch K self w) (worldAfterSwitch K self w) := by
    unfold worldAfterSwitch
    rw [hkind]
    exact hmem
  have hn : n = 0 := by
    have := hcommit _ (switch_calls_subset K self w _ hmem2) rfl
    simpa using this
  have hcam : (self.applyValue K w).camera.device.roisValue =
      assignRoiField k v (worldAtSwitch K self w).camera.device.roisValue := by
    rw [applyValue_camera]
    unfold worldAfterSwitch
    rw [hkind, hdev hn, hself, hv]
    congr 1
    omega
  rw [getValue_rois K info _ (by rw [hinfo]; exact hr), hcam, hinfo]
  have : K.PicamParameter_Rois + k - K.PicamParameter_Rois = k := by omega
  rw [this]
  exact readRoiField_assignRoiField k v _ h1 h6

/-- C1, evaluated: the ROI width (`k = 2`) of the sample camera set to 670 and read back. -/
theorem roi_set_then_get_witness :
    (getValue sampleHeader { propertyIdentifier := 67436583, propertyStorageType := .INT }
      ((sampleListener 67436583 670).applyValue sampleHeader sampleWorld)).1 =
      some (.asInt 670) :=
  roi_set_then_get sampleHeader (sampleListener 67436583 670)
    { propertyIdentifier := 67436583, propertyStorageType := .INT } sampleWorld 2 670
    (by decide) (by decide) (by decide) (by decide) rfl
    (by decide)

/-! ## The kinetics cascade: values written
-/

/-- C2, as amended: when `applyValue` runs for `PicamParameter_ReadoutControlMode` with the
new value `PicamReadoutControlMode_Kinetics`, the writes issued ahead of the commit are, in
order: trigger response = 5, the mode itself, exposure time = 10, kinetics window height =
128, and one ROI whose height is `singleFrameHeight` (the maximum of the ROI height
constraint, cast to `piint`), whose width is the maximum of the ROI width constraint, cast to
`piint`, whose offsets are 0 and whose binning is 1 x 1.  The value of `FramesPerReadout` is
read ahead of the commit but does not enter the ROI.  Both casts give signed 32-bit values,
and a maximum that is itself a signed 32-bit integer is written as it is. -/
theorem kinetics_writes_before_commit (K : PicamHeader) (self : PIXISPropSetListener)
    (w : World) (hkind : applyKind K self w = .Enumeration) (hk : isKineticsUpdate K self) :
    ∃ constraint framesPerReadout pre n post,
      callsSince w (self.applyValue K w) =
        pre ++ Call.Picam_CommitParameters .ofAdaptor n :: post ∧
      (∀ c ∈ pre, c.isCommit = false) ∧
      Call.Picam_GetParameterRoisConstraint .ofAdaptor K.PicamParameter_Rois .Required
        constraint ∈ pre ∧
      Call.Picam_GetParameterIntegerValue .ofAdaptor K.PicamParameter_FramesPerReadout
        framesPerReadout ∈ pre ∧
      pre.filter Call.isWrite =
        [ Call.Picam_SetParameterIntegerValue .ofAdaptor K.PicamParameter_TriggerResponse 5,
          Call.Picam_SetParameterIntegerValue .ofAdaptor K.PicamParameter_ReadoutControlMode
            K.PicamReadoutControlMode_Kinetics,
          Call.Picam_SetParameterFloatingPointValue .ofAdaptor K.PicamParameter_ExposureTime 10,
          Call.Picam_SetParameterIntegerValue .ofAdaptor K.PicamParameter_KineticsWindowHeight
            128,
          Call.Picam_SetParameterRoisValue .ofAdaptor K.PicamParameter_Rois
            { roi_array0 :=
                { x := 0
                  width := toPiint constraint.width_constraint.maximum
                  x_binning := 1
                  y := 0
                  height := toPiint constraint.height_constraint.maximum
                  y_binning := 1 }
              roi_rest := [] } ] ∧
      (-2147483648 ≤ toPiint constraint.width_constraint.maximum ∧
        toPiint constraint.width_constraint.maximum ≤ 2147483647 ∧
        -2147483648 ≤ toPiint constraint.height_constraint.maximum ∧
        toPiint constraint.height_constraint.maximum ≤ 2147483647) ∧
      (∀ m : Int, -2147483648 ≤ m → m ≤ 2147483647 →
        (constraint.width_constraint.maximum = (m : Rat) →
          toPiint constraint.width_constraint.maximum = m) ∧
        (constraint.height_constraint.maximum = (m : Rat) →
          toPiint constraint.height_constraint.maximum = m)) := by
  obtain ⟨c, f, n, A, B, hA, _, h⟩ := applyValue_kinetics_calls K self w hkind hk
  refine ⟨c, f, A ++ kineticsCalls K c f, n, B, h, ?_, ?_, ?_, ?_,
    ⟨(toPiint_range _).1, (toPiint_range _).2, (toPiint_range _).1, (toPiint_range _).2⟩,
    fun m hlo hhi => ⟨fun hm => by rw [hm]; exact toPiint_intCast m hlo hhi,
      fun hm => by rw [hm]; exact toPiint_intCast m hlo hhi⟩⟩
  · intro d hd
    rcases List.mem_append.mp hd with hd | hd
    · have := hA d hd
      simp only [Call.isDevice, Bool.or_eq_false_iff] at this
      exact this.2
    · exact kineticsCalls_no_commit K c f d hd
  · apply List.mem_append_right
    simp [kineticsCalls]
  · apply List.mem_append_right
    simp [kineticsCalls]
  · rw [List.filter_append, filter_write_nil_of_not_device hA, List.nil_append,
      kineticsCalls_filter_write]

/-- C2, evaluated on the sample camera (sensor 1340 x 100, two frames per readout). -/
theorem kinetics_writes_before_commit_witness :
    ∃ constraint framesPerReadout pre n post,
      callsSince sampleWorld ((sampleListener 50593818 3).applyValue sampleHeader sampleWorld) =
        pre ++ Call.Picam_CommitParameters .ofAdaptor n :: post ∧
      (∀ c ∈ pre, c.isCommit = false) ∧
      Call.Picam_GetParameterRoisConstraint .ofAdaptor 67436581 .Required constraint ∈ pre ∧
      Call.Picam_GetParameterIntegerValue .ofAdaptor 16842806 framesPerReadout ∈ pre ∧
      pre.filter Call.isWrite =
        [ Call.Picam_SetParameterIntegerValue .ofAdaptor 50593822 5,
          Call.Picam_SetParameterIntegerValue .ofAdaptor 50593818 3,
          Call.Picam_SetParameterFloatingPointValue .ofAdaptor 33685527 10,
          Call.Picam_SetParameterIntegerValue .ofAdaptor 33620024 128,
          Call.Picam_SetParameterRoisValue .ofAdaptor 67436581
            { roi_array0 :=
                { x := 0
                  width := toPiint constraint.width_constraint.maximum
                  x_binning := 1
                  y := 0
                  height := toPiint constraint.height_constraint.maximum
                  y_binning := 1 }
              roi_rest := [] } ] ∧
      (-2147483648 ≤ toPiint constraint.width_constraint.maximum ∧
        toPiint constraint.width_constraint.maximum ≤ 2147483647 ∧
        -2147483648 ≤ toPiint constraint.height_constraint.maximum ∧
        toPiint constraint.height_constraint.maximum ≤ 2147483647) ∧
      (∀ m : Int, -2147483648 ≤ m → m ≤ 2147483647 →
        (constraint.width_constraint.maximum = (m : Rat) →
          toPiint constraint.width_constraint.maximum = m) ∧
        (constraint.height_constraint.maximum = (m : Rat) →
          toPiint constraint.height_constraint.maximum = m)) :=
  kinetics_writes_before_commit sampleHeader (sampleListener 50593818 3) sampleWorld
    (by decide) (by decide)

/-- C2 as stated fails: on the sample camera `FramesPerReadout` reads 2 and the maximum of the
ROI height constraint is 100, yet no ROI of height 2 x 100 is written; the ROI written has
height 100.  And for a camera that reports 3000000000 as the maximum of the ROI width
constraint the width written is not that maximum but the result of the cast to `piint`. -/
theorem kinetics_roi_height_counterexample :
    (Call.Picam_GetParameterIntegerValue .ofAdaptor 16842806 2 ∈
      callsSince sampleWorld ((sampleListener 50593818 3).applyValue sampleHeader sampleWorld) ∧
    Call.Picam_GetParameterRoisConstraint .ofAdaptor 67436581 .Required
      { width_constraint := { maximum := 1340 }, height_constraint := { maximum := 100 } } ∈
      callsSince sampleWorld ((sampleListener 50593818 3).applyValue sampleHeader sampleWorld) ∧
    Call.Picam_SetParameterRoisValue .ofAdaptor 67436581
      { roi_array0 := { x := 0, width := 1340, x_binning := 1, y := 0, height := 100,
                        y_binning := 1 }
        roi_rest := [] } ∈
      callsSince sampleWorld ((sampleListener 50593818 3).applyValue sampleHeader sampleWorld) ∧
    ¬ ∃ rois, Call.Picam_SetParameterRoisValue .ofAdaptor 67436581 rois ∈
        callsSince sampleWorld
          ((sampleListener 50593818 3).applyValue sampleHeader sampleWorld) ∧
      rois.roi_array0.height = 2 * toPiint 100) ∧
    (Call.Picam_GetParameterRoisConstraint .ofAdaptor 67436581 .Required
      { width_constraint := { maximum := 3000000000 }, height_constraint := { maximum := 100 } } ∈
      callsSince wideWorld ((sampleListener 50593818 3).applyValue sampleHeader wideWorld) ∧
    Call.Picam_SetParameterRoisValue .ofAdaptor 67436581
      { roi_array0 := { x := 0, width := -2147483648, x_binning := 1, y := 0, height := 100,
                        y_binning := 1 }
        roi_rest := [] } ∈
      callsSince wideWorld ((sampleListener 50593818 3).applyValue sampleHeader wideWorld)) := by
  refine ⟨?_, by decide, by decide⟩
  rw [sample_kinetics_calls]
  refine ⟨by decide, by decide, by decide, ?_⟩
  rintro ⟨rois, hmem, hh⟩
  simp only [List.mem_cons, List.mem_singleton, List.not_mem_nil, or_false, reduceCtorEq,
    false_or, or_false] at hmem
  simp only [Call.Picam_SetParameterRoisValue.injEq, true_and] at hmem
  subst hmem
  revert hh
  decide

/-! ## The kinetics cascade: one commit
-/

/-- C3: one run of `applyValue` for readout control mode = kinetics issues exactly one commit;
the five writes of the cascade (trigger response, the mode, exposure time, kinetics window
height, the ROI) all come before it, and no write and no commit comes after it. -/
theorem kinetics_single_commit_after_writes (K : PicamHeader) (self : PIXISPropSetListener)
    (w : World) (hkind : applyKind K self w = .Enumeration) (hk : isKineticsUpdate K self) :
    ∃ pre n post rois,
      callsSince w (self.applyValue K w) =
        pre ++ Call.Picam_CommitParameters .ofAdaptor n :: post ∧
      ((callsSince w (self.applyValue K w)).filter Call.isCommit).length = 1 ∧
      (∀ c ∈ pre, c.isCommit = false) ∧
      (∀ c ∈ post, c.isCommit = false ∧ c.isWrite = false) ∧
      pre.filter Call.isWrite =
        [ Call.Picam_SetParameterIntegerValue .ofAdaptor K.PicamParameter_TriggerResponse 5,
          Call.Picam_SetParameterIntegerValue .ofAdaptor K.PicamParameter_ReadoutControlMode
            K.PicamReadoutControlMode_Kinetics,
          Call.Picam_SetParameterFloatingPointValue .ofAdaptor K.PicamParameter_ExposureTime 10,
          Call.Picam_SetParameterIntegerValue .ofAdaptor K.PicamParameter_KineticsWindowHeight
            128,
          Call.Picam_SetParameterRoisValue .ofAdaptor K.PicamParameter_Rois rois ] := by
  obtain ⟨c, f, n, A, B, hA, hB, h⟩ := applyValue_kinetics_calls K self w hkind hk
  have hpre : ∀ d ∈ A ++ kineticsCalls K c f, d.isCommit = false := by
    intro d hd
    rcases List.mem_append.mp hd with hd | hd
    · have := hA d hd
      simp only [Call.isDevice, Bool.or_eq_false_iff] at this
      exact this.2
    · exact kineticsCalls_no_commit K c f d hd
  refine ⟨A ++ kineticsCalls K c f, n, B,
    { roi_array0 :=
        { x := 0
          width := toPiint c.width_constraint.maximum
          x_binning := 1
          y := 0
          height := toPiint c.height_constraint.maximum
          y_binning := 1 }
      roi_rest := [] }, h, ?_, hpre, ?_, ?_⟩
  · rw [h, List.filter_append, List.filter_cons, filter_commit_nil_of_not_device hB]
    have : (A ++ kineticsCalls K c f).filter Call.isCommit = [] := by
      rw [List.filter_eq_nil_iff]
      intro d hd
      simp [hpre d hd]
    rw [this]
    simp [Call.isCommit]
  · intro d hd
    have := hB d hd
    simp only [Call.isDevice, Bool.or_eq_false_iff] at this
    exact ⟨this.2, this.1⟩
  · rw [List.filter_append, filter_write_nil_of_not_device hA, List.nil_append,
      kineticsCalls_filter_write]

/-- C3, evaluated on the sample camera. -/
theorem kinetics_single_commit_after_writes_witness :
    ∃ pre n post rois,
      callsSince sampleWorld ((sampleListener 50593818 3).applyValue sampleHeader sampleWorld) =
        pre ++ Call.Picam_CommitParameters .ofAdaptor n :: post ∧
      ((callsSince sampleWorld
        ((sampleListener 50593818 3).applyValue sampleHeader sampleWorld)).filter
          Call.isCommit).length = 1 ∧
      (∀ c ∈ pre, c.isCommit = false) ∧
      (∀ c ∈ post, c.isCommit = false ∧ c.isWrite = false) ∧
      pre.filter Call.isWrite =
        [ Call.Picam_SetParameterIntegerValue .ofAdaptor 50593822 5,
          Call.Picam_SetParameterIntegerValue .ofAdaptor 50593818 3,
          Call.Picam_SetParameterFloatingPointValue .ofAdaptor 33685527 10,
          Call.Picam_SetParameterIntegerValue .ofAdaptor 33620024 128,
          Call.Picam_SetParameterRoisValue .ofAdaptor 67436581 rois ] :=
  kinetics_single_commit_after_writes sampleHeader (sampleListener 50593818 3) sampleWorld
    (by decide) (by decide)

/-! ## The worker loop and the frame budget
-/

/-- C4, as amended: for every frame budget `N ≥ 1`, when the worker handles a 'begin' message
with `framesAcquired = 0` and `_acquisitionActive = true`, no acquire call times out, and
`getMaxWidth()` and `getMaxHeight()` have a value if some pass sends its frame, the loop
ends (any fuel of at least `N` passes is enough), exactly `N` acquire calls are made, at most
`N` frames are handed to the framework, and on exit `_acquisitionActive` is false and
`framesAcquired = N`. -/
theorem worker_delivers_budget (env : WorkerEnv) (w : World) (N fuel : Nat)
    (hN : 1 ≤ N) (htotal : w.adaptor.totalFramesPerTrigger = N)
    (hcount : w.adaptor.frameCount = 0) (hactive : w.adaptor._acquisitionActive = true)
    (hno : ∀ i, env.acquireTimesOut i = false)
    (hsize : ∀ i, env.isSendFrame i = true →
      (getMaxWidth w).isSome = true ∧ (getMaxHeight w).isSome = true)
    (hfuel : N ≤ fuel) :
    ∃ w2, onBegin env fuel w = some w2 ∧
      acquireCalls (callsSince w w2) = N ∧
      framesDelivered (callsSince w w2) ≤ N ∧
      w2.adaptor._acquisitionActive = false ∧
      w2.adaptor.frameCount = N := by
  obtain ⟨d, rfl⟩ : ∃ d, N = d + 1 := ⟨N - 1, by omega⟩
  have hcomplete : ∀ j,
      passCompletes env j (w.call (.enter .acquisitionActiveGuard)) = true := by
    intro j
    rw [passCompletes_of_propContainer env j w (w.call (.enter .acquisitionActiveGuard)) rfl]
    cases hs : env.isSendFrame j
    · simp [passCompletes, hs]
    · simp [passCompletes, hs, (hsize j hs).1, (hsize j hs).2]
  obtain ⟨w2, xs, hrun, hlog, hfd, hac, _, hadp⟩ :=
    acquireLoop_run env hno d fuel 0 (w.call (.enter .acquisitionActiveGuard)) hcomplete
      (by simp [World.call, hcount, htotal]) (by simpa [World.call] using hactive) hfuel
  refine ⟨w2.call (.leave .acquisitionActiveGuard), ?_, ?_, ?_, ?_, ?_⟩
  · simp [onBegin, hrun]
  · have : callsSince w (w2.call (.leave .acquisitionActiveGuard)) =
        [Call.enter .acquisitionActiveGuard] ++ xs ++ [Call.leave .acquisitionActiveGuard] := by
      apply callsSince_of_log
      simp [World.call, hlog]
    rw [this, acquireCalls_append, acquireCalls_append, hac]
    simp [acquireCalls]
  · have : callsSince w (w2.call (.leave .acquisitionActiveGuard)) =
        [Call.enter .acquisitionActiveGuard] ++ xs ++ [Call.leave .acquisitionActiveGuard] := by
      apply callsSince_of_log
      simp [World.call, hlog]
    rw [this, framesDelivered_append, framesDelivered_append]
    have h1 : framesDelivered [Call.enter .acquisitionActiveGuard] = 0 := by decide
    have h2 : framesDelivered [Call.leave .acquisitionActiveGuard] = 0 := by decide
    omega
  · simp [World.call, hadp]
  · simp [World.call, hadp, htotal]

/-- C4, evaluated: the sample adaptor started with a budget of three frames. -/
theorem worker_delivers_budget_witness :
    ∃ w2, onBegin sampleEnv 3 (startedWorld 3) = some w2 ∧
      acquireCalls (callsSince (startedWorld 3) w2) = 3 ∧
      framesDelivered (callsSince (startedWorld 3) w2) ≤ 3 ∧
      w2.adaptor._acquisitionActive = false ∧
      w2.adaptor.frameCount = 3 :=
  worker_delivers_budget sampleEnv (startedWorld 3) 3 3 (by decide) rfl rfl rfl
    (fun _ => rfl) (fun _ _ => ⟨by decide, by decide⟩) (by decide)

/-- C4 as stated fails for the budget `N = 0`: the loop condition is false at once, the loop
ends without a pass, and `_acquisitionActive` is still true on exit.  It also fails for the
budget 3 on a device whose ROIXBinning is 0, with no acquire timing out: `getMaxWidth()`
has no value, the first pass stops at the division before any frame is made, and the
handling of 'begin' has no result. -/
theorem worker_zero_budget_counterexample :
    (onBegin sampleEnv 3 (startedWorld 0)).map
        (fun w => (w.adaptor._acquisitionActive, w.adaptor.frameCount,
          w.adaptor.totalFramesPerTrigger)) =
      some (true, 0, 0) ∧
    (unbinnedWorld.adaptor.totalFramesPerTrigger = 3 ∧ unbinnedWorld.adaptor.frameCount = 0 ∧
      unbinnedWorld.adaptor._acquisitionActive = true ∧
      getMaxWidth unbinnedWorld = none ∧
      (acquirePass sampleEnv 0
        (unbinnedWorld.call (.enter .acquisitionActiveGuard))).isSome = false ∧
      (onBegin sampleEnv 3 unbinnedWorld).isSome = false) := by
  refine ⟨by decide, by decide, by decide, by decide, by decide, by decide, by decide⟩

/-! ## `startCapture`
-/

/-- C5: `startCapture` returns false exactly when the device is already acquiring, and then
the world is unchanged (no message posted, `_acquisitionActive` and everything else as
before); in every other state it posts `WM_USER` to the worker thread, sets
`_acquisitionActive` to true, changes nothing else and returns true. -/
theorem startCapture_spec (w : World) :
    ((startCapture w).1 = false ↔ w.adaptor.isAcquiring = true) ∧
    (w.adaptor.isAcquiring = true → startCapture w = (false, w)) ∧
    (w.adaptor.isAcquiring = false →
      startCapture w =
        (true,
          { w with
            adaptor := { w.adaptor with _acquisitionActive := true }
            log := w.log ++ [Call.PostThreadMessage w.adaptor._acquireThreadID WM_USER] })) := by
  refine ⟨?_, ?_, ?_⟩
  · cases h : w.adaptor.isAcquiring <;> simp [startCapture, h]
  · intro h; simp [startCapture, h]
  · intro h; simp [startCapture, h, PostThreadMessage, setAcquisitionActive, World.call]

/-- C5, evaluated: refused on the acquiring sample world, accepted on the idle one. -/
theorem startCapture_spec_witness :
    startCapture acquiringWorld = (false, acquiringWorld) ∧
    (startCapture sampleWorld).1 = true ∧
    (startCapture sampleWorld).2.adaptor._acquisitionActive = true ∧
    (startCapture sampleWorld).2.log = [Call.PostThreadMessage 7 1024] := by
  refine ⟨(startCapture_spec acquiringWorld).2.1 (by decide), ?_⟩
  rw [(startCapture_spec sampleWorld).2.2 (by decide)]
  exact ⟨rfl, rfl, rfl⟩

/-! ## `stopCapture` on a device that is not open
-/

/-- C6: when the device is not open, `stopCapture` returns true and the world is unchanged:
`_acquisitionActive` keeps its value and no call is issued, so the grab section is not
entered. -/
theorem stopCapture_not_open (w : World) (h : w.adaptor.isOpen = false) :
    stopCapture w = (true, w) ∧
    (stopCapture w).2.adaptor._acquisitionActive = w.adaptor._acquisitionActive ∧
    callsSince w (stopCapture w).2 = [] := by
  have : stopCapture w = (true, w) := by simp [stopCapture, h]
  rw [this]
  simp [callsSince]

/-- C6, evaluated on the sample world before it is opened. -/
theorem stopCapture_not_open_witness :
    stopCapture closedWorld = (true, closedWorld) ∧
    (stopCapture closedWorld).2.adaptor._acquisitionActive =
      closedWorld.adaptor._acquisitionActive ∧
    callsSince closedWorld (stopCapture closedWorld).2 = [] :=
  stopCapture_not_open closedWorld (by decide)

/-! ## Opening twice
-/

/-- C7: opening twice in a row gives the same result and the same adaptor and camera state
as opening once (the Win32 answers being the same for both calls); on an already-open
device `openDevice` returns true and leaves the world unchanged, so no thread is created
and no message posted; and once an open has succeeded, every further open, whatever Win32
would answer, returns true and changes nothing. -/
theorem open_idempotent (env : SpawnEnv) (w : World) :
    (IAdaptor.open env (IAdaptor.open env w).2).1 = (IAdaptor.open env w).1 ∧
    (IAdaptor.open env (IAdaptor.open env w).2).2.adaptor = (IAdaptor.open env w).2.adaptor ∧
    (IAdaptor.open env (IAdaptor.open env w).2).2.camera = (IAdaptor.open env w).2.camera ∧
    (w.adaptor.isOpen = true → openDevice env w = (true, w)) ∧
    ((IAdaptor.open env w).1 = true →
      ∀ env2, IAdaptor.open env2 (IAdaptor.open env w).2 = (true, (IAdaptor.open env w).2) ∧
        openDevice env2 (IAdaptor.open env w).2 = (true, (IAdaptor.open env w).2)) := by
  have key : (IAdaptor.open env w).1 = true → (IAdaptor.open env w).2.adaptor.isOpen = true := by
    intro h
    simp only [IAdaptor.open] at h ⊢
    simp [h]
  have three : (IAdaptor.open env (IAdaptor.open env w).2).1 = (IAdaptor.open env w).1 ∧
      (IAdaptor.open env (IAdaptor.open env w).2).2.adaptor = (IAdaptor.open env w).2.adaptor ∧
      (IAdaptor.open env (IAdaptor.open env w).2).2.camera = (IAdaptor.open env w).2.camera := by
    cases hr : (IAdaptor.open env w).1
    · have ho : w.adaptor.isOpen = false := by
        cases ho : w.adaptor.isOpen
        · rfl
        · rw [IAdaptor_open_of_isOpen env w ho] at hr
          simp at hr
      cases hc : env.createThread with
      | none =>
        simp [IAdaptor.open, openDevice, ho, CreateThread, hc, closeDevice, World.call]
      | some p =>
        obtain ⟨h, id⟩ := p
        simp [IAdaptor.open, openDevice, ho, CreateThread, hc, World.call] at hr
    · rw [IAdaptor_open_of_isOpen env _ (key hr)]
      simp [hr]
  refine ⟨three.1, three.2.1, three.2.2, ?_, ?_⟩
  · intro h; simp [openDevice, h]
  · intro h env2
    exact ⟨IAdaptor_open_of_isOpen _ _ (key h), by simp [openDevice, key h]⟩

/-- C7, evaluated: the sample world is opened (thread created, third post accepted), and a
second open returns true without a further call. -/
theorem open_idempotent_witness :
    (IAdaptor.open sampleSpawn closedWorld).1 = true ∧
    (IAdaptor.open sampleSpawn closedWorld).2.log =
      [ Call.CreateThread, Call.PostThreadMessage 7 1025, Call.Sleep 1,
        Call.PostThreadMessage 7 1025, Call.Sleep 1, Call.PostThreadMessage 7 1025 ] ∧
    IAdaptor.open sampleSpawn (IAdaptor.open sampleSpawn closedWorld).2 =
      (true, (IAdaptor.open sampleSpawn closedWorld).2) ∧
    openDevice sampleSpawn sampleWorld = (true, sampleWorld) :=
  ⟨by decide, by decide,
    ((open_idempotent sampleSpawn closedWorld).2.2.2.2 (by decide) sampleSpawn).1,
    (open_idempotent sampleSpawn sampleWorld).2.2.2.1 (by decide)⟩

/-! ## Closing twice
-/

/-- C8: closing twice in a row gives the same result and the same world as closing once,
both for `closeDevice` itself and for the framework's `close()` around it; on a device
that is not open `closeDevice` returns true and leaves the world unchanged, so no `WM_QUIT`
is posted and no handle is closed. -/
theorem close_idempotent (w : World) :
    closeDevice (closeDevice w).2 = closeDevice w ∧
    IAdaptor.close (IAdaptor.close w).2 = IAdaptor.close w ∧
    (w.adaptor.isOpen = false → closeDevice w = (true, w)) := by
  refine ⟨?_, ?_, ?_⟩
  · cases ho : w.adaptor.isOpen
    · simp [closeDevice, ho]
    · cases ht : w.adaptor._acquireThread <;>
        simp [closeDevice, ho, ht, PostThreadMessage, World.call]
  · cases ho : w.adaptor.isOpen
    · simp [IAdaptor.close, closeDevice, ho]
    · cases ht : w.adaptor._acquireThread <;>
        simp [IAdaptor.close, closeDevice, ho, ht, PostThreadMessage, World.call]
  · intro h; simp [closeDevice, h]

/-- C8, evaluated: closing the open sample world posts `WM_QUIT`, waits and closes the
handle; closing the closed one does nothing. -/
theorem close_idempotent_witness :
    (closeDevice sampleWorld).2.log =
      [ Call.PostThreadMessage 7 18, Call.WaitForSingleObject 1 10000, Call.CloseHandle 1 ] ∧
    closeDevice (closeDevice sampleWorld).2 = closeDevice sampleWorld ∧
    closeDevice closedWorld = (true, closedWorld) :=
  ⟨by decide, (close_idempotent sampleWorld).1, (close_idempotent closedWorld).2.2 (by decide)⟩

/-! ## Stop and restart around an apply
-/

/-- C9: when `applyValue` runs while the device is acquiring, `stop()` is called before every
device write and commit and `restart()` after all of them, each exactly once; the acquiring
flag is false when the `switch` is entered and the adaptor object is the same when it is
left (with `_acquisitionActive` false as well when the device is open), and both flags are
true after `restart()`.  `applyValue` leaves the frame count and the frame budget as they
were.  When the device is not acquiring, neither `stop()` nor `restart()` is called. -/
theorem applyValue_stop_restart (K : PicamHeader) (self : PIXISPropSetListener) (w : World) :
    (w.adaptor.isAcquiring = true →
      ∃ mid,
        (callsSince w (self.applyValue K w)).filter Call.isDeviceOrStopRestart =
          Call.stop :: (mid ++ [Call.restart]) ∧
        (∀ c ∈ mid, c.isDevice = true ∧ c.isStopOrRestart = false) ∧
        mid = (callsSince w (self.applyValue K w)).filter Call.isDevice ∧
        (worldAtSwitch K self w).adaptor.isAcquiring = false ∧
        (w.adaptor.isOpen = true →
          (worldAtSwitch K self w).adaptor._acquisitionActive = false) ∧
        (worldAfterSwitch K self w).adaptor = (worldAtSwitch K self w).adaptor ∧
        (self.applyValue K w).adaptor.isAcquiring = true ∧
        (self.applyValue K w).adaptor._acquisitionActive = true) ∧
    (w.adaptor.isAcquiring = false →
      ∀ c ∈ callsSince w (self.applyValue K w), c.isStopOrRestart = false) ∧
    (self.applyValue K w).adaptor.frameCount = w.adaptor.frameCount ∧
    (self.applyValue K w).adaptor.totalFramesPerTrigger = w.adaptor.totalFramesPerTrigger := by
  obtain ⟨S, hS, hns⟩ := applySwitch_no_stop K self .ofAdaptor (applyKind K self w)
    (worldAtSwitch K self w)
  obtain ⟨A, R, hcalls, hA, hR, hAd, hRd⟩ := applyValue_frame K self w S hS
  obtain ⟨T, _, _, _, hadp⟩ := worldAtSwitch_log K self w
  have hSf : S.filter Call.isDeviceOrStopRestart = S.filter Call.isDevice := by
    apply List.filter_congr
    intro c hc
    simp [Call.isDeviceOrStopRestart, Call.isDevice, hns c hc]
  have hdev : (callsSince w (self.applyValue K w)).filter Call.isDevice =
      S.filter Call.isDevice := filter_device_applyValue K self w S hS
  refine ⟨?_, ?_, ?_, ?_⟩
  · intro ha
    refine ⟨S.filter Call.isDevice, ?_, ?_, hdev.symm, ?_, ?_, applySwitch_adaptor _ _ _ _ _, ?_, ?_⟩
    · rw [hcalls, List.filter_append, List.filter_append, hA, hR, hSf, ha]
      simp
    · intro c hc
      rw [List.mem_filter] at hc
      exact ⟨hc.2, hns c hc.1⟩
    · rw [hadp, ha]
      simp [stop_adaptor]
    · intro ho
      rw [hadp, ha]
      simp [stop_adaptor, ho]
    · rw [applyValue_adaptor, ha]
      rfl
    · rw [applyValue_adaptor, ha]
      rfl
  · intro ha c hc
    rw [hcalls] at hc
    have key : ∀ (xs : List Call), xs.filter Call.isDeviceOrStopRestart = [] →
        ∀ d ∈ xs, d.isStopOrRestart = false := by
      intro xs hx d hd
      rw [List.filter_eq_nil_iff] at hx
      have := hx d hd
      simp only [Call.isDeviceOrStopRestart, Bool.or_eq_true, not_or] at this
      simpa using this.2
    rw [ha] at hA hR
    rcases List.mem_append.mp hc with hc | hc
    · rcases List.mem_append.mp hc with hc | hc
      · exact key A (by simpa using hA) c hc
      · exact hns c hc
    · exact key R (by simpa using hR) c hc
  · rw [applyValue_adaptor]
    split <;> rfl
  · rw [applyValue_adaptor]
    split <;> rfl

/-- C9, evaluated: a ROI height set while the sample device is acquiring. -/
theorem applyValue_stop_restart_witness :
    (callsSince acquiringWorld
      ((sampleListener 67436582 50).applyValue sampleHeader acquiringWorld)).filter
        Call.isDeviceOrStopRestart =
      [ Call.stop,
        Call.Picam_SetParameterRoisValue .ofAdaptor 67436581
          { roi_array0 := { x := 0, width := 1340, x_binning := 1, y := 0, height := 50,
                            y_binning := 1 }
            roi_rest := [] },
        Call.Picam_CommitParameters .ofAdaptor 0,
        Call.restart ] ∧
    (worldAtSwitch sampleHeader (sampleListener 67436582 50) acquiringWorld).adaptor.isAcquiring
      = false ∧
    (worldAtSwitch sampleHeader (sampleListener 67436582 50)
      acquiringWorld).adaptor._acquisitionActive = false ∧
    ((sampleListener 67436582 50).applyValue sampleHeader acquiringWorld).adaptor.isAcquiring
      = true ∧
    ((sampleListener 67436582 50).applyValue sampleHeader
      acquiringWorld).adaptor._acquisitionActive = true := by
  obtain ⟨mid, h1, _, h3, h4, h5, _, h7, h8⟩ :=
    (applyValue_stop_restart sampleHeader (sampleListener 67436582 50) acquiringWorld).1
      (by decide)
  refine ⟨?_, h4, h5 (by decide), h7, h8⟩
  rw [h1, h3]
  decide

/-! ## One write, one commit
-/

/-- C10: for a parameter whose value kind is Integer, Boolean, LargeInteger,
FloatingPoint, ROI, or Enumeration outside the kinetics case, the device
writes and commits of one run of `applyValue` are exactly one write followed
by exactly one commit; the write is the floating-point write for
FloatingPoint, the ROI write for ROI and the integer write otherwise. -/
theorem applyValue_one_write_then_one_commit (K : PicamHeader) (self : PIXISPropSetListener)
    (w : World)
    (hkind : applyKind K self w = .Integer ∨ applyKind K self w = .Boolean ∨
      applyKind K self w = .LargeInteger ∨ applyKind K self w = .FloatingPoint ∨
      applyKind K self w = .Rois ∨
      (applyKind K self w = .Enumeration ∧ ¬ isKineticsUpdate K self)) :
    ∃ write n,
      (callsSince w (self.applyValue K w)).filter Call.isDevice =
        [write, Call.Picam_CommitParameters .ofAdaptor n] ∧
      ((callsSince w (self.applyValue K w)).filter Call.isWrite).length = 1 ∧
      ((callsSince w (self.applyValue K w)).filter Call.isCommit).length = 1 ∧
      (applyKind K self w = .FloatingPoint →
        write = Call.Picam_SetParameterFloatingPointValue .ofAdaptor
          self._propInfo.propertyIdentifier self._lastDoubleValue) ∧
      (applyKind K self w = .Rois →
        ∃ region, write = Call.Picam_SetParameterRoisValue .ofAdaptor K.PicamParameter_Rois
          region) ∧
      (applyKind K self w ≠ .FloatingPoint → applyKind K self w ≠ .Rois →
        write = Call.Picam_SetParameterIntegerValue .ofAdaptor
          self._propInfo.propertyIdentifier self._lastIntValue) := by
  have main : ∃ write n,
      (callsSince w (self.applyValue K w)).filter Call.isDevice =
        [write, Call.Picam_CommitParameters .ofAdaptor n] ∧ write.isWrite = true ∧
      (applyKind K self w = .FloatingPoint →
        write = Call.Picam_SetParameterFloatingPointValue .ofAdaptor
          self._propInfo.propertyIdentifier self._lastDoubleValue) ∧
      (applyKind K self w = .Rois →
        ∃ region, write = Call.Picam_SetParameterRoisValue .ofAdaptor K.PicamParameter_Rois
          region) ∧
      (applyKind K self w ≠ .FloatingPoint → applyKind K self w ≠ .Rois →
        write = Call.Picam_SetParameterIntegerValue .ofAdaptor
          self._propInfo.propertyIdentifier self._lastIntValue) := by
    by_cases hf : applyKind K self w = .FloatingPoint
    · obtain ⟨n, xs, hq, hlog⟩ := applySwitch_floatingPoint K self .ofAdaptor
        (worldAtSwitch K self w)
      have hS := worldAfterSwitch_log hf hlog
      refine ⟨_, n, ?_, ?_, fun _ => rfl, ?_, ?_⟩
      · rw [filter_device_applyValue K self w _ hS, List.filter_append, hq.filter_device]
        simp [Call.isDevice, Call.isWrite, Call.isCommit]
      · rfl
      · intro h; rw [hf] at h; cases h
      · intro h; exact absurd hf h
    by_cases hr : applyKind K self w = .Rois
    · obtain ⟨n, xs, hq, hlog⟩ := applySwitch_rois K self .ofAdaptor (worldAtSwitch K self w)
      have hS := worldAfterSwitch_log hr hlog
      refine ⟨Call.Picam_SetParameterRoisValue .ofAdaptor K.PicamParameter_Rois
        (assignRoiField (self._propInfo.propertyIdentifier - K.PicamParameter_Rois)
          self._lastIntValue (worldAtSwitch K self w).camera.device.roisValue),
        n, ?_, ?_, fun h => absurd h hf, fun _ => ⟨_, rfl⟩, ?_⟩
      · rw [filter_device_applyValue K self w _ hS, List.filter_append, hq.filter_device]
        simp [Call.isDevice, Call.isWrite, Call.isCommit]
      · rfl
      · intro _ h; exact absurd hr h
    · have ht : applyKind K self w = .Integer ∨ applyKind K self w = .Boolean ∨
          applyKind K self w = .LargeInteger ∨
          (applyKind K self w = .Enumeration ∧ ¬ isKineticsUpdate K self) := by
        rcases hkind with h | h | h | h | h | h
        · exact Or.inl h
        · exact Or.inr (Or.inl h)
        · exact Or.inr (Or.inr (Or.inl h))
        · exact absurd h hf
        · exact absurd h hr
        · exact Or.inr (Or.inr (Or.inr h))
      obtain ⟨n, xs, hq, hlog⟩ := applySwitch_integral K self .ofAdaptor _
        (worldAtSwitch K self w) ht
      refine ⟨_, n, ?_, ?_, fun h => absurd h hf, fun h => absurd h hr, fun _ _ => rfl⟩
      · rw [filter_device_applyValue K self w _ (worldAfterSwitch_log rfl hlog),
          List.filter_append, hq.filter_device]
        simp [Call.isDevice, Call.isWrite, Call.isCommit]
      · rfl
  obtain ⟨write, n, h1, hw, h2, h3, h4⟩ := main
  refine ⟨write, n, h1, ?_, ?_, h2, h3, h4⟩
  · rw [filter_write_of_device, h1]
    have hc : (Call.Picam_CommitParameters PicamHandle.ofAdaptor n).isWrite = false := rfl
    simp [List.filter_cons, hw, hc]
  · rw [filter_commit_of_device, h1]
    have hc : (Call.Picam_CommitParameters PicamHandle.ofAdaptor n).isCommit = true := rfl
    have : write.isCommit = false := by
      cases write <;> first | rfl | simp [Call.isWrite] at hw
    simp [List.filter_cons, this, hc]

/-- C10, evaluated: setting the integer parameter `PicamParameter_KineticsWindowHeight` on
the sample camera. -/
theorem applyValue_one_write_then_one_commit_witness :
    ∃ write n,
      (callsSince sampleWorld
        ((sampleListener 33620024 64).applyValue sampleHeader sampleWorld)).filter
          Call.isDevice = [write, Call.Picam_CommitParameters .ofAdaptor n] ∧
      ((callsSince sampleWorld
        ((sampleListener 33620024 64).applyValue sampleHeader sampleWorld)).filter
          Call.isWrite).length = 1 ∧
      ((callsSince sampleWorld
        ((sampleListener 33620024 64).applyValue sampleHeader sampleWorld)).filter
          Call.isCommit).length = 1 ∧
      write = Call.Picam_SetParameterIntegerValue .ofAdaptor 33620024 64 := by
  obtain ⟨write, n, h1, h2, h3, _, _, h6⟩ :=
    applyValue_one_write_then_one_commit sampleHeader (sampleListener 33620024 64) sampleWorld
      (Or.inl (by decide))
  exact ⟨write, n, h1, h2, h3, h6 (by decide) (by decide)⟩

/-! ## `getValue` on a kind without an accessor
-/

/-- C12, as amended: `getValue` never fails.  For a parameter of the pulse or the modulations
kind it leaves the caller's slot untouched and reads no value; only for a value kind that is
none of the eight enumerators does it store the sentinel 22. -/
theorem getValue_unsupported_kind (K : PicamHeader) (info : IPropInfo) (w : World) :
    (getKind K info w = .Pulse ∨ getKind K info w = .Modulations →
      (getValue K info w).1 = none ∧
      callsSince w (getValue K info w).2 =
        [ Call.PicamAdvanced_GetCameraModel .ofAdaptor,
          Call.PicamAdvanced_RefreshParametersFromCameraDevice .ofModel,
          Call.Picam_GetParameterValueType .ofModel info.propertyIdentifier (getKind K info w),
          Call.Picam_GetEnumerationString .Parameter info.propertyIdentifier ]) ∧
    (∀ raw, getKind K info w = .unlisted raw → (getValue K info w).1 = some (.asInt 22)) := by
  refine ⟨?_, ?_⟩
  · intro h
    have hr : isRoisIdentifier K info.propertyIdentifier = false := by
      cases hr : isRoisIdentifier K info.propertyIdentifier
      · rfl
      · simp [getKind, hr] at h
    have hk : getKind K info w = w.camera.valueType info.propertyIdentifier := by
      simp [getKind, hr]
    refine ⟨?_, ?_⟩
    · rw [getValue_fst]
      rcases h with h | h <;> rw [h]
    · rw [callsSince_of_log (getValue_log K info w)]
      rw [hk] at h ⊢
      rcases h with h | h <;> simp [getValueTail, hr, h]
  · intro raw h
    rw [getValue_fst, h]

/-- C12, evaluated on a pulse parameter and on an identifier of unlisted kind of the sample
camera. -/
theorem getValue_unsupported_kind_witness :
    (getValue sampleHeader samplePulseInfo sampleWorld).1 = none ∧
    (getValue sampleHeader { propertyIdentifier := 9, propertyStorageType := .INT }
      sampleWorld).1 = some (.asInt 22) :=
  ⟨((getValue_unsupported_kind sampleHeader samplePulseInfo sampleWorld).1
      (Or.inl (by decide))).1,
    (getValue_unsupported_kind sampleHeader
      { propertyIdentifier := 9, propertyStorageType := .INT } sampleWorld).2 0 (by decide)⟩

/-- C12 as stated fails: for a parameter of the pulse kind on the sample camera `getValue`
stores nothing, so the slot does not receive 22. -/
theorem getValue_pulse_counterexample :
    getKind sampleHeader samplePulseInfo sampleWorld = .Pulse ∧
    (getValue sampleHeader samplePulseInfo sampleWorld).1 ≠ some (.asInt 22) := by
  decide

/-! ## `getValue` refreshes before it reads
-/

/-- C13: one run of `getValue` asks for the camera model, refreshes it from the device, and
only then reads; the refresh is issued exactly once, no read of a parameter's value or value
type precedes it, every such read goes to the refreshed model handle, and the model that is
read holds the device's values. -/
theorem getValue_refresh_first (K : PicamHeader) (info : IPropInfo) (w : World) :
    ∃ rest,
      callsSince w (getValue K info w).2 =
        Call.PicamAdvanced_GetCameraModel .ofAdaptor ::
          Call.PicamAdvanced_RefreshParametersFromCameraDevice .ofModel :: rest ∧
      ((callsSince w (getValue K info w).2).filter Call.isRefresh).length = 1 ∧
      (∀ c ∈ rest, c.isRefresh = false) ∧
      (∀ c ∈ rest, ∀ cam, c.readHandle = some cam → cam = .ofModel) ∧
      (getValue K info w).2.camera.model = w.camera.device := by
  have hspec := getValueTail_spec K info w
  refine ⟨getValueTail K info w, callsSince_of_log (getValue_log K info w), ?_, hspec.1,
    hspec.2, ?_⟩
  · rw [callsSince_of_log (getValue_log K info w)]
    have : (getValueTail K info w).filter Call.isRefresh = [] := by
      rw [List.filter_eq_nil_iff]
      intro c hc
      simp [hspec.1 c hc]
    simp [List.filter_cons, Call.isRefresh, this]
  · rw [getValue_camera]

/-! ## A timed-out acquire
-/

/-- C15: in a pass of the worker loop whose acquire call times out, no frame is made or
handed to the framework, the adaptor object (frame count and `_acquisitionActive` included)
and the camera are left as they were, the only calls are entering the guard, the acquire and
leaving the guard, and the loop goes on with its next condition check, which holds again. -/
theorem timed_out_pass (env : WorkerEnv) (fuel i : Nat) (w : World)
    (hcond : (isAcquisitionNotComplete w && isAcquisitionActive w) = true)
    (htimeout : env.acquireTimesOut i = true) :
    ∃ w2, acquirePass env i w = some w2 ∧
      callsSince w w2 =
        [ Call.enter .acquisitionActiveGuard, Call.Picam_Acquire 1 3000 true,
          Call.leave .acquisitionActiveGuard ] ∧
      framesDelivered (callsSince w w2) = 0 ∧
      w2.adaptor = w.adaptor ∧
      w2.camera = w.camera ∧
      acquireLoop env (fuel + 1) i w = acquireLoop env fuel (i + 1) w2 ∧
      (isAcquisitionNotComplete w2 && isAcquisitionActive w2) = true := by
  have hlt : ¬ (w.adaptor.totalFramesPerTrigger ≤ w.adaptor.frameCount) := by
    simp [isAcquisitionNotComplete] at hcond
    omega
  have hpass : acquirePass env i w =
      some { w with log := w.log ++ [ Call.enter .acquisitionActiveGuard,
        Call.Picam_Acquire 1 3000 true, Call.leave .acquisitionActiveGuard ] } := by
    rw [acquirePass_timed_out env i w htimeout]
    simp [hlt]
  refine ⟨_, hpass, ?_, ?_, rfl, rfl, ?_, hcond⟩
  · simp [callsSince]
  · simp [callsSince, framesDelivered]
  · rw [acquireLoop, if_pos hcond, hpass]

/-- C15, evaluated: a first pass that times out on the started sample world. -/
theorem timed_out_pass_witness :
    (acquirePass { acquireTimesOut := fun _ => true, isSendFrame := fun _ => true } 0
        (startedWorld 3)).map (fun w2 => callsSince (startedWorld 3) w2) =
      some [ Call.enter .acquisitionActiveGuard, Call.Picam_Acquire 1 3000 true,
        Call.leave .acquisitionActiveGuard ] ∧
    (acquirePass { acquireTimesOut := fun _ => true, isSendFrame := fun _ => true } 0
      (startedWorld 3)).map (fun w2 => w2.adaptor.frameCount) = some 0 := by
  obtain ⟨w2, hpass, hcalls, _, hadp, _⟩ :=
    timed_out_pass { acquireTimesOut := fun _ => true, isSendFrame := fun _ => true } 0 0
      (startedWorld 3) (by decide) rfl
  rw [hpass]
  exact ⟨by rw [Option.map_some', hcalls], by rw [Option.map_some', hadp]; rfl⟩

/-! ## `openDevice` when the thread cannot be created
-/

/-- C16: on a device that is not open, `openDevice` returns false exactly when `CreateThread`
returns `NULL`; it then returns what `closeDevice` leaves of the world, in which
`_acquireThread` is `NULL` and no message has been posted.  When the thread is created it
returns true, and on a device that is already open it returns true as well. -/
theorem openDevice_fails_iff_no_thread (env : SpawnEnv) (w : World) :
    (w.adaptor.isOpen = false →
      ((openDevice env w).1 = false ↔ env.createThread = none) ∧
      (env.createThread = none →
        openDevice env w = (false, (closeDevice (CreateThread env w)).2) ∧
        (openDevice env w).2.adaptor._acquireThread = none ∧
        callsSince w (openDevice env w).2 = [Call.CreateThread]) ∧
      (env.createThread ≠ none → (openDevice env w).1 = true)) ∧
    (w.adaptor.isOpen = true → (openDevice env w).1 = true) := by
  refine ⟨?_, ?_⟩
  · intro ho
    cases hc : env.createThread with
    | none =>
      simp [openDevice, ho, CreateThread, hc, closeDevice, World.call, callsSince]
    | some p =>
      obtain ⟨h, id⟩ := p
      simp [openDevice, ho, CreateThread, hc, World.call]
  · intro ho
    simp [openDevice, ho]

/-- C16, evaluated: the closed sample world with a failing and with a successful
`CreateThread`. -/
theorem openDevice_fails_iff_no_thread_witness :
    openDevice { createThread := none, postFailures := 0 } closedWorld =
      (false, (closeDevice
        (CreateThread { createThread := none, postFailures := 0 } closedWorld)).2) ∧
    (openDevice { createThread := none, postFailures := 0 }
      closedWorld).2.adaptor._acquireThread = none ∧
    (openDevice sampleSpawn closedWorld).1 = true :=
  ⟨(((openDevice_fails_iff_no_thread { createThread := none, postFailures := 0 }
      closedWorld).1 (by decide)).2.1 rfl).1,
    (((openDevice_fails_iff_no_thread { createThread := none, postFailures := 0 }
      closedWorld).1 (by decide)).2.1 rfl).2.1,
    ((openDevice_fails_iff_no_thread sampleSpawn closedWorld).1 (by decide)).2.2 (by decide)⟩

/-! ## The ROI identifier itself
-/

/-- C11: for an identifier that the set path takes for a ROI identifier although its offset
from `PicamParameter_Rois` is not in 1..6 (that is the identifier `PicamParameter_Rois`
itself, offset 0), `applyValue` assigns no field: the ROI it writes is the one it has just
read from the device, and the device ROI after the run is the device ROI before it, whether
or not the commit is accepted. -/
theorem roi_base_identifier_is_noop (K : PicamHeader) (self : PIXISPropSetListener) (w : World)
    (hroi : isRoisIdentifier K self._propInfo.propertyIdentifier = true)
    (hout : ¬ (1 ≤ self._propInfo.propertyIdentifier - K.PicamParameter_Rois ∧
      self._propInfo.propertyIdentifier - K.PicamParameter_Rois ≤ 6)) :
    self._propInfo.propertyIdentifier = K.PicamParameter_Rois ∧
    (self.applyValue K w).camera.device.roisValue = w.camera.device.roisValue ∧
    (self.applyValue K w).camera.model.roisValue = w.camera.device.roisValue ∧
    (callsSince w (self.applyValue K w)).filter Call.isWrite =
      [ Call.Picam_SetParameterRoisValue .ofAdaptor K.PicamParameter_Rois
          w.camera.device.roisValue ] := by
  have hkind : applyKind K self w = .Rois := by simp [applyKind, hroi]
  have hassign := assignRoiField_outside
    (self._propInfo.propertyIdentifier - K.PicamParameter_Rois) self._lastIntValue
    w.camera.device.roisValue hout
  have hcam := applySwitch_rois_camera K self .ofAdaptor (worldAtSwitch K self w)
  rw [worldAtSwitch_camera, hassign] at hcam
  refine ⟨?_, ?_, ?_, ?_⟩
  · simp only [isRoisIdentifier, Bool.or_eq_true, beq_iff_eq] at hroi
    omega
  · rw [applyValue_camera]
    unfold worldAfterSwitch
    rw [hkind]
    rcases hcam.2 with h | h <;> exact h
  · rw [applyValue_camera]
    unfold worldAfterSwitch
    rw [hkind]
    exact hcam.1
  · have := (applyValue_rois_calls K self w hkind).2
    rw [hassign] at this
    exact this

/-- C11, evaluated: a set on the identifier `PicamParameter_Rois` of the sample camera. -/
theorem roi_base_identifier_is_noop_witness :
    ((sampleListener 67436581 50).applyValue sampleHeader sampleWorld).camera.device.roisValue
      = sampleWorld.camera.device.roisValue ∧
    (callsSince sampleWorld
      ((sampleListener 67436581 50).applyValue sampleHeader sampleWorld)).filter Call.isWrite =
      [ Call.Picam_SetParameterRoisValue .ofAdaptor 67436581
          sampleWorld.camera.device.roisValue ] :=
  ⟨(roi_base_identifier_is_noop sampleHeader (sampleListener 67436581 50) sampleWorld
      (by decide) (by decide)).2.1,
    (roi_base_identifier_is_noop sampleHeader (sampleListener 67436581 50) sampleWorld
      (by decide) (by decide)).2.2.2⟩

/-! ## One meaning for each ROI sub-identifier
-/

/-- C18: for every `k` in 1..6 the identifier `PicamParameter_Rois + k` stands for the same
field in all three places.  `getDeviceAttributes` declares ROIHeight, ROIWidth, ROIXOffset,
ROIYOffset, ROIXBinning, ROIYBinning with the identifiers base+1..base+6, in that order, and
with the values of (height, width, x, y, x_binning, y_binning); `getValue` for base+k stores
the k-th of these fields of the device ROI; and the one write of `applyValue` for base+k is
the device ROI with the k-th of these fields replaced. -/
theorem roi_identifier_layout (K : PicamHeader) (region : PicamRois)
    (self : PIXISPropSetListener) (info : IPropInfo) (w : World) (k : Int)
    (h1 : 1 ≤ k) (h6 : k ≤ 6)
    (hself : self._propInfo.propertyIdentifier = K.PicamParameter_Rois + k)
    (hinfo : info.propertyIdentifier = K.PicamParameter_Rois + k) :
    (declareRoisProperties K.PicamParameter_Rois region).map
        (fun p => (p.name, p.identifier - K.PicamParameter_Rois)) =
      [ ("ROIHeight", 1), ("ROIWidth", 2), ("ROIXOffset", 3), ("ROIYOffset", 4),
        ("ROIXBinning", 5), ("ROIYBinning", 6) ] ∧
    (declareRoisProperties K.PicamParameter_Rois region).map (fun p => p.value) =
      roiFields region.roi_array0 ∧
    (getValue K info w).1 =
      ((roiFields w.camera.device.roisValue.roi_array0)[(k - 1).toNat]?).map SlotValue.asInt ∧
    ∃ written,
      (callsSince w (self.applyValue K w)).filter Call.isWrite =
        [ Call.Picam_SetParameterRoisValue .ofAdaptor K.PicamParameter_Rois written ] ∧
      roiFields written.roi_array0 =
        (roiFields w.camera.device.roisValue.roi_array0).set (k - 1).toNat
          self._lastIntValue := by
  have hr : isRoisIdentifier K (K.PicamParameter_Rois + k) = true :=
    isRoisIdentifier_add K k h1 h6
  have hkind : applyKind K self w = .Rois := by simp [applyKind, hself, hr]
  have hk : K.PicamParameter_Rois + k - K.PicamParameter_Rois = k := by omega
  refine ⟨?_, ?_, ?_, ?_⟩
  · simp [declareRoisProperties]
  · simp [declareRoisProperties, roiFields]
  · rw [getValue_rois K info w (by rw [hinfo]; exact hr), hinfo, hk]
    exact readRoiField_roiFields k _ h1 h6
  · refine ⟨_, (applyValue_rois_calls K self w hkind).2, ?_⟩
    rw [hself, hk]
    exact (roiFields_assignRoiField k _ _ h1 h6).1

/-- C18, evaluated for `k = 5` (x binning) on the sample camera. -/
theorem roi_identifier_layout_witness :
    (declareRoisProperties 67436581 sampleParameters.roisValue).map
        (fun p => (p.name, p.identifier - 67436581)) =
      [ ("ROIHeight", 1), ("ROIWidth", 2), ("ROIXOffset", 3), ("ROIYOffset", 4),
        ("ROIXBinning", 5), ("ROIYBinning", 6) ] ∧
    (getValue sampleHeader { propertyIdentifier := 67436586, propertyStorageType := .INT }
      sampleWorld).1 = some (.asInt 1) := by
  have h := roi_identifier_layout sampleHeader sampleParameters.roisValue
    (sampleListener 67436586 2) { propertyIdentifier := 67436586, propertyStorageType := .INT }
    sampleWorld 5 (by decide) (by decide) (by decide) (by decide)
  exact ⟨h.1, by rw [h.2.2.1]; decide⟩

/-! ## A ROI sub-field set touches one field
-/

/-- C19: for every `k` in 1..6 and every `v`, the ROI that `applyValue` for
`PicamParameter_Rois + k` writes is built from the ROI `r` that the same call has read after
refreshing from the device, whatever the pending model held before: the k-th of (height,
width, x, y, x_binning, y_binning) is `v`, the other five fields and the further regions are
those of `r`; and when the commit is accepted this is the device ROI afterwards. -/
theorem roi_field_write_frame (K : PicamHeader) (self : PIXISPropSetListener) (w : World)
    (k v : Int) (h1 : 1 ≤ k) (h6 : k ≤ 6)
    (hself : self._propInfo.propertyIdentifier = K.PicamParameter_Rois + k)
    (hv : self._lastIntValue = v) :
    ∃ written,
      Call.Picam_GetParameterRoisValue .ofAdaptor K.PicamParameter_Rois
        w.camera.device.roisValue ∈ callsSince w (self.applyValue K w) ∧
      (callsSince w (self.applyValue K w)).filter Call.isWrite =
        [ Call.Picam_SetParameterRoisValue .ofAdaptor K.PicamParameter_Rois written ] ∧
      (roiFields written.roi_array0)[(k - 1).toNat]? = some v ∧
      (∀ j, j ≠ (k - 1).toNat →
        (roiFields written.roi_array0)[j]? =
          (roiFields w.camera.device.roisValue.roi_array0)[j]?) ∧
      written.roi_rest = w.camera.device.roisValue.roi_rest ∧
      ((∀ c ∈ callsSince w (self.applyValue K w),
          c.isCommit = true → c = Call.Picam_CommitParameters .ofAdaptor 0) →
        (self.applyValue K w).camera.device.roisValue = written) := by
  have hr : isRoisIdentifier K (K.PicamParameter_Rois + k) = true :=
    isRoisIdentifier_add K k h1 h6
  have hkind : applyKind K self w = .Rois := by simp [applyKind, hself, hr]
  have hk : self._propInfo.propertyIdentifier - K.PicamParameter_Rois = k := by omega
  have hcalls := applyValue_rois_calls K self w hkind
  have hfields := roiFields_assignRoiField k v w.camera.device.roisValue h1 h6
  have hlen : (k - 1).toNat < (roiFields w.camera.device.roisValue.roi_array0).length := by
    simp [roiFields]
    omega
  refine ⟨assignRoiField k v w.camera.device.roisValue, hcalls.1, ?_, ?_, ?_, hfields.2, ?_⟩
  · rw [hcalls.2, hk, hv]
  · rw [hfields.1, List.getElem?_set_self hlen]
  · intro j hj
    rw [hfields.1, List.getElem?_set_ne (Ne.symm hj)]
  · intro hcommit
    rw [applyValue_rois_device K self w hkind hcommit, hk, hv]

/-- C19, evaluated: the ROI width (`k = 2`) of the sample camera set to 670. -/
theorem roi_field_write_frame_witness :
    ∃ written,
      (callsSince sampleWorld
        ((sampleListener 67436583 670).applyValue sampleHeader sampleWorld)).filter
          Call.isWrite =
        [ Call.Picam_SetParameterRoisValue .ofAdaptor 67436581 written ] ∧
      (roiFields written.roi_array0)[1]? = some 670 ∧
      (roiFields written.roi_array0)[0]? = some 100 := by
  obtain ⟨written, _, h2, h3, h4, _, _⟩ :=
    roi_field_write_frame sampleHeader (sampleListener 67436583 670) sampleWorld 2 670
      (by decide) (by decide) (by decide) rfl
  refine ⟨written, h2, h3, ?_⟩
  rw [h4 0 (by decide)]
  decide

/-! ## A commit that reports failed parameters
-/

/-- C17, as the code has it: the only critical-section events of an
`applyValue` run are the entry and exit of the grab section inside `stop()`, so
the run never enters the acquisition-active guard; a pass of the worker's loop
that gets past its frame size (the acquire timed out, the frame is not sent,
or `getMaxWidth()` and `getMaxHeight()` have a value) enters the
acquisition-active guard, issues `Picam_Acquire` and leaves the guard as its
last call, with no critical-section event in between; any other pass has no
result. -/
theorem applyValue_guard_events (K : PicamHeader) (self : PIXISPropSetListener) (w : World)
    (env : WorkerEnv) (i : Nat) (w2 : World) :
    (∀ c ∈ applyCalls K self w,
      c.isGuard = true → c = Call.enter .grabSection ∨ c = Call.leave .grabSection) ∧
    (∀ c ∈ applyCalls K self w,
      c ≠ Call.enter .acquisitionActiveGuard ∧ c ≠ Call.leave .acquisitionActiveGuard) ∧
    (passCompletes env i w2 = true →
      ∃ w3 mid, acquirePass env i w2 = some w3 ∧
        callsSince w2 w3 =
          Call.enter .acquisitionActiveGuard ::
            Call.Picam_Acquire 1 3000 (env.acquireTimesOut i) ::
              (mid ++ [Call.leave .acquisitionActiveGuard]) ∧
        ∀ c ∈ mid, c.isGuard = false) ∧
    (passCompletes env i w2 = false → (acquirePass env i w2).isSome = false) := by
  refine ⟨applyCalls_guard K self w, ?_, acquirePass_calls env i w2, ?_⟩
  · intro c hc
    constructor
    · rintro rfl
      rcases applyCalls_guard K self w _ hc rfl with h | h <;> cases h
    · rintro rfl
      rcases applyCalls_guard K self w _ hc rfl with h | h <;> cases h
  · intro h
    rw [acquirePass_isSome, h]

/-- C17, evaluated: a ROI height set while the sample device is acquiring enters
and leaves the grab section and no other critical section, and the first pass
of the worker on the started sample world. -/
theorem applyValue_guard_events_witness :
    (∀ c ∈ applyCalls sampleHeader (sampleListener 67436582 50) acquiringWorld,
      c.isGuard = true → c = Call.enter .grabSection ∨ c = Call.leave .grabSection) ∧
    (applyCalls sampleHeader (sampleListener 67436582 50) acquiringWorld).filter Call.isGuard =
      [Call.enter .grabSection, Call.leave .grabSection] ∧
    passCompletes sampleEnv 0 (startedWorld 1) = true ∧
    (∃ w3 mid, acquirePass sampleEnv 0 (startedWorld 1) = some w3 ∧
      callsSince (startedWorld 1) w3 =
        Call.enter .acquisitionActiveGuard ::
          Call.Picam_Acquire 1 3000 (sampleEnv.acquireTimesOut 0) ::
            (mid ++ [Call.leave .acquisitionActiveGuard]) ∧
      ∀ c ∈ mid, c.isGuard = false) ∧
    (acquirePass sampleEnv 0 (startedWorld 1)).map (fun w3 => callsSince (startedWorld 1) w3) =
      some [ Call.enter .acquisitionActiveGuard, Call.Picam_Acquire 1 3000 false,
        Call.makeFrame 1340 200, Call.setImage 1340 200 0 0, Call.setTime, Call.receiveFrame,
        Call.leave .acquisitionActiveGuard ] :=
  ⟨(applyValue_guard_events sampleHeader (sampleListener 67436582 50) acquiringWorld sampleEnv 0
      (startedWorld 1)).1, by decide, by decide,
    (applyValue_guard_events sampleHeader (sampleListener 67436582 50) acquiringWorld sampleEnv 0
      (startedWorld 1)).2.2.1 (by decide), by decide⟩

/-- C17 fails as stated: on the started sample device the worker takes the
'begin' message and enters the acquisition-active guard for its first pass, a
caller then runs a whole `applyValue` for the ROI height, and the worker goes
on with `Picam_Acquire`.  The schedule respects both critical sections, and
the caller's ROI write and commit are issued while the worker is inside the
acquisition-active guard. -/
theorem apply_inside_acquisition_guard_counterexample :
    (isAcquisitionNotComplete ((startedWorld 1).call (.enter .acquisitionActiveGuard)) &&
      isAcquisitionActive ((startedWorld 1).call (.enter .acquisitionActiveGuard))) = true ∧
    raceAfterPass.map (fun w => isAcquisitionNotComplete w && isAcquisitionActive w) =
      some false ∧
    callsOf .caller raceSchedule =
      applyCalls sampleHeader (sampleListener 67436582 50) raceAtAcquire ∧
    raceSchedule =
      [ (.worker, Call.enter .acquisitionActiveGuard),
        (.worker, Call.enter .acquisitionActiveGuard),
        (.caller, Call.stop),
        (.caller, Call.enter .grabSection),
        (.caller, Call.leave .grabSection),
        (.caller, Call.PicamAdvanced_GetCameraModel .ofAdaptor),
        (.caller, Call.PicamAdvanced_RefreshParametersFromCameraDevice .ofModel),
        (.caller, Call.Picam_GetParameterRoisValue .ofAdaptor 67436581
          { roi_array0 := { x := 0, width := 1340, x_binning := 1, y := 0, height := 100,
                            y_binning := 1 }
            roi_rest := [] }),
        (.caller, Call.Picam_SetParameterRoisValue .ofAdaptor 67436581
          { roi_array0 := { x := 0, width := 1340, x_binning := 1, y := 0, height := 50,
                            y_binning := 1 }
            roi_rest := [] }),
        (.caller, Call.Picam_DestroyRois),
        (.caller, Call.Picam_CommitParameters .ofAdaptor 0),
        (.caller, Call.restart),
        (.caller, Call.PostThreadMessage 7 1024),
        (.caller, Call.Picam_DestroyParameters),
        (.worker, Call.Picam_Acquire 1 3000 false),
        (.worker, Call.makeFrame 1340 200),
        (.worker, Call.setImage 1340 200 0 0),
        (.worker, Call.setTime),
        (.worker, Call.receiveFrame),
        (.worker, Call.leave .acquisitionActiveGuard),
        (.worker, Call.leave .acquisitionActiveGuard) ] ∧
    respectsGuards raceSchedule = true ∧
    deviceCallInsideAcquisitionGuard raceSchedule = true := by
  refine ⟨by decide, by decide, by decide, by decide, by decide, by decide⟩

/-! ## How often notify applies the value
-/

/-- C20: with a null new value `notify` returns the listener and the world as
they were, and no `applyValue` run is among the calls; with a non-null new
value it records the property information and then runs `applyValue` twice in
a row when the device is open and once when it is not. -/
theorem notify_applyValue_runs (K : PicamHeader) (self : PIXISPropSetListener)
    (propertyInfo : IPropInfo) (v : NewValue) (w : World) :
    self.notify K propertyInfo none w = (self, w) ∧
    applyRuns (callsSince w (self.notify K propertyInfo none w).2) = 0 ∧
    (self.notify K propertyInfo (some v) w).1._propInfo = propertyInfo ∧
    (self.notify K propertyInfo (some v) w).2 =
      (if w.adaptor.isOpen then
        (self.notify K propertyInfo (some v) w).1.applyValue K
          ((self.notify K propertyInfo (some v) w).1.applyValue K w)
      else (self.notify K propertyInfo (some v) w).1.applyValue K w) ∧
    applyRuns (callsSince w (self.notify K propertyInfo (some v) w).2) =
      (if w.adaptor.isOpen then 2 else 1) := by
  refine ⟨rfl, by simp [PIXISPropSetListener.notify, callsSince, applyRuns], ?_, ?_, ?_⟩
  · simp only [PIXISPropSetListener.notify]
    cases propertyInfo.propertyStorageType <;> rfl
  · simp only [PIXISPropSetListener.notify]
    cases w.adaptor.isOpen <;> rfl
  · simp only [PIXISPropSetListener.notify]
    cases ho : w.adaptor.isOpen
    · simp only [Bool.false_eq_true, if_false]
      rw [callsSince_of_log (applyValue_log K _ w)]
      exact applyRuns_applyCalls K _ w
    · simp only [if_true]
      rw [callsSince_of_log (by rw [applyValue_log, applyValue_log, List.append_assoc])]
      simp only [applyRuns, List.count_append]
      have h1 := applyRuns_applyCalls K
        (match propertyInfo.propertyStorageType with
          | .DOUBLE => { ({ self with _propInfo := propertyInfo } : PIXISPropSetListener) with
              _lastDoubleValue := v.asDouble }
          | .INT => { ({ self with _propInfo := propertyInfo } : PIXISPropSetListener) with
              _lastIntValue := v.asInt }
          | .STRING => { ({ self with _propInfo := propertyInfo } : PIXISPropSetListener) with
              _lastStrValue := v.asString }
          | .other => { self with _propInfo := propertyInfo })
      simp only [applyRuns] at h1
      rw [h1 w, h1]

/-- C20, evaluated: a notification of ROI height 50 on the open and on the
closed sample world, and a null notification. -/
theorem notify_applyValue_runs_witness :
    applyRuns (callsSince sampleWorld
      ((sampleListener 67436582 0).notify sampleHeader
        { propertyIdentifier := 67436582, propertyStorageType := .INT }
        (some { asDouble := 0, asInt := 50, asString := "" }) sampleWorld).2) = 2 ∧
    applyRuns (callsSince closedWorld
      ((sampleListener 67436582 0).notify sampleHeader
        { propertyIdentifier := 67436582, propertyStorageType := .INT }
        (some { asDouble := 0, asInt := 50, asString := "" }) closedWorld).2) = 1 ∧
    ((sampleListener 67436582 0).notify sampleHeader
        { propertyIdentifier := 67436582, propertyStorageType := .INT }
        (some { asDouble := 0, asInt := 50, asString := "" }) sampleWorld).1 =
      sampleListener 67436582 50 ∧
    (sampleListener 67436582 0).notify sampleHeader
        { propertyIdentifier := 67436582, propertyStorageType := .INT } none sampleWorld =
      (sampleListener 67436582 0, sampleWorld) :=
  ⟨(notify_applyValue_runs sampleHeader (sampleListener 67436582 0)
      { propertyIdentifier := 67436582, propertyStorageType := .INT }
      { asDouble := 0, asInt := 50, asString := "" } sampleWorld).2.2.2.2,
    (notify_applyValue_runs sampleHeader (sampleListener 67436582 0)
      { propertyIdentifier := 67436582, propertyStorageType := .INT }
      { asDouble := 0, asInt := 50, asString := "" } closedWorld).2.2.2.2,
    by decide,
    (notify_applyValue_runs sampleHeader (sampleListener 67436582 0)
      { propertyIdentifier := 67436582, propertyStorageType := .INT }
      { asDouble := 0, asInt := 50, asString := "" } sampleWorld).1⟩

/-! ## A notification on a device that is not open
-/

/-- C21, the code at a failing input: a notification of ROI height 50 for a
sample device that is not open runs `applyValue` once, through the call that
follows the `if (_parent->isOpen())`, and so issues the ROI write and the
commit. -/
theorem notify_not_open_writes :
    closedWorld.adaptor.isOpen = false ∧
    (callsSince closedWorld
      ((sampleListener 67436582 0).notify sampleHeader
        { propertyIdentifier := 67436582, propertyStorageType := .INT }
        (some { asDouble := 0, asInt := 50, asString := "" }) closedWorld).2).filter
        Call.isDevice =
      [ Call.Picam_SetParameterRoisValue .ofAdaptor 67436581
          { roi_array0 := { x := 0, width := 1340, x_binning := 1, y := 0, height := 50,
                            y_binning := 1 }
            roi_rest := [] },
        Call.Picam_CommitParameters .ofAdaptor 0 ] ∧
    ((sampleListener 67436582 0).notify sampleHeader
        { propertyIdentifier := 67436582, propertyStorageType := .INT }
        (some { asDouble := 0, asInt := 50, asString := "" })
        closedWorld).2.camera.device.roisValue.roi_array0.height = 50 := by
  refine ⟨by decide, by decide, by decide⟩

/-! ## Large integers in a 32-bit slot
-/

/-- C22: for a parameter of the large-integer kind whose device value is `x`,
`getValue` stores the signed 32-bit integer congruent to `x` modulo `2^32`:
the stored value lies in `[-2^31, 2^31)`, differs from `x` by a multiple of
`2^32`, is the only such integer, and equals `x` exactly when `x` itself lies
in `[-2^31, 2^31)`.  A value is stored in every case. -/
theorem getValue_largeInteger_truncates (K : PicamHeader) (info : IPropInfo) (w : World)
    (x : Int) (hkind : getKind K info w = .LargeInteger)
    (hx : w.camera.device.largeIntegerValue info.propertyIdentifier = x) :
    (getValue K info w).1 = some (.asInt (toInt32 x)) ∧
    -2147483648 ≤ toInt32 x ∧ toInt32 x ≤ 2147483647 ∧
    (toInt32 x - x) % 4294967296 = 0 ∧
    (∀ y : Int, -2147483648 ≤ y → y ≤ 2147483647 → (y - x) % 4294967296 = 0 →
      y = toInt32 x) ∧
    (toInt32 x = x ↔ -2147483648 ≤ x ∧ x ≤ 2147483647) := by
  refine ⟨?_, (toInt32_range x).1, (toInt32_range x).2, toInt32_congr x,
    fun y h1 h2 h3 => toInt32_unique x y h1 h2 h3, toInt32_eq_iff x⟩
  rw [getValue_fst, hkind, hx]

/-- C22, evaluated: the sample device holds 5000000000 for a large-integer
parameter, and `getValue` stores 5000000000 - 2^32 = 705032704. -/
theorem getValue_largeInteger_truncates_witness :
    getKind sampleHeader sampleLargeInfo sampleWorld = .LargeInteger ∧
    sampleWorld.camera.device.largeIntegerValue 393217 = 5000000000 ∧
    (getValue sampleHeader sampleLargeInfo sampleWorld).1 = some (.asInt 705032704) :=
  ⟨by decide, by decide,
    (getValue_largeInteger_truncates sampleHeader sampleLargeInfo sampleWorld 5000000000
      (by decide) (by decide)).1⟩

/-! ## The frame height
-/

/-- C23, as amended: with ROIHeight `h`, Frames_per_Readout `f` and
ROIYBinning `b`, where `h * f` is a signed 32-bit value, `b ≠ 0` and not both
`h * f = -2^31` and `b = -1`, `getMaxHeight` returns the product divided by
`b`, truncated toward zero, which is a signed 32-bit value; when `getMaxWidth`
has a value too, this is the height of the frame made by a pass of the worker
that sends its frame.  With `b = 0`, and with `h * f = -2^31` and `b = -1`, the
division has no value, and a pass that sends its frame has no result. -/
theorem getMaxHeight_spec (w : World) (h f b : Int)
    (hh : w.adaptor.propContainer.ROIHeight = h)
    (hf : w.adaptor.propContainer.Frames_per_Readout = f)
    (hb : w.adaptor.propContainer.ROIYBinning = b)
    (hlo : -2147483648 ≤ h * f) (hhi : h * f ≤ 2147483647) :
    (b ≠ 0 → ¬ (h * f = -2147483648 ∧ b = -1) →
      getMaxHeight w = some (Int.tdiv (h * f) b) ∧
      -2147483648 ≤ Int.tdiv (h * f) b ∧ Int.tdiv (h * f) b ≤ 2147483647 ∧
      ∀ (env : WorkerEnv) (i : Nat) (a : Int),
        env.acquireTimesOut i = false → env.isSendFrame i = true →
        getMaxWidth w = some a →
        ∃ w2, acquirePass env i w = some w2 ∧
          Call.makeFrame a (Int.tdiv (h * f) b) ∈ callsSince w w2) ∧
    (b = 0 → getMaxHeight w = none) ∧
    (h * f = -2147483648 ∧ b = -1 → getMaxHeight w = none) ∧
    (getMaxHeight w = none →
      ∀ (env : WorkerEnv) (i : Nat),
        env.acquireTimesOut i = false → env.isSendFrame i = true →
        (acquirePass env i w).isSome = false) := by
  have hfit : toInt32 (h * f) = h * f := (toInt32_eq_iff (h * f)).mpr ⟨hlo, hhi⟩
  have hchk : getMaxHeight w = intDiv (h * f) b := by
    simp only [getMaxHeight, getFramesPerReadout, hh, hf, hb, hfit]
  refine ⟨?_, ?_, ?_, ?_⟩
  · intro hb0 hcorner
    have h1 : getMaxHeight w = some (Int.tdiv (h * f) b) := by
      rw [hchk]
      simp only [intDiv, hb0, hcorner, if_false]
    refine ⟨h1, (tdiv_range _ b hlo hhi hb0 hcorner).1,
      (tdiv_range _ b hlo hhi hb0 hcorner).2, ?_⟩
    intro env i a ht hs hw
    exact makeFrame_mem_acquirePass env i w a _ ht hs hw h1
  · intro hb0
    rw [hchk]
    simp [intDiv, hb0]
  · intro hc
    rw [hchk]
    simp [intDiv, hc.1, hc.2]
  · intro hnone env i ht hs
    rw [acquirePass_trapped env i w ht hs (Or.inr hnone)]
    rfl

/-- C23, evaluated: height 5, three frames per readout and a binning of 2
give 15 / 2 = 7 (dividing first would give 6), a negative product is
truncated toward zero, and a binning of 0 gives no value. -/
theorem getMaxHeight_spec_witness :
    getMaxHeight (heightWorld 5 3 2) = some 7 ∧
    5 * Int.tdiv 3 2 = 5 ∧ Int.tdiv 5 2 * 3 = 6 ∧
    getMaxHeight (heightWorld 5 3 0) = none ∧
    getMaxHeight (heightWorld (-7) 1 2) = some (-3) :=
  ⟨((getMaxHeight_spec (heightWorld 5 3 2) 5 3 2 rfl rfl rfl (by decide) (by decide)).1
      (by decide) (by decide)).1,
    by decide, by decide,
    (getMaxHeight_spec (heightWorld 5 3 0) 5 3 0 rfl rfl rfl (by decide) (by decide)).2.1 rfl,
    by decide⟩

/-- C23 fails as stated: with ROIHeight `-2^31`, one frame per readout and a
binning of -1 the product is a signed 32-bit value and the binning is not 0,
yet the quotient `2^31` is no signed 32-bit value and the division has no
value. -/
theorem getMaxHeight_overflow_counterexample :
    (-1 : Int) ≠ 0 ∧
    (-2147483648 : Int) ≤ -2147483648 * 1 ∧ (-2147483648 : Int) * 1 ≤ 2147483647 ∧
    Int.tdiv (-2147483648 * 1) (-1) = 2147483648 ∧
    ¬ Int.tdiv (-2147483648 * 1) (-1) ≤ 2147483647 ∧
    getMaxHeight (heightWorld (-2147483648) 1 (-1)) = none := by
  refine ⟨by decide, by decide, by decide, by decide, by decide, by decide⟩

end PIXIS
